import Mathlib

/-!
# The mojo shell: capability resolution and connection brokering

A shallow embedding of `mojo/shell/shell.cc` (capability resolution, the
`Shell::Instance` connector and the top-level `Shell` registry) together with
theorems about it.

Conventions of the embedding

* `std::set<T>` is a list read as a set (`StdSet`): `insert` adds an element
  only when it is absent, and results are compared by membership.
* `std::map<K, V>` is an association list (`StdMap`): `find` returns the first
  binding of a key, `assign` is `m[k] = v`.
* Mojo pipes, bindings and callbacks are handles (numbers); every message sent
  and every callback run is appended to the event log of the `Shell` state.
* `DCHECK`/`CHECK` failures end the run with `Except.error`.
* Two identities are the same map key when their three fields are equal.
* `LOG(ERROR)` output is not part of the model.
* Helpers and constants that `shell.cc` takes from other files (`IsValidName`,
  `GetNamePath`, `base::IsValidGUID`, the mojom constants) are the fields of
  `Externals`, a parameter of every definition that uses them.
-/

set_option autoImplicit false

namespace mojo.shell

/-! ## Containers -/

/-- A `std::set<T>`: a list read as a set. -/
abbrev StdSet (α : Type) := List α

/-- The call `s.insert(x)`: nothing changes when `x` is already present. -/
def StdSet.insert {α : Type} [DecidableEq α] (x : α) (s : StdSet α) : StdSet α :=
  if x ∈ s then s else s ++ [x]

/-- A `std::map<K, V>`: an association list. -/
abbrev StdMap (K V : Type) := List (K × V)

/-- The call `m.find(k)`: `none` stands for `m.end()`. -/
def StdMap.find {K V : Type} [DecidableEq K] : StdMap K V → K → Option V
  | [], _ => none
  | (k0, v) :: rest, k => if k0 = k then some v else StdMap.find rest k

/-- The call `m.count(k)`, which is 0 or 1 for a map. -/
def StdMap.count {K V : Type} [DecidableEq K] (m : StdMap K V) (k : K) : Nat :=
  match StdMap.find m k with
  | some _ => 1
  | none => 0

/-- The assignment `m[k] = v`: overwrites the binding of `k` or adds one. -/
def StdMap.assign {K V : Type} [DecidableEq K] : StdMap K V → K → V → StdMap K V
  | [], k, v => [(k, v)]
  | (k0, v0) :: rest, k, v =>
    if k0 = k then (k0, v) :: rest else (k0, v0) :: StdMap.assign rest k v

/-- The call `m.erase(it)` for the iterator found for `k`. -/
def StdMap.erase {K V : Type} [DecidableEq K] : StdMap K V → K → StdMap K V
  | [], _ => []
  | (k0, v0) :: rest, k => if k0 = k then rest else (k0, v0) :: StdMap.erase rest k

/-! ## Capability model (`capabilities.h`, as used by `shell.cc`) -/

/-- The interfaces and classes a source requests of one target. -/
structure CapabilityRequest where
  interfaces : StdSet String
  classes : StdSet String
  deriving DecidableEq, Repr

/-- The default-constructed `CapabilityRequest()`. -/
def CapabilityRequest.empty : CapabilityRequest := ⟨[], []⟩

/-- A manifest: the classes a service provides and what it requires of others. -/
structure CapabilitySpec where
  provided : StdMap String (StdSet String)
  required : StdMap String CapabilityRequest
  deriving DecidableEq, Repr

/-- The default-constructed `CapabilitySpec()`. -/
def CapabilitySpec.empty : CapabilitySpec := ⟨[], []⟩

/-- An `Identity`: name, user and instance qualifier. -/
structure Identity where
  name : String
  user_id : String
  instance_ : String
  deriving DecidableEq, Repr

/-- The call `identity.set_user_id(u)`. -/
def Identity.set_user_id (i : Identity) (u : String) : Identity :=
  { i with user_id := u }

/-- `GetPermissiveCapabilities` (shell.cc:54-60). -/
def GetPermissiveCapabilities : CapabilitySpec :=
  let capabilities := CapabilitySpec.empty
  let spec := CapabilityRequest.empty
  let spec := { spec with interfaces := StdSet.insert "*" spec.interfaces }
  { capabilities with required := StdMap.assign capabilities.required "*" spec }

/-- `GetCapabilityRequest` (shell.cc:62-76). -/
def GetCapabilityRequest (source_spec : CapabilitySpec) (target : Identity) :
    CapabilityRequest :=
  match StdMap.find source_spec.required target.name with
  | some r => r
  | none =>
    match StdMap.find source_spec.required "*" with
    | some r => r
    | none => CapabilityRequest.empty

/-- `GenerateCapabilityRequestForConnection` (shell.cc:78-93): the outer loop
runs over the requested classes, the inner one over the interfaces the target
provides under that class. -/
def GenerateCapabilityRequestForConnection (source_spec : CapabilitySpec)
    (target : Identity) (target_spec : CapabilitySpec) : CapabilityRequest :=
  let request := GetCapabilityRequest source_spec target
  request.classes.foldl
    (fun (request : CapabilityRequest) (class_name : String) =>
      match StdMap.find target_spec.provided class_name with
      | some provided_interfaces =>
        provided_interfaces.foldl
          (fun (request : CapabilityRequest) (interface_name : String) =>
            { request with interfaces := StdSet.insert interface_name request.interfaces })
          request
      | none => request)
    request

/-- The resolution rule in the words of the specification (section 4.1): the
entry for the target name if present, else the wildcard entry if present,
else the empty request. -/
def ResolveCapabilityRequest (sourceSpec : CapabilitySpec) (targetIdentity : Identity) :
    CapabilityRequest :=
  if (StdMap.find sourceSpec.required targetIdentity.name).isSome then
    (StdMap.find sourceSpec.required targetIdentity.name).getD CapabilityRequest.empty
  else if (StdMap.find sourceSpec.required "*").isSome then
    (StdMap.find sourceSpec.required "*").getD CapabilityRequest.empty
  else
    CapabilityRequest.empty

/-! ## What `shell.cc` takes from other files -/

/-- Helpers and mojom constants that `shell.cc` uses and that are defined in
other files (`names.h`, `base/guid.h`, `connector.mojom`, `base/process`). -/
structure Externals where
  /-- `IsValidName(name)` of `names.h`. -/
  IsValidName : String → Bool
  /-- `GetNamePath(name)` of `names.h`. -/
  GetNamePath : String → String
  /-- `base::IsValidGUID(guid)`. -/
  IsValidGUID : String → Bool
  /-- `mojom::kRootUserID`. -/
  kRootUserID : String
  /-- `mojom::kInheritUserID`. -/
  kInheritUserID : String
  /-- `mojom::kInvalidInstanceID`. -/
  kInvalidInstanceID : Nat
  /-- `base::Process::Current().Pid()`. -/
  CurrentPid : Nat
  /-- The qualifier that the constructor `Identity(name, user_id, instance)` of
  `identity.h` stores for `name` and `instance`. -/
  IdentityInstance : String → String → String
  /-- The qualifier that the constructor `Identity(name, user_id)` stores. -/
  IdentityDefaultInstance : String → String

def kCatalogName : String := "mojo:catalog"
def kShellName : String := "mojo:shell"
def kCapabilityClass_UserID : String := "user_id"
def kCapabilityClass_ClientProcess : String := "client_process"
def kCapabilityClass_InstanceName : String := "instance_name"

/-! ## Connection data -/

/-- A message pipe endpoint, binding or callback, named by a number. -/
abbrev Handle := Nat

/-- `mojom::ConnectResult`. -/
inductive ConnectResult
  | SUCCEEDED
  | INVALID_ARGUMENT
  | ACCESS_DENIED
  deriving DecidableEq, Repr

/-- `mojom::ClientProcessConnection`: each handle is `none` when invalid. -/
structure ClientProcessConnection where
  shell_client_factory : Option Handle
  pid_receiver_request : Option Handle
  deriving DecidableEq, Repr

/-- `ConnectParams` (`connect_params.h`), with the fields `shell.cc` sets and reads. -/
structure ConnectParams where
  source : Identity
  target : Identity
  remote_interfaces : Option Handle
  local_interfaces : Option Handle
  client_process_connection : Option ClientProcessConnection
  connect_callback : Handle
  deriving DecidableEq, Repr

/-- `mojom::InstanceInfo`, as filled in by `Instance::CreateInstanceInfo`. -/
structure InstanceInfo where
  id : Nat
  identity : Identity
  pid : Option Nat
  deriving DecidableEq, Repr

/-- What the broker does that can be observed from outside. -/
inductive Event
  /-- `callback.Run(result, user_id, instance_id)` on a `ConnectCallback`. -/
  | ConnectCallbackRun (callback : Handle) (result : ConnectResult)
      (user_id : String) (instance_id : Nat)
  /-- `TRACE_EVENT_INSTANT1("mojo_shell", "Shell::Connect", ...)`. -/
  | TraceShellConnect (original_name : String)
  /-- `shell_client_->AcceptConnection(...)` sent by the instance `instance_id`. -/
  | AcceptConnection (instance_id : Nat) (source : Identity) (source_id : Nat)
      (remote_interfaces local_interfaces : Option Handle)
      (allowed_capabilities : CapabilityRequest) (resolved_name : String)
  /-- `shell_resolver_->ResolveMojoName(name, ...)`. -/
  | ResolveMojoName (name : String)
  /-- `listener->InstanceCreated(info)`. -/
  | InstanceCreated (listener : Handle) (info : InstanceInfo)
  /-- `listener->InstanceDestroyed(id)`. -/
  | InstanceDestroyed (listener : Handle) (id : Nat)
  /-- `listener->InstancePIDAvailable(id, pid)`. -/
  | InstancePIDAvailable (listener : Handle) (id : Nat) (pid : Nat)
  /-- `listener->SetExistingInstances(instances)`. -/
  | SetExistingInstances (listener : Handle) (instances : List InstanceInfo)
  /-- `instance_quit_callback_.Run(identity)`. -/
  | InstanceQuitCallbackRun (callback : Handle) (identity : Identity)
  /-- `shell_client_->Initialize(identity, id, ...)` sent by the instance `instance_id`. -/
  | Initialize (instance_id : Nat) (identity : Identity)
  /-- `loader->Load(name, request)`. -/
  | LoaderLoad (loader : Handle) (name : String) (request : Option Handle)
  /-- `factory->CreateShellClient(request, name)`. -/
  | FactoryCreateShellClient (factory : Option Handle) (request : Option Handle)
      (name : String)
  /-- `pid_receiver_binding_.Bind(request)` of the instance `instance_id`. -/
  | BindPIDReceiver (instance_id : Nat) (request : Option Handle)
  /-- `runner->Start(path, identity, start_sandboxed, request, ...)`, where
  `path` is `util::UrlToFilePath(file_url)`. -/
  | RunnerStart (runner : Handle) (file_url : String) (identity : Identity)
      (start_sandboxed : Bool) (request : Option Handle)
  /-- The `delete` of a `Loader`. -/
  | DeleteLoader (loader : Handle)
  deriving DecidableEq, Repr

/-- The failed assertion that ended a run. -/
inductive Fatal
  | CHECK (site : String)
  | DCHECK (site : String)
  deriving DecidableEq, Repr

/-- `Shell::Instance` (shell.cc:97-398): the data members the model follows. -/
structure Instance where
  id : Nat
  identity : Identity
  capability_spec : CapabilitySpec
  allow_any_application : Bool
  /-- `shell_client_`: `none` once reset. -/
  shell_client : Option Handle
  /-- `connectors_`: the bound `mojom::Connector` pipes. -/
  connectors : List Handle
  /-- `pid_`: `none` is `base::kNullProcessId`. -/
  pid : Option Nat
  deriving DecidableEq, Repr

/-- `Shell` (shell.h): its data members, the function-local static of
`GenerateUniqueID`, the resolver requests in flight and the event log. -/
structure Shell where
  /-- `name_to_loader_`: a stored `Loader*` may be null (`none`). -/
  name_to_loader : StdMap String (Option Handle)
  default_loader : Option Handle
  identity_to_instance : StdMap Identity Instance
  shell_client_factories : StdMap Identity Handle
  instance_listeners : List Handle
  instance_quit_callback : Option Handle
  native_runners : List Handle
  /-- The `OnGotResolvedName` callbacks bound by `Shell::Connect`, with the
  name each resolver request was issued for. -/
  pending_resolutions : List (String × ConnectParams × Option Handle)
  /-- The `static uint32_t id` of `Instance::GenerateUniqueID`. -/
  unique_id : Nat
  log : List Event
  deriving DecidableEq, Repr

/-- Appends one event to the log. -/
def Shell.emit (s : Shell) (e : Event) : Shell :=
  { s with log := s.log ++ [e] }

/-! ## `Shell`: lookups -/

/-- `Shell::GetLoaderForName` (shell.cc:712-717). -/
def Shell.GetLoaderForName (s : Shell) (name : String) : Option Handle :=
  match StdMap.find s.name_to_loader name with
  | some loader => loader
  | none => s.default_loader

/-- `Shell::GetExistingInstance` (shell.cc:544-547). -/
def Shell.GetExistingInstance (s : Shell) (identity : Identity) : Option Instance :=
  StdMap.find s.identity_to_instance identity

/-- `Shell::GetExistingOrRootInstance` (shell.cc:549-558). -/
def Shell.GetExistingOrRootInstance (E : Externals) (s : Shell) (identity : Identity) :
    Option Instance :=
  match s.GetExistingInstance identity with
  | some inst => some inst
  | none =>
    let root_identity := identity
    let root_identity := root_identity.set_user_id E.kRootUserID
    s.GetExistingInstance root_identity

/-! ## `Shell::Instance` -/

/-- `Instance::GenerateUniqueID` (shell.cc:367-372): the counter is a `uint32_t`. -/
def Instance.GenerateUniqueID (E : Externals) (shell : Shell) : Except Fatal (Nat × Shell) :=
  let id := (shell.unique_id + 1) % 2 ^ 32
  if id = E.kInvalidInstanceID then
    Except.error (Fatal.CHECK "CHECK_NE(mojom::kInvalidInstanceID, id)")
  else
    Except.ok (id, { shell with unique_id := id })

/-- The constructor `Instance::Instance` (shell.cc:103-123). -/
def Instance.construct (E : Externals) (shell_client : Option Handle) (shell : Shell)
    (identity : Identity) (capability_spec : CapabilitySpec) :
    Except Fatal (Instance × Shell) :=
  match Instance.GenerateUniqueID E shell with
  | Except.error f => Except.error f
  | Except.ok (id, shell) =>
    let self : Instance :=
      { id := id
        identity := identity
        capability_spec := capability_spec
        allow_any_application := decide (StdMap.count capability_spec.required "*" = 1)
        shell_client := shell_client
        connectors := []
        pid := none }
    let self : Instance :=
      if identity.name = kShellName ∨ (shell.GetLoaderForName identity.name).isSome then
        { self with pid := some E.CurrentPid }
      else self
    if E.kInvalidInstanceID = self.id then
      Except.error (Fatal.DCHECK "DCHECK_NE(mojom::kInvalidInstanceID, id_)")
    else
      Except.ok (self, shell)

/-- `Instance::HasClass` (shell.cc:360-365). -/
def Instance.HasClass (self : Instance) (class_name : String) : Bool :=
  match StdMap.find self.capability_spec.required kShellName with
  | none => false
  | some r => decide (class_name ∈ r.classes)

/-- `Instance::ConnectToClient` (shell.cc:155-171). -/
def Instance.ConnectToClient (self : Instance) (E : Externals) (shell : Shell)
    (params : ConnectParams) : Shell :=
  let shell := shell.emit
    (Event.ConnectCallbackRun params.connect_callback ConnectResult.SUCCEEDED
      self.identity.user_id self.id)
  let source_id := E.kInvalidInstanceID
  let spec := CapabilityRequest.empty
  let spec := { spec with interfaces := StdSet.insert "*" spec.interfaces }
  let (spec, source_id) :=
    match shell.GetExistingInstance params.source with
    | some source =>
      (GenerateCapabilityRequestForConnection source.capability_spec self.identity
        self.capability_spec, source.id)
    | none => (spec, source_id)
  shell.emit
    (Event.AcceptConnection self.id params.source source_id params.remote_interfaces
      params.local_interfaces spec params.target.name)

/-- `Instance::ValidateIdentity` (shell.cc:266-281). -/
def Instance.ValidateIdentity (E : Externals) (shell : Shell) (identity : Identity)
    (callback : Handle) : Bool × Shell :=
  if !E.IsValidName identity.name then
    (false, shell.emit (Event.ConnectCallbackRun callback ConnectResult.INVALID_ARGUMENT
      E.kInheritUserID E.kInvalidInstanceID))
  else if !E.IsValidGUID identity.user_id then
    (false, shell.emit (Event.ConnectCallbackRun callback ConnectResult.INVALID_ARGUMENT
      E.kInheritUserID E.kInvalidInstanceID))
  else
    (true, shell)

/-- `Instance::ValidateClientProcessConnection` (shell.cc:283-317). -/
def Instance.ValidateClientProcessConnection (self : Instance) (E : Externals) (shell : Shell)
    (client_process_connection : Option ClientProcessConnection) (target : Identity)
    (callback : Handle) : Bool × Shell :=
  match client_process_connection with
  | none => (true, shell)
  | some connection =>
    if !self.HasClass kCapabilityClass_ClientProcess then
      (false, shell.emit (Event.ConnectCallbackRun callback ConnectResult.ACCESS_DENIED
        E.kInheritUserID E.kInvalidInstanceID))
    else if !connection.shell_client_factory.isSome ||
        !connection.pid_receiver_request.isSome then
      (false, shell.emit (Event.ConnectCallbackRun callback ConnectResult.INVALID_ARGUMENT
        E.kInheritUserID E.kInvalidInstanceID))
    else if (shell.GetExistingOrRootInstance E target).isSome then
      (false, shell.emit (Event.ConnectCallbackRun callback ConnectResult.INVALID_ARGUMENT
        E.kInheritUserID E.kInvalidInstanceID))
    else
      (true, shell)

/-- `Instance::ValidateCapabilities` (shell.cc:319-358). -/
def Instance.ValidateCapabilities (self : Instance) (E : Externals) (shell : Shell)
    (target : Identity) (callback : Handle) : Bool × Shell :=
  if target.user_id ≠ self.identity.user_id ∧ target.user_id ≠ E.kRootUserID ∧
      ¬ self.HasClass kCapabilityClass_UserID = true then
    (false, shell.emit (Event.ConnectCallbackRun callback ConnectResult.ACCESS_DENIED
      E.kInheritUserID E.kInvalidInstanceID))
  else if target.instance_ ≠ "" ∧ target.instance_ ≠ E.GetNamePath target.name ∧
      ¬ self.HasClass kCapabilityClass_InstanceName = true then
    (false, shell.emit (Event.ConnectCallbackRun callback ConnectResult.ACCESS_DENIED
      E.kInheritUserID E.kInvalidInstanceID))
  else if self.allow_any_application = true ∨
      (StdMap.find self.capability_spec.required target.name).isSome = true then
    (true, shell)
  else
    (false, shell.emit (Event.ConnectCallbackRun callback ConnectResult.ACCESS_DENIED
      E.kInheritUserID E.kInvalidInstanceID))

/-! ## `Shell`: routing a connect -/

/-- `Shell::ConnectToExistingInstance` (shell.cc:566-571). -/
def Shell.ConnectToExistingInstance (E : Externals) (s : Shell) (params : ConnectParams) :
    Bool × Shell :=
  match s.GetExistingOrRootInstance E params.target with
  | some inst => (true, inst.ConnectToClient E s params)
  | none => (false, s)

/-- The private `Shell::Connect(params, client)` (shell.cc:522-542). The
resolver answers later: the bound `OnGotResolvedName` callback is queued. -/
def Shell.Connect (E : Externals) (s : Shell) (params : ConnectParams)
    (client : Option Handle) : Except Fatal Shell :=
  let s := s.emit (Event.TraceShellConnect params.target.name)
  if !E.IsValidName params.target.name then
    Except.error (Fatal.DCHECK "DCHECK(IsValidName(params->target().name()))")
  else if !E.IsValidGUID params.target.user_id then
    Except.error (Fatal.DCHECK "DCHECK(base::IsValidGUID(params->target().user_id()))")
  else if E.kInheritUserID = params.target.user_id then
    Except.error (Fatal.DCHECK "DCHECK_NE(mojom::kInheritUserID, params->target().user_id())")
  else if !(!client.isSome || !(StdMap.count s.identity_to_instance params.target != 0)) then
    Except.error (Fatal.DCHECK
      "DCHECK(!client.is_bound() || !identity_to_instance_.count(params->target()))")
  else
    let resolve (s : Shell) : Except Fatal Shell :=
      let name := params.target.name
      Except.ok
        { (s.emit (Event.ResolveMojoName name)) with
          pending_resolutions := s.pending_resolutions ++ [(name, params, client)] }
    if !client.isSome then
      match s.ConnectToExistingInstance E params with
      | (true, s) => Except.ok s
      | (false, s) => resolve s
    else
      resolve s

/-- The public `Shell::Connect(params)` (shell.cc:441-443). -/
def Shell.Connect_1 (E : Externals) (s : Shell) (params : ConnectParams) :
    Except Fatal Shell :=
  Shell.Connect E s params none

/-- `Instance::Connect` (shell.cc:216-242), the `mojom::Connector` method.
The argument `target_ptr` is the `Identity` that `target_ptr.To<Identity>()`
yields. -/
def Instance.Connect (self : Instance) (E : Externals) (shell : Shell) (target_ptr : Identity)
    (remote_interfaces local_interfaces : Option Handle)
    (client_process_connection : Option ClientProcessConnection) (callback : Handle) :
    Except Fatal Shell :=
  let target := target_ptr
  let target :=
    if target.user_id = E.kInheritUserID then target.set_user_id self.identity.user_id
    else target
  match Instance.ValidateIdentity E shell target callback with
  | (false, shell) => Except.ok shell
  | (true, shell) =>
    match self.ValidateClientProcessConnection E shell client_process_connection target
      callback with
    | (false, shell) => Except.ok shell
    | (true, shell) =>
      match self.ValidateCapabilities E shell target callback with
      | (false, shell) => Except.ok shell
      | (true, shell) =>
        let params : ConnectParams :=
          { source := self.identity
            target := target
            remote_interfaces := remote_interfaces
            local_interfaces := local_interfaces
            client_process_connection := client_process_connection
            connect_callback := callback }
        Shell.Connect_1 E shell params

/-! ## Identities built by `shell.cc` -/

/-- The constructor call `Identity(name, user_id, instance)`. -/
def Identity.construct (E : Externals) (name user_id qualifier : String) : Identity :=
  { name := name, user_id := user_id, instance_ := E.IdentityInstance name qualifier }

/-- The constructor call `Identity(name, user_id)`. -/
def Identity.construct_2 (E : Externals) (name user_id : String) : Identity :=
  { name := name, user_id := user_id, instance_ := E.IdentityDefaultInstance name }

/-- `CreateShellIdentity` (shell.cc:50-52). -/
def CreateShellIdentity (E : Externals) : Identity :=
  Identity.construct_2 E kShellName E.kRootUserID

/-- The callback of a `ConnectParams` whose `connect_callback` was never set. -/
def kUnsetConnectCallback : Handle := 0

/-- A `new ConnectParams` after `set_source` and `set_target`. -/
def ConnectParams.fromTo (source target : Identity) : ConnectParams :=
  { source := source
    target := target
    remote_interfaces := none
    local_interfaces := none
    client_process_connection := none
    connect_callback := kUnsetConnectCallback }

/-! ## `Shell`: the registry and its listeners -/

/-- `Instance::CreateInstanceInfo` (shell.cc:197-203). -/
def Instance.CreateInstanceInfo (self : Instance) : InstanceInfo :=
  { id := self.id, identity := self.identity, pid := self.pid }

/-- The data members of the live instance `self` as the registry holds them.
The registry owns every `Instance`, so a change to a member of `self` is a
change of the entry keyed by its identity. -/
def Shell.storeInstance (s : Shell) (self : Instance) : Shell :=
  { s with
    identity_to_instance :=
      s.identity_to_instance.map
        (fun entry => if entry.1 = self.identity then (entry.1, self) else entry) }

/-- The loop `instance_listeners_.ForAllPtrs(...)`: one message per listener. -/
def Shell.ForAllPtrs (s : Shell) (message : Handle → Event) : Shell :=
  s.instance_listeners.foldl (fun (s : Shell) (listener : Handle) => s.emit (message listener)) s

/-- The site of the assertion in `Shell::CreateInstance`. -/
def kCreateInstanceDCHECK : String :=
  "DCHECK(identity_to_instance_.find(target) == identity_to_instance_.end())"

/-- `Shell::CreateInstance` (shell.cc:573-588). -/
def Shell.CreateInstance (E : Externals) (s : Shell) (target : Identity)
    (spec : CapabilitySpec) (client : Option Handle) : Except Fatal (Instance × Shell) :=
  if target.user_id = E.kInheritUserID then
    Except.error (Fatal.CHECK "CHECK(target.user_id() != mojom::kInheritUserID)")
  else
    match Instance.construct E client s target spec with
    | Except.error f => Except.error f
    | Except.ok (created, s) =>
      if (StdMap.find s.identity_to_instance target).isSome then
        Except.error (Fatal.DCHECK kCreateInstanceDCHECK)
      else
        let s := { s with
          identity_to_instance := StdMap.assign s.identity_to_instance target created }
        let info := created.CreateInstanceInfo
        let s := s.ForAllPtrs (fun listener => Event.InstanceCreated listener info)
        let s := s.emit (Event.Initialize created.id created.identity)
        Except.ok (created, s)

/-- `Shell::OnInstanceError` (shell.cc:507-520). The `int id` holds the
`uint32_t` id and is passed back as a `uint32_t`, so the value is the same. -/
def Shell.OnInstanceError (s : Shell) (inst : Instance) : Except Fatal Shell :=
  let identity := inst.identity
  match StdMap.find s.identity_to_instance identity with
  | none => Except.error (Fatal.DCHECK "DCHECK(it != identity_to_instance_.end())")
  | some _ =>
    let id := inst.id
    let s := { s with identity_to_instance := StdMap.erase s.identity_to_instance identity }
    let s := s.ForAllPtrs (fun listener => Event.InstanceDestroyed listener id)
    match s.instance_quit_callback with
    | some callback => Except.ok (s.emit (Event.InstanceQuitCallbackRun callback identity))
    | none => Except.ok s

/-- `Shell::NotifyPIDAvailable` (shell.cc:560-564). -/
def Shell.NotifyPIDAvailable (s : Shell) (id : Nat) (pid : Nat) : Shell :=
  s.ForAllPtrs (fun listener => Event.InstancePIDAvailable listener id pid)

/-- `Shell::AddInstanceListener` (shell.cc:590-598). -/
def Shell.AddInstanceListener (s : Shell) (listener : Handle) : Shell :=
  let instances := s.identity_to_instance.map (fun entry => entry.2.CreateInstanceInfo)
  let s := s.emit (Event.SetExistingInstances listener instances)
  { s with instance_listeners := s.instance_listeners ++ [listener] }

/-- `Shell::SetInstanceQuitCallback` (shell.cc:436-439). -/
def Shell.SetInstanceQuitCallback (s : Shell) (callback : Option Handle) : Shell :=
  { s with instance_quit_callback := callback }

/-- `Shell::SetLoaderForName` (shell.cc:460-466). -/
def Shell.SetLoaderForName (s : Shell) (loader : Option Handle) (name : String) : Shell :=
  let s :=
    match StdMap.find s.name_to_loader name with
    | some (some old) => s.emit (Event.DeleteLoader old)
    | _ => s
  { s with name_to_loader := StdMap.assign s.name_to_loader name loader }

/-- `Shell::set_default_loader` (shell.h): the `scoped_ptr` deletes the loader
it held. -/
def Shell.set_default_loader (s : Shell) (loader : Option Handle) : Shell :=
  let s :=
    match s.default_loader with
    | some old => s.emit (Event.DeleteLoader old)
    | none => s
  { s with default_loader := loader }

/-- `Shell::CleanupRunner` (shell.cc:719-726). -/
def Shell.CleanupRunner (s : Shell) (runner : Handle) : Shell :=
  { s with native_runners := s.native_runners.erase runner }

/-- `Shell::OnShellClientFactoryLost` (shell.cc:628-633). -/
def Shell.OnShellClientFactoryLost (s : Shell) (which : Identity) : Except Fatal Shell :=
  match StdMap.find s.shell_client_factories which with
  | none => Except.error (Fatal.DCHECK "DCHECK(it != shell_client_factories_.end())")
  | some _ =>
    Except.ok { s with shell_client_factories := StdMap.erase s.shell_client_factories which }

/-! ## `Shell::Instance`: lifetime -/

/-- `Instance::OnConnectionLost` (shell.cc:132-139). -/
def Instance.OnConnectionLost (self : Instance) (shell : Shell) : Except Fatal Shell :=
  if self.connectors = [] ∧ self.shell_client = none then
    shell.OnInstanceError self
  else
    Except.ok shell

/-- `Instance::OnShellClientLost` (shell.cc:127-130). -/
def Instance.OnShellClientLost (self : Instance) (shell : Shell) : Except Fatal Shell :=
  let self := { self with shell_client := none }
  let shell := shell.storeInstance self
  self.OnConnectionLost shell

/-- Modelled from the spec: the loss of one connector channel (section 4.5).
The `BindingSet` of `binding_set.h` drops the binding of the lost pipe and
then runs the connection error handler, which is `Instance::OnConnectionLost`
(shell.cc:144-145). -/
def Instance.OnConnectorLost (self : Instance) (shell : Shell) (connector : Handle) :
    Except Fatal Shell :=
  let self := { self with connectors := self.connectors.erase connector }
  let shell := shell.storeInstance self
  self.OnConnectionLost shell

/-- `Instance::OnInitializeResponse` (shell.cc:141-147). -/
def Instance.OnInitializeResponse (self : Instance) (shell : Shell)
    (connector_request : Option Handle) : Shell :=
  match connector_request with
  | some request =>
    let self := { self with connectors := self.connectors ++ [request] }
    shell.storeInstance self
  | none => shell

/-- `Instance::Clone` (shell.cc:244-246). -/
def Instance.Clone (self : Instance) (shell : Shell) (request : Handle) : Shell :=
  let self := { self with connectors := self.connectors ++ [request] }
  shell.storeInstance self

/-- `Instance::PIDAvailable` (shell.cc:374-377); `SetPID` forwards to it. -/
def Instance.PIDAvailable (self : Instance) (shell : Shell) (pid : Nat) : Shell :=
  let self := { self with pid := some pid }
  let shell := shell.storeInstance self
  shell.NotifyPIDAvailable self.id pid

/-- The handles a run creates: the pipe of `GetProxy(&client)`, the two pipes
opened to reach a `ShellClientFactory`, and the runner of
`native_runner_factory_->Create(path)`. -/
structure FreshHandles where
  shell_client : Handle
  remote_interfaces : Handle
  factory : Handle
  runner : Handle
  deriving DecidableEq, Repr

/-- `Instance::StartWithClientProcessConnection` (shell.cc:173-181). -/
def Instance.StartWithClientProcessConnection (self : Instance) (shell : Shell)
    (request : Option Handle) (client_process_connection : ClientProcessConnection) : Shell :=
  let shell := shell.emit
    (Event.BindPIDReceiver self.id client_process_connection.pid_receiver_request)
  shell.emit (Event.FactoryCreateShellClient client_process_connection.shell_client_factory
    request self.identity.name)

/-- `Instance::StartWithFilePath` (shell.cc:183-195). -/
def Instance.StartWithFilePath (self : Instance) (shell : Shell) (request : Option Handle)
    (file_url : String) (runner : Handle) : Shell :=
  let start_sandboxed := false
  let shell := shell.emit
    (Event.RunnerStart runner file_url self.identity start_sandboxed request)
  { shell with native_runners := shell.native_runners ++ [runner] }

/-! ## `Shell`: creating and launching -/

/-- `Shell::LoadWithLoader` (shell.cc:703-710). -/
def Shell.LoadWithLoader (s : Shell) (target : Identity) (request : Option Handle) :
    Bool × Shell :=
  match s.GetLoaderForName target.name with
  | none => (false, s)
  | some loader => (true, s.emit (Event.LoaderLoad loader target.name request))

/-- Modelled from the spec: `ConnectToInterface` of `connect_util.h`, which
"recursively requests a client" (section 4.4, step 3d): a connect from
`source` to `target` through `Shell::Connect`, with a new
`InterfaceProvider` pipe and no callback set. -/
def ConnectToInterface (E : Externals) (s : Shell) (source target : Identity)
    (remote_interfaces : Handle) : Except Fatal Shell :=
  Shell.Connect_1 E s
    { (ConnectParams.fromTo source target) with remote_interfaces := some remote_interfaces }

/-- `Shell::GetShellClientFactory` (shell.cc:609-626). -/
def Shell.GetShellClientFactory (E : Externals) (s : Shell)
    (shell_client_factory_identity source_identity : Identity) (fresh : FreshHandles) :
    Except Fatal (Handle × Shell) :=
  match StdMap.find s.shell_client_factories shell_client_factory_identity with
  | some factory => Except.ok (factory, s)
  | none =>
    match ConnectToInterface E s source_identity shell_client_factory_identity
      fresh.remote_interfaces with
    | Except.error f => Except.error f
    | Except.ok s =>
      let factory := fresh.factory
      Except.ok (factory,
        { s with
          shell_client_factories :=
            StdMap.assign s.shell_client_factories shell_client_factory_identity factory })

/-- `Shell::CreateShellClient` (shell.cc:600-607). -/
def Shell.CreateShellClient (E : Externals) (s : Shell) (source shell_client_factory : Identity)
    (name : String) (request : Option Handle) (fresh : FreshHandles) : Except Fatal Shell :=
  match s.GetShellClientFactory E shell_client_factory source fresh with
  | Except.error f => Except.error f
  | Except.ok (factory, s) =>
    Except.ok (s.emit (Event.FactoryCreateShellClient (some factory) request name))

/-- What `Shell::OnGotResolvedName` holds after it has created an instance and
delivered the connect to it (shell.cc:671), before any backing is started. -/
structure CreatedInstance where
  created : Instance
  source : Identity
  target : Identity
  instance_name : String
  request : Option Handle
  client_process_connection : Option ClientProcessConnection
  deriving DecidableEq, Repr

/-- The first part of `Shell::OnGotResolvedName` (shell.cc:641-671): the final
target identity, the delivery to an instance that exists by now (`none`), or
the creation of an instance and the delivery to it. -/
def Shell.OnGotResolvedName_create (E : Externals) (s : Shell) (params : ConnectParams)
    (client : Option Handle) (resolved_name resolved_instance : String)
    (capabilities_ptr : Option CapabilitySpec) (fresh : FreshHandles) :
    Except Fatal (Option CreatedInstance × Shell) :=
  let instance_name := params.target.instance_
  let instance_name :=
    if instance_name = E.GetNamePath params.target.name ∧
        resolved_instance ≠ E.GetNamePath resolved_name then resolved_instance
    else instance_name
  let target := Identity.construct E params.target.name params.target.user_id instance_name
  let params := { params with target := target }
  match s.ConnectToExistingInstance E params with
  | (true, s) => Except.ok (none, s)
  | (false, s) =>
    let source := params.source
    let capabilities := GetPermissiveCapabilities
    let capabilities :=
      match capabilities_ptr with
      | some manifest => manifest
      | none => capabilities
    let client_process_connection := params.client_process_connection
    let params := { params with client_process_connection := none }
    let (client, request) :=
      if !client.isSome then (some fresh.shell_client, some fresh.shell_client)
      else (client, none)
    match s.CreateInstance E target capabilities client with
    | Except.error f => Except.error f
    | Except.ok (created, s) =>
      let s := created.ConnectToClient E s params
      Except.ok (some
        { created := created
          source := source
          target := target
          instance_name := instance_name
          request := request
          client_process_connection := client_process_connection }, s)

/-- The second part of `Shell::OnGotResolvedName` (shell.cc:673-700): the
backing of the instance just created. -/
def Shell.OnGotResolvedName_launch (E : Externals) (s : Shell) (made : CreatedInstance)
    (resolved_name : String) (capabilities_ptr : Option CapabilitySpec)
    (file_url : Option String) (fresh : FreshHandles) : Except Fatal Shell :=
  if !made.request.isSome then
    Except.ok s
  else
    let launch (s : Shell) : Except Fatal Shell :=
      match file_url, capabilities_ptr with
      | some url, some _ =>
        if made.target.name ≠ resolved_name then
          s.CreateShellClient E made.source
            (Identity.construct E resolved_name made.target.user_id made.instance_name)
            made.target.name made.request fresh
        else
          match made.client_process_connection with
          | some connection =>
            Except.ok (made.created.StartWithClientProcessConnection s made.request connection)
          | none =>
            Except.ok (made.created.StartWithFilePath s made.request url fresh.runner)
      | _, _ =>
        Except.error
          (Fatal.CHECK "CHECK(!file_url.is_null() && !capabilities_ptr.is_null())")
    if made.client_process_connection.isNone then
      match s.LoadWithLoader made.target made.request with
      | (true, s) => Except.ok s
      | (false, s) => launch s
    else
      launch s

/-- `Shell::OnGotResolvedName` (shell.cc:635-701). -/
def Shell.OnGotResolvedName (E : Externals) (s : Shell) (params : ConnectParams)
    (client : Option Handle) (resolved_name resolved_instance : String)
    (capabilities_ptr : Option CapabilitySpec) (file_url : Option String)
    (fresh : FreshHandles) : Except Fatal Shell :=
  match s.OnGotResolvedName_create E params client resolved_name resolved_instance
    capabilities_ptr fresh with
  | Except.error f => Except.error f
  | Except.ok (none, s) => Except.ok s
  | Except.ok (some made, s) =>
    s.OnGotResolvedName_launch E made resolved_name capabilities_ptr file_url fresh

/-- The resolver answers the request queued at position `index`: the bound
`OnGotResolvedName` callback runs with the answer. `none` when there is no
such request. -/
def Shell.DeliverResolution (E : Externals) (s : Shell) (index : Nat)
    (resolved_name resolved_instance : String) (capabilities_ptr : Option CapabilitySpec)
    (file_url : Option String) (fresh : FreshHandles) : Option (Except Fatal Shell) :=
  match s.pending_resolutions.get? index with
  | none => none
  | some (_, params, client) =>
    some (Shell.OnGotResolvedName E
      { s with pending_resolutions := s.pending_resolutions.eraseIdx index }
      params client resolved_name resolved_instance capabilities_ptr file_url fresh)

/-- `Shell::InitInstanceForEmbedder` (shell.cc:445-458). -/
def Shell.InitInstanceForEmbedder (E : Externals) (s : Shell) (name : String)
    (fresh : FreshHandles) : Except Fatal Shell :=
  let embedder_identity := Identity.construct_2 E name E.kRootUserID
  let params := ConnectParams.fromTo embedder_identity embedder_identity
  Shell.Connect E s params (some fresh.shell_client)

/-- `Shell::InitCatalog` (shell.cc:490-501). The `ConnectToInterface` call on
the connector of the shell is a message to the instance of the shell; it
arrives later, as a call of `Instance::Connect`. The two resolver requests
carry `EmptyResolverCallback`, so nothing waits for their answers. -/
def Shell.InitCatalog (E : Externals) (s : Shell) (catalog : Option Handle) :
    Except Fatal Shell :=
  let identity := Identity.construct_2 E kCatalogName E.kRootUserID
  match s.CreateInstance E identity CapabilitySpec.empty catalog with
  | Except.error f => Except.error f
  | Except.ok (_, s) =>
    let s := s.emit (Event.ResolveMojoName kCatalogName)
    Except.ok (s.emit (Event.ResolveMojoName kShellName))

/-- The constructor `Shell::Shell` (shell.cc:415-427), in a process that has
created no instance yet. -/
def Shell.construct (E : Externals) (catalog : Option Handle) (fresh : FreshHandles) :
    Except Fatal Shell :=
  let s : Shell :=
    { name_to_loader := []
      default_loader := none
      identity_to_instance := []
      shell_client_factories := []
      instance_listeners := []
      instance_quit_callback := none
      native_runners := []
      pending_resolutions := []
      unique_id := E.kInvalidInstanceID
      log := [] }
  match s.CreateInstance E (CreateShellIdentity E) GetPermissiveCapabilities
    (some fresh.shell_client) with
  | Except.error f => Except.error f
  | Except.ok (_, s) =>
    if catalog.isSome then s.InitCatalog E catalog else Except.ok s

/-! ## A concrete environment, for evaluating the model -/

/-- Whether every character of a GUID candidate is in place: a dash at the
positions 8, 13, 18 and 23, a hexadecimal digit elsewhere. -/
def guidCharsFrom : Nat → List Char → Bool
  | _, [] => true
  | i, c :: cs =>
    (if i = 8 ∨ i = 13 ∨ i = 18 ∨ i = 23 then decide (c = '-')
     else (c.isDigit || (decide ('a' ≤ c) && decide (c ≤ 'f')) ||
       (decide ('A' ≤ c) && decide (c ≤ 'F')))) && guidCharsFrom (i + 1) cs

/-- A well-formed GUID has 36 characters in the 8-4-4-4-12 layout. -/
def sampleIsValidGUID (guid : String) : Bool :=
  decide (guid.data.length = 36) && guidCharsFrom 0 guid.data

/-- The part of a name after its first colon (empty when there is none). -/
def sampleGetNamePath (name : String) : String :=
  String.mk ((name.data.dropWhile (fun c => c != ':')).drop 1)

/-- A valid name is `type:path` with one colon, both parts non-empty and the
path not starting with two slashes. -/
def sampleIsValidName (name : String) : Bool :=
  decide (name.data.count ':' = 1) &&
  decide (name.data.head? ≠ some ':') &&
  decide ((sampleGetNamePath name).data ≠ []) &&
  decide ((sampleGetNamePath name).data.take 2 ≠ ['/', '/'])

/-- A concrete environment: the usual GUID layout, `type:path` names, and
distinct well-formed GUIDs for the root and inherit users. -/
def sampleExternals : Externals :=
  { IsValidName := sampleIsValidName
    GetNamePath := sampleGetNamePath
    IsValidGUID := sampleIsValidGUID
    kRootUserID := "505C0EE9-3013-43C0-82B0-A84F50CF8D84"
    kInheritUserID := "D26290E4-4485-4EAE-81A2-66D1EEB40A9D"
    kInvalidInstanceID := 0
    CurrentPid := 4242
    IdentityInstance := fun name qualifier =>
      if qualifier = "" then sampleGetNamePath name else qualifier
    IdentityDefaultInstance := sampleGetNamePath }

/-- A user other than root and inherit. -/
def sampleUser : String := "11111111-2222-3333-4444-555555555555"

/-- The state of a broker with nothing registered. -/
def Shell.initial (E : Externals) : Shell :=
  { name_to_loader := []
    default_loader := none
    identity_to_instance := []
    shell_client_factories := []
    instance_listeners := []
    instance_quit_callback := none
    native_runners := []
    pending_resolutions := []
    unique_id := E.kInvalidInstanceID
    log := [] }

/-- The source spec of the class-expansion scenario: `app_a` requests the
interface `foo` and the class `net` of `app_b`. -/
def scenarioSourceSpec : CapabilitySpec :=
  { provided := []
    required := [("app_b", { interfaces := ["foo"], classes := ["net"] })] }

/-- The target spec of the class-expansion scenario: `app_b` provides the
interfaces `foo` and `bar` under the class `net`. -/
def scenarioTargetSpec : CapabilitySpec :=
  { provided := [("net", ["foo", "bar"])]
    required := [] }

/-- The target identity of the class-expansion scenario. -/
def scenarioTarget (E : Externals) : Identity :=
  { name := "app_b", user_id := E.kRootUserID, instance_ := "" }

/-- A source spec with both an entry for `app_b` and a wildcard entry. -/
def exactAndWildcardSpec : CapabilitySpec :=
  { provided := []
    required :=
      [("*", { interfaces := ["*"], classes := [] }),
       ("app_b", { interfaces := ["foo"], classes := ["net"] })] }

/-! ## Reading a run of `Instance::Connect` -/

/-- The target `Instance::Connect` validates (shell.cc:221-223): the inherit
sentinel is replaced by the user of the source instance. -/
def Instance.resolvedTarget (self : Instance) (E : Externals) (target_ptr : Identity) :
    Identity :=
  if target_ptr.user_id = E.kInheritUserID then target_ptr.set_user_id self.identity.user_id
  else target_ptr

/-- The state after a rejection: the callback has been run once with `result`,
the inherit user id and the invalid instance id, and nothing else changed. -/
def Shell.rejected (s : Shell) (E : Externals) (callback : Handle) (result : ConnectResult) :
    Shell :=
  s.emit (Event.ConnectCallbackRun callback result E.kInheritUserID E.kInvalidInstanceID)

/-- The events logged between the state `before` and the state `after`. -/
def Shell.eventsSince (after before : Shell) : List Event :=
  after.log.drop before.log.length

/-- A validation either passes and leaves the state alone, or fails and has
run the callback once, with a result that is not `SUCCEEDED`. -/
def PassesOrRejects (E : Externals) (shell : Shell) (callback : Handle)
    (outcome : Bool × Shell) : Prop :=
  outcome = (true, shell) ∨
  ∃ result, result ≠ ConnectResult.SUCCEEDED ∧
    outcome = (false, shell.rejected E callback result)

/-! ## Reading a run of the broker -/

/-- The id of the instance whose creation an event records: every instance
sends `Initialize` once, from `Shell::CreateInstance`. -/
def Event.createdId : Event → Option Nat
  | Event.Initialize instance_id _ => some instance_id
  | _ => none

/-- The ids of all instances a log saw created, oldest first; destroyed
instances stay in it. -/
def createdIds (log : List Event) : List Nat :=
  log.filterMap Event.createdId

/-- Whether an event is a run of the connect callback `callback`. -/
def Event.isConnectCallbackRun (callback : Handle) : Event → Bool
  | Event.ConnectCallbackRun c _ _ _ => decide (c = callback)
  | _ => false

/-- Whether an event is a request to the name resolver. -/
def Event.isResolveMojoName : Event → Bool
  | Event.ResolveMojoName _ => true
  | _ => false

/-- The capability request and the source id that `Instance::ConnectToClient`
computes (shell.cc:158-166) for a connect from `source`. -/
def Instance.allowedCapabilities (self : Instance) (E : Externals) (shell : Shell)
    (source : Identity) : CapabilityRequest × Nat :=
  match shell.GetExistingInstance source with
  | some registered =>
    (GenerateCapabilityRequestForConnection registered.capability_spec self.identity
      self.capability_spec, registered.id)
  | none => ({ interfaces := ["*"], classes := [] }, E.kInvalidInstanceID)

/-- The two events of a delivery: the callback run and the message to the
target service. -/
def Instance.deliveryEvents (self : Instance) (E : Externals) (shell : Shell)
    (params : ConnectParams) : List Event :=
  [Event.ConnectCallbackRun params.connect_callback ConnectResult.SUCCEEDED
      self.identity.user_id self.id,
   Event.AcceptConnection self.id params.source
      (self.allowedCapabilities E shell params.source).2
      params.remote_interfaces params.local_interfaces
      (self.allowedCapabilities E shell params.source).1 params.target.name]

/-- The assertions at the head of `Shell::Connect` (shell.cc:527-530). -/
def Shell.ConnectPreconditions (E : Externals) (s : Shell) (params : ConnectParams)
    (client : Option Handle) : Prop :=
  E.IsValidName params.target.name = true ∧
  E.IsValidGUID params.target.user_id = true ∧
  E.kInheritUserID ≠ params.target.user_id ∧
  (client.isSome = true → StdMap.find s.identity_to_instance params.target = none)

/-- The registry is a map whose instances know their key: no identity is
bound twice, every instance is stored under its own identity, and none has
the invalid id. -/
def Shell.RegistryOk (E : Externals) (s : Shell) : Prop :=
  (s.identity_to_instance.map Prod.fst).Nodup ∧
  (∀ entry, entry ∈ s.identity_to_instance → entry.2.identity = entry.1) ∧
  (∀ entry, entry ∈ s.identity_to_instance → entry.2.id ≠ E.kInvalidInstanceID)

/-- The ids handed out so far grow strictly and are bounded by the counter,
which fits 32 bits. -/
def Shell.IdsOk (s : Shell) : Prop :=
  (createdIds s.log).Pairwise (fun a b => a < b) ∧
  (∀ id, id ∈ createdIds s.log → 0 < id ∧ id ≤ s.unique_id) ∧
  s.unique_id < 2 ^ 32

/-- The state `after` differs from `before` by logged events that create no
instance; the registry and the id counter are the same. -/
def Shell.Quiet (before after : Shell) : Prop :=
  after.identity_to_instance = before.identity_to_instance ∧
  after.unique_id = before.unique_id ∧
  ∃ events, after.log = before.log ++ events ∧ createdIds events = []

/-- The state `after` has the id counter of `before` and a log that extends
the log of `before` by events that create no instance. -/
def Shell.SameIds (before after : Shell) : Prop :=
  after.unique_id = before.unique_id ∧
  ∃ events, after.log = before.log ++ events ∧ createdIds events = []

/-- What `Shell::OnInstanceError` logs for the instance `inst`: the message to
every listener, then the run of the quit callback when one is set. -/
def Shell.destructionEvents (s : Shell) (inst : Instance) : List Event :=
  s.instance_listeners.map (fun listener => Event.InstanceDestroyed listener inst.id) ++
    (match s.instance_quit_callback with
     | some callback => [Event.InstanceQuitCallbackRun callback inst.identity]
     | none => [])

/-- The state `after` differs from `before` by the creation of the instance
`created`: it got the next id, was registered under its identity, which was
free, and the events logged record this one creation. -/
def Shell.Created (E : Externals) (before after : Shell) (created : Instance) : Prop :=
  StdMap.find before.identity_to_instance created.identity = none ∧
  created.id = (before.unique_id + 1) % 2 ^ 32 ∧
  created.id ≠ E.kInvalidInstanceID ∧
  after.identity_to_instance = before.identity_to_instance ++ [(created.identity, created)] ∧
  after.unique_id = created.id ∧
  ∃ events, after.log = before.log ++ events ∧ createdIds events = [created.id]

/-- The instance qualifier `Shell::OnGotResolvedName` settles on (shell.cc:641-645). -/
def Shell.finalInstanceName (E : Externals) (params : ConnectParams)
    (resolved_name resolved_instance : String) : String :=
  if params.target.instance_ = E.GetNamePath params.target.name ∧
      resolved_instance ≠ E.GetNamePath resolved_name then resolved_instance
  else params.target.instance_

/-- The final target identity of `Shell::OnGotResolvedName` (shell.cc:646-648). -/
def Shell.finalTarget (E : Externals) (params : ConnectParams)
    (resolved_name resolved_instance : String) : Identity :=
  Identity.construct E params.target.name params.target.user_id
    (Shell.finalInstanceName E params resolved_name resolved_instance)

/-- One entry into the broker: a call of its public interface, a message on a
pipe of a registered instance, or the answer to a pending request. -/
inductive Shell.Step (E : Externals) : Shell → Shell → Prop
  | Connect (s s1 : Shell) (params : ConnectParams) :
      Shell.Connect_1 E s params = Except.ok s1 → Shell.Step E s s1
  | InitInstanceForEmbedder (s s1 : Shell) (name : String) (fresh : FreshHandles) :
      Shell.InitInstanceForEmbedder E s name fresh = Except.ok s1 → Shell.Step E s s1
  | InstanceConnect (s s1 : Shell) (self : Instance) (target_ptr : Identity)
      (remote_interfaces local_interfaces : Option Handle)
      (client_process_connection : Option ClientProcessConnection) (callback : Handle) :
      StdMap.find s.identity_to_instance self.identity = some self →
      self.Connect E s target_ptr remote_interfaces local_interfaces
        client_process_connection callback = Except.ok s1 → Shell.Step E s s1
  | Resolved (s s1 : Shell) (index : Nat) (resolved_name resolved_instance : String)
      (capabilities_ptr : Option CapabilitySpec) (file_url : Option String)
      (fresh : FreshHandles) :
      s.DeliverResolution E index resolved_name resolved_instance capabilities_ptr file_url
        fresh = some (Except.ok s1) → Shell.Step E s s1
  | ShellClientLost (s s1 : Shell) (self : Instance) :
      StdMap.find s.identity_to_instance self.identity = some self →
      self.OnShellClientLost s = Except.ok s1 → Shell.Step E s s1
  | ConnectorLost (s s1 : Shell) (self : Instance) (connector : Handle) :
      StdMap.find s.identity_to_instance self.identity = some self →
      self.OnConnectorLost s connector = Except.ok s1 → Shell.Step E s s1
  | InitializeResponse (s : Shell) (self : Instance) (connector_request : Option Handle) :
      StdMap.find s.identity_to_instance self.identity = some self →
      Shell.Step E s (self.OnInitializeResponse s connector_request)
  | Clone (s : Shell) (self : Instance) (request : Handle) :
      StdMap.find s.identity_to_instance self.identity = some self →
      Shell.Step E s (self.Clone s request)
  | PIDAvailable (s : Shell) (self : Instance) (pid : Nat) :
      StdMap.find s.identity_to_instance self.identity = some self →
      Shell.Step E s (self.PIDAvailable s pid)
  | AddInstanceListener (s : Shell) (listener : Handle) :
      Shell.Step E s (s.AddInstanceListener listener)
  | SetInstanceQuitCallback (s : Shell) (callback : Option Handle) :
      Shell.Step E s (s.SetInstanceQuitCallback callback)
  | SetLoaderForName (s : Shell) (loader : Option Handle) (name : String) :
      Shell.Step E s (s.SetLoaderForName loader name)
  | set_default_loader (s : Shell) (loader : Option Handle) :
      Shell.Step E s (s.set_default_loader loader)
  | CleanupRunner (s : Shell) (runner : Handle) :
      Shell.Step E s (s.CleanupRunner runner)
  | ShellClientFactoryLost (s s1 : Shell) (which : Identity) :
      s.OnShellClientFactoryLost which = Except.ok s1 → Shell.Step E s s1

/-- The states a broker can be in: the state its constructor leaves, and every
state one more entry leads to. -/
inductive Shell.Reachable (E : Externals) : Shell → Prop
  | construct (catalog : Option Handle) (fresh : FreshHandles) (s : Shell) :
      Shell.construct E catalog fresh = Except.ok s → Shell.Reachable E s
  | step (s s1 : Shell) : Shell.Reachable E s → Shell.Step E s s1 → Shell.Reachable E s1

/-- The five ways `Shell::OnGotResolvedName` backs an instance it has created
(shell.cc:671-700). -/
inductive BackingStrategy
  /-- A `ShellClientPtr` was provided, so nothing is started (shell.cc:673-676). -/
  | DirectClient
  /-- `LoadWithLoader`: `loader->Load` (shell.cc:678-679). -/
  | LoaderLoad
  /-- `CreateShellClient` on the factory of the resolved package (shell.cc:683-689). -/
  | CreateShellClient
  /-- `Instance::StartWithClientProcessConnection` (shell.cc:691-694). -/
  | StartWithClientProcessConnection
  /-- `Instance::StartWithFilePath` (shell.cc:695-698). -/
  | StartWithFilePath
  deriving DecidableEq, Repr

/-- Whether an event is a message that starts or binds the backing of an
instance. -/
def Event.isBacking : Event → Bool
  | Event.LoaderLoad _ _ _ => true
  | Event.FactoryCreateShellClient _ _ _ => true
  | Event.BindPIDReceiver _ _ => true
  | Event.RunnerStart _ _ _ _ _ => true
  | _ => false

/-- The backing messages among the events, in order. -/
def backingEvents (events : List Event) : List Event :=
  events.filter Event.isBacking

/-- The strategy whose messages are exactly the backing messages given: none
when a client was provided, `Load`, `CreateShellClient` alone, the binding of
the pid receiver followed by `CreateShellClient`, or `Start`. The result is
`none` when the messages are those of no single strategy. -/
def BackingStrategy.ofEvents : List Event → Option BackingStrategy
  | [] => some BackingStrategy.DirectClient
  | [Event.LoaderLoad _ _ _] => some BackingStrategy.LoaderLoad
  | [Event.FactoryCreateShellClient _ _ _] => some BackingStrategy.CreateShellClient
  | [Event.BindPIDReceiver _ _, Event.FactoryCreateShellClient _ _ _] =>
    some BackingStrategy.StartWithClientProcessConnection
  | [Event.RunnerStart _ _ _ _ _] => some BackingStrategy.StartWithFilePath
  | _ => none

/-! ## Concrete instances and states -/

/-- A spec whose `mojo:shell` entry lists the three capability classes and
whose wildcard entry allows every target. -/
def privilegedSpec : CapabilitySpec :=
  { provided := []
    required :=
      [("mojo:shell",
          { interfaces := [], classes := ["client_process", "user_id", "instance_name"] }),
       ("*", { interfaces := ["*"], classes := [] })] }

/-- The instance of `mojo:app_a`, running with the permissive spec. -/
def permissiveInstance : Instance :=
  { id := 1
    identity := { name := "mojo:app_a", user_id := sampleUser, instance_ := "app_a" }
    capability_spec := GetPermissiveCapabilities
    allow_any_application := true
    shell_client := some 10
    connectors := [11]
    pid := none }

/-- The instance of `mojo:app_p`, holding the three capability classes. -/
def privilegedInstance : Instance :=
  { id := 2
    identity := { name := "mojo:app_p", user_id := sampleUser, instance_ := "app_p" }
    capability_spec := privilegedSpec
    allow_any_application := true
    shell_client := some 20
    connectors := [21]
    pid := none }

/-- The instance of `mojo:app_b`, which may connect to nothing. -/
def isolatedInstance : Instance :=
  { id := 3
    identity := { name := "mojo:app_b", user_id := sampleUser, instance_ := "app_b" }
    capability_spec := CapabilitySpec.empty
    allow_any_application := false
    shell_client := some 30
    connectors := [31]
    pid := none }

/-- A broker with the three instances above registered. -/
def sampleShell : Shell :=
  { (Shell.initial sampleExternals) with
    identity_to_instance :=
      [(permissiveInstance.identity, permissiveInstance),
       (privilegedInstance.identity, privilegedInstance),
       (isolatedInstance.identity, isolatedInstance)]
    unique_id := 3 }

/-- Another user, neither root nor inherit nor `sampleUser`. -/
def otherUser : String := "AAAAAAAA-BBBB-CCCC-DDDD-EEEEEEEEEEEE"

/-- The handles of a first run. -/
def sampleFresh : FreshHandles :=
  { shell_client := 100, remote_interfaces := 101, factory := 102, runner := 103 }

/-- The handles of a second run. -/
def sampleFresh2 : FreshHandles :=
  { shell_client := 200, remote_interfaces := 201, factory := 202, runner := 203 }

/-- The state the constructor leaves for a broker with a catalog: the
instances of `mojo:shell` (id 1) and `mojo:catalog` (id 2) are registered. -/
def bootedShell : Shell :=
  match Shell.construct sampleExternals (some 50) sampleFresh with
  | Except.ok s => s
  | Except.error _ => Shell.initial sampleExternals

/-- A connect from the shell to `mojo:svc` under `sampleUser`. -/
def svcParams (callback : Handle) : ConnectParams :=
  { (ConnectParams.fromTo (CreateShellIdentity sampleExternals)
      { name := "mojo:svc", user_id := sampleUser, instance_ := "svc" }) with
    connect_callback := callback }

/-- The booted broker after two connects to `mojo:svc`, with the callbacks 7
and 8: both wait for the resolver. -/
def twoPendingShell : Shell :=
  { bootedShell with
    log := bootedShell.log ++
      [Event.TraceShellConnect "mojo:svc", Event.ResolveMojoName "mojo:svc",
       Event.TraceShellConnect "mojo:svc", Event.ResolveMojoName "mojo:svc"]
    pending_resolutions := [("mojo:svc", svcParams 7, none), ("mojo:svc", svcParams 8, none)] }

/-- A connect from `mojo:app_b`, whose spec grants nothing, to `mojo:app_a`. -/
def ungrantedParams : ConnectParams :=
  { (ConnectParams.fromTo isolatedInstance.identity permissiveInstance.identity) with
    connect_callback := 7 }

/-- The broker `sampleShell` with two instance listeners and a quit callback. -/
def observedShell : Shell :=
  { sampleShell with instance_listeners := [60, 61], instance_quit_callback := some 70 }

/-- A connect from the shell to `mojo:svc` that carries the factory 300 and the
pid receiver request 301 of a process the caller has started. -/
def clientProcessParams (callback : Handle) : ConnectParams :=
  { (svcParams callback) with
    client_process_connection :=
      some { shell_client_factory := some 300, pid_receiver_request := some 301 } }

/-- The booted broker with the loader 80 registered for `mojo:svc`. -/
def loaderShell : Shell :=
  bootedShell.SetLoaderForName (some 80) "mojo:svc"

/-- A connect from the shell to `mojo:catalog` under `sampleUser`, which has no
entry in the registry; the catalog runs under the root user. -/
def catalogParams : ConnectParams :=
  { (ConnectParams.fromTo (CreateShellIdentity sampleExternals)
      { name := "mojo:catalog", user_id := sampleUser, instance_ := "catalog" }) with
    connect_callback := 7 }

/-- A source spec that requests of `app_b` the interface `foo` and the classes
`net` and `web`, in this order. -/
def netWebSpec : CapabilitySpec :=
  { provided := []
    required := [("app_b", { interfaces := ["foo"], classes := ["net", "web"] })] }

/-- The source spec `netWebSpec` with the two classes in the other order. -/
def webNetSpec : CapabilitySpec :=
  { provided := []
    required := [("app_b", { interfaces := ["foo"], classes := ["web", "net"] })] }

/-- A target spec that provides `foo` and `bar` under the class `net`, and
`bar` and `baz` under the class `web`. -/
def netWebTargetSpec : CapabilitySpec :=
  { provided := [("net", ["foo", "bar"]), ("web", ["bar", "baz"])]
    required := [] }

/-! ## Theorems: containers -/

theorem StdSet.mem_insert {α : Type} [DecidableEq α] (x y : α) (s : StdSet α) :
    y ∈ StdSet.insert x s ↔ y = x ∨ y ∈ s := by
  unfold StdSet.insert
  by_cases h : x ∈ s
  · simp only [h, if_true]
    constructor
    · intro hy; exact Or.inr hy
    · rintro (rfl | hy)
      · exact h
      · exact hy
  · simp only [h, if_false, List.mem_append, List.mem_singleton]
    tauto

theorem StdSet.insert_of_mem {α : Type} [DecidableEq α] (x : α) (s : StdSet α) (h : x ∈ s) :
    StdSet.insert x s = s := by
  simp [StdSet.insert, h]

theorem StdSet.nodup_insert {α : Type} [DecidableEq α] (x : α) (s : StdSet α)
    (h : s.Nodup) : (StdSet.insert x s).Nodup := by
  unfold StdSet.insert
  by_cases hx : x ∈ s
  · simpa [hx] using h
  · simp only [hx, if_false]
    exact List.Nodup.append h (List.nodup_singleton x) (by simpa using hx)

theorem StdMap.count_eq_one_iff {K V : Type} [DecidableEq K] (m : StdMap K V) (k : K) :
    StdMap.count m k = 1 ↔ (StdMap.find m k).isSome = true := by
  unfold StdMap.count
  cases StdMap.find m k <;> simp

/-! ## Theorems: capability resolution -/

/-- The inner loop of the class expansion adds exactly the listed interfaces
and leaves the classes alone. -/
theorem insertInterfaces_spec (l : List String) (r : CapabilityRequest) :
    (∀ i, i ∈ (l.foldl (fun (request : CapabilityRequest) (interface_name : String) =>
        { request with interfaces := StdSet.insert interface_name request.interfaces })
        r).interfaces ↔ i ∈ r.interfaces ∨ i ∈ l) ∧
    (l.foldl (fun (request : CapabilityRequest) (interface_name : String) =>
        { request with interfaces := StdSet.insert interface_name request.interfaces })
        r).classes = r.classes := by
  induction l generalizing r with
  | nil => simp
  | cons x xs ih =>
    simp only [List.foldl_cons]
    obtain ⟨h1, h2⟩ := ih { r with interfaces := StdSet.insert x r.interfaces }
    refine ⟨fun i => ?_, h2⟩
    rw [h1 i]
    simp only [StdSet.mem_insert, List.mem_cons]
    tauto

/-- The outer loop of the class expansion, from any starting request. -/
theorem expandClasses_spec (provided : StdMap String (StdSet String)) (cs : List String)
    (r : CapabilityRequest) :
    (∀ i, i ∈ (cs.foldl (fun (request : CapabilityRequest) (class_name : String) =>
        match StdMap.find provided class_name with
        | some provided_interfaces =>
          provided_interfaces.foldl
            (fun (request : CapabilityRequest) (interface_name : String) =>
              { request with interfaces := StdSet.insert interface_name request.interfaces })
            request
        | none => request) r).interfaces ↔
      i ∈ r.interfaces ∨ ∃ c, c ∈ cs ∧ ∃ ifs, StdMap.find provided c = some ifs ∧ i ∈ ifs) ∧
    (cs.foldl (fun (request : CapabilityRequest) (class_name : String) =>
        match StdMap.find provided class_name with
        | some provided_interfaces =>
          provided_interfaces.foldl
            (fun (request : CapabilityRequest) (interface_name : String) =>
              { request with interfaces := StdSet.insert interface_name request.interfaces })
            request
        | none => request) r).classes = r.classes := by
  induction cs generalizing r with
  | nil => simp
  | cons c cs ih =>
    simp only [List.foldl_cons]
    cases hf : StdMap.find provided c with
    | none =>
      obtain ⟨h1, h2⟩ := ih r
      refine ⟨fun i => ?_, h2⟩
      rw [h1 i]
      constructor
      · rintro (h | ⟨c0, hc0, ifs, hfind, hi⟩)
        · exact Or.inl h
        · exact Or.inr ⟨c0, List.mem_cons_of_mem _ hc0, ifs, hfind, hi⟩
      · rintro (h | ⟨c0, hc0, ifs, hfind, hi⟩)
        · exact Or.inl h
        · rcases List.mem_cons.mp hc0 with rfl | hc0
          · rw [hf] at hfind; cases hfind
          · exact Or.inr ⟨c0, hc0, ifs, hfind, hi⟩
    | some l =>
      obtain ⟨g1, g2⟩ := insertInterfaces_spec l r
      obtain ⟨h1, h2⟩ := ih (l.foldl (fun (request : CapabilityRequest)
        (interface_name : String) =>
          { request with interfaces := StdSet.insert interface_name request.interfaces }) r)
      refine ⟨fun i => ?_, h2.trans g2⟩
      rw [h1 i, g1 i]
      constructor
      · rintro ((h | h) | ⟨c0, hc0, ifs, hfind, hi⟩)
        · exact Or.inl h
        · exact Or.inr ⟨c, List.mem_cons_self _ _, l, hf, h⟩
        · exact Or.inr ⟨c0, List.mem_cons_of_mem _ hc0, ifs, hfind, hi⟩
      · rintro (h | ⟨c0, hc0, ifs, hfind, hi⟩)
        · exact Or.inl (Or.inl h)
        · rcases List.mem_cons.mp hc0 with rfl | hc0
          · rw [hf] at hfind
            cases hfind
            exact Or.inl (Or.inr hi)
          · exact Or.inr ⟨c0, hc0, ifs, hfind, hi⟩

/-- C1: `GetCapabilityRequest` is the three-step rule of the specification:
the entry keyed by the target name when there is one (also when a wildcard
entry exists), else the wildcard entry when there is one, else the empty
request with no interfaces and no classes. -/
theorem GetCapabilityRequest_three_step (source_spec : CapabilitySpec) (target : Identity) :
    GetCapabilityRequest source_spec target = ResolveCapabilityRequest source_spec target ∧
    (∀ r, StdMap.find source_spec.required target.name = some r →
      GetCapabilityRequest source_spec target = r) ∧
    (∀ r w, StdMap.find source_spec.required target.name = some r →
      StdMap.find source_spec.required "*" = some w →
      GetCapabilityRequest source_spec target = r) ∧
    (∀ w, StdMap.find source_spec.required target.name = none →
      StdMap.find source_spec.required "*" = some w →
      GetCapabilityRequest source_spec target = w) ∧
    (StdMap.find source_spec.required target.name = none →
      StdMap.find source_spec.required "*" = none →
      GetCapabilityRequest source_spec target = { interfaces := [], classes := [] }) := by
  unfold GetCapabilityRequest ResolveCapabilityRequest
  refine ⟨?_, ?_, ?_, ?_, ?_⟩
  · cases h1 : StdMap.find source_spec.required target.name with
    | some r => simp
    | none =>
      cases h2 : StdMap.find source_spec.required "*" with
      | some w => simp
      | none => simp
  · intro r h; simp [h]
  · intro r w h _; simp [h]
  · intro w h1 h2; simp [h1, h2]
  · intro h1 h2; simp [h1, h2, CapabilityRequest.empty]

/-- C1 at a concrete input: with entries for both `app_b` and the wildcard,
the request for `app_b` is the `app_b` entry, and for another name it is the
wildcard entry. -/
theorem GetCapabilityRequest_three_step_witness :
    GetCapabilityRequest exactAndWildcardSpec (scenarioTarget sampleExternals) =
      { interfaces := ["foo"], classes := ["net"] } ∧
    GetCapabilityRequest exactAndWildcardSpec
      { name := "app_c", user_id := sampleUser, instance_ := "" } =
      { interfaces := ["*"], classes := [] } :=
  ⟨(GetCapabilityRequest_three_step exactAndWildcardSpec (scenarioTarget sampleExternals)).2.2.1
      { interfaces := ["foo"], classes := ["net"] } { interfaces := ["*"], classes := [] }
      (by decide) (by decide),
   (GetCapabilityRequest_three_step exactAndWildcardSpec
      { name := "app_c", user_id := sampleUser, instance_ := "" }).2.2.2.1
      { interfaces := ["*"], classes := [] } (by decide) (by decide)⟩

/-- C2: the interfaces of `GenerateCapabilityRequestForConnection` are exactly
those of `GetCapabilityRequest` together with `target_spec.provided[c]` for
every requested class `c` that is a key of `provided`; the classes are
returned unchanged. In the scenario of the specification (request
`foo` + class `net`, `provided[net] = foo, bar`) the result holds `foo` and
`bar` and nothing else. -/
theorem GenerateCapabilityRequestForConnection_interfaces (source_spec : CapabilitySpec)
    (target : Identity) (target_spec : CapabilitySpec) :
    (∀ i, i ∈ (GenerateCapabilityRequestForConnection source_spec target
        target_spec).interfaces ↔
      i ∈ (GetCapabilityRequest source_spec target).interfaces ∨
      ∃ c, c ∈ (GetCapabilityRequest source_spec target).classes ∧
        ∃ ifs, StdMap.find target_spec.provided c = some ifs ∧ i ∈ ifs) ∧
    (GenerateCapabilityRequestForConnection source_spec target target_spec).classes =
      (GetCapabilityRequest source_spec target).classes ∧
    (∀ i, i ∈ (GenerateCapabilityRequestForConnection scenarioSourceSpec
        (scenarioTarget sampleExternals) scenarioTargetSpec).interfaces ↔
      i = "foo" ∨ i = "bar") :=
  ⟨(expandClasses_spec target_spec.provided (GetCapabilityRequest source_spec target).classes
      (GetCapabilityRequest source_spec target)).1,
   (expandClasses_spec target_spec.provided (GetCapabilityRequest source_spec target).classes
      (GetCapabilityRequest source_spec target)).2,
   by
    have h : (GenerateCapabilityRequestForConnection scenarioSourceSpec
        (scenarioTarget sampleExternals) scenarioTargetSpec).interfaces = ["foo", "bar"] := by
      decide
    intro i
    rw [h]
    simp⟩

/-! ## Theorems: the instance constructor -/

/-- What a successful run of the constructor fixes. -/
theorem Instance.construct_ok {E : Externals} {shell_client : Option Handle} {shell : Shell}
    {identity : Identity} {capability_spec : CapabilitySpec} {self : Instance} {shell1 : Shell}
    (h : Instance.construct E shell_client shell identity capability_spec =
      Except.ok (self, shell1)) :
    self.identity = identity ∧ self.capability_spec = capability_spec ∧
    self.allow_any_application = decide (StdMap.count capability_spec.required "*" = 1) ∧
    self.id = (shell.unique_id + 1) % 2 ^ 32 ∧ self.id ≠ E.kInvalidInstanceID ∧
    shell1 = { shell with unique_id := self.id } := by
  unfold Instance.construct Instance.GenerateUniqueID at h
  generalize hn : (shell.unique_id + 1) % 2 ^ 32 = n at h ⊢
  by_cases h1 : n = E.kInvalidInstanceID
  · simp only [h1, if_true] at h
    cases h
  · have h1s : ¬ E.kInvalidInstanceID = n := fun e => h1 e.symm
    simp only [h1, if_false] at h
    by_cases h2 : identity.name = kShellName ∨
        (Shell.GetLoaderForName { shell with unique_id := n } identity.name).isSome = true
    · simp only [h2, if_true, h1s, if_false, Except.ok.injEq, Prod.mk.injEq] at h
      obtain ⟨rfl, rfl⟩ := h
      exact ⟨rfl, rfl, rfl, rfl, h1, rfl⟩
    · simp only [h2, if_false, h1s, Except.ok.injEq, Prod.mk.injEq] at h
      obtain ⟨rfl, rfl⟩ := h
      exact ⟨rfl, rfl, rfl, rfl, h1, rfl⟩

/-! ## Theorems: the validation steps of `Instance::Connect` -/

/-- `Instance::Connect` runs its three validations on the resolved target and
hands over to `Shell::Connect` only when all three pass. -/
theorem Instance.Connect_unfold (self : Instance) (E : Externals) (shell : Shell)
    (target_ptr : Identity) (remote_interfaces local_interfaces : Option Handle)
    (client_process_connection : Option ClientProcessConnection) (callback : Handle) :
    self.Connect E shell target_ptr remote_interfaces local_interfaces
        client_process_connection callback =
      match Instance.ValidateIdentity E shell (self.resolvedTarget E target_ptr) callback with
      | (false, shell) => Except.ok shell
      | (true, shell) =>
        match self.ValidateClientProcessConnection E shell client_process_connection
          (self.resolvedTarget E target_ptr) callback with
        | (false, shell) => Except.ok shell
        | (true, shell) =>
          match self.ValidateCapabilities E shell (self.resolvedTarget E target_ptr)
            callback with
          | (false, shell) => Except.ok shell
          | (true, shell) =>
            Shell.Connect_1 E shell
              { source := self.identity
                target := self.resolvedTarget E target_ptr
                remote_interfaces := remote_interfaces
                local_interfaces := local_interfaces
                client_process_connection := client_process_connection
                connect_callback := callback } :=
  rfl

/-- `ValidateIdentity` in closed form. -/
theorem Instance.ValidateIdentity_eq (E : Externals) (shell : Shell) (identity : Identity)
    (callback : Handle) :
    Instance.ValidateIdentity E shell identity callback =
      if E.IsValidName identity.name = true ∧ E.IsValidGUID identity.user_id = true then
        (true, shell)
      else (false, shell.rejected E callback ConnectResult.INVALID_ARGUMENT) := by
  unfold Instance.ValidateIdentity Shell.rejected
  cases h1 : E.IsValidName identity.name <;> cases h2 : E.IsValidGUID identity.user_id <;> simp

theorem Instance.ValidateIdentity_outcome (E : Externals) (shell : Shell)
    (identity : Identity) (callback : Handle) :
    PassesOrRejects E shell callback (Instance.ValidateIdentity E shell identity callback) := by
  rw [Instance.ValidateIdentity_eq]
  unfold PassesOrRejects
  split_ifs
  · exact Or.inl rfl
  · exact Or.inr ⟨ConnectResult.INVALID_ARGUMENT, by decide, rfl⟩

theorem Instance.ValidateClientProcessConnection_outcome (self : Instance) (E : Externals)
    (shell : Shell) (client_process_connection : Option ClientProcessConnection)
    (target : Identity) (callback : Handle) :
    PassesOrRejects E shell callback
      (self.ValidateClientProcessConnection E shell client_process_connection target
        callback) := by
  unfold Instance.ValidateClientProcessConnection PassesOrRejects
  cases client_process_connection with
  | none => exact Or.inl rfl
  | some connection =>
    simp only
    split_ifs
    · exact Or.inr ⟨ConnectResult.ACCESS_DENIED, by decide, rfl⟩
    · exact Or.inr ⟨ConnectResult.INVALID_ARGUMENT, by decide, rfl⟩
    · exact Or.inr ⟨ConnectResult.INVALID_ARGUMENT, by decide, rfl⟩
    · exact Or.inl rfl

theorem Instance.ValidateCapabilities_outcome (self : Instance) (E : Externals)
    (shell : Shell) (target : Identity) (callback : Handle) :
    (self.ValidateCapabilities E shell target callback = (true, shell)) ∨
    (self.ValidateCapabilities E shell target callback =
      (false, shell.rejected E callback ConnectResult.ACCESS_DENIED)) := by
  unfold Instance.ValidateCapabilities Shell.rejected
  split_ifs
  · exact Or.inr rfl
  · exact Or.inr rfl
  · exact Or.inl rfl
  · exact Or.inr rfl

/-- C3: for an instance built by the constructor, once the cross-user and the
instance-qualifier checks have passed, `ValidateCapabilities` accepts the
target exactly when the source spec has a wildcard entry or an entry keyed by
the target name; when it accepts nothing is logged, and otherwise the callback
is run with `ACCESS_DENIED`. A source whose required map is the wildcard-only
one is accepted for every target name. -/
theorem ValidateCapabilities_authorization_step (E : Externals)
    (shell_client : Option Handle) (shell0 shell1 : Shell) (identity : Identity)
    (capability_spec : CapabilitySpec) (self : Instance)
    (hself : Instance.construct E shell_client shell0 identity capability_spec =
      Except.ok (self, shell1))
    (shell : Shell) (target : Identity) (callback : Handle)
    (huser : target.user_id = identity.user_id ∨ target.user_id = E.kRootUserID ∨
      self.HasClass kCapabilityClass_UserID = true)
    (hqualifier : target.instance_ = "" ∨ target.instance_ = E.GetNamePath target.name ∨
      self.HasClass kCapabilityClass_InstanceName = true) :
    ((self.ValidateCapabilities E shell target callback).1 = true ↔
      ((StdMap.find capability_spec.required "*").isSome = true ∨
       (StdMap.find capability_spec.required target.name).isSome = true)) ∧
    ((self.ValidateCapabilities E shell target callback).1 = true →
      (self.ValidateCapabilities E shell target callback).2 = shell) ∧
    ((self.ValidateCapabilities E shell target callback).1 = false →
      (self.ValidateCapabilities E shell target callback).2 =
        shell.emit (Event.ConnectCallbackRun callback ConnectResult.ACCESS_DENIED
          E.kInheritUserID E.kInvalidInstanceID)) ∧
    (capability_spec.required = [("*", { interfaces := ["*"], classes := [] })] →
      self.ValidateCapabilities E shell target callback = (true, shell)) := by
  obtain ⟨hid, hspec, hallow, -, -, -⟩ := Instance.construct_ok hself
  have h1 : ¬ (target.user_id ≠ self.identity.user_id ∧ target.user_id ≠ E.kRootUserID ∧
      ¬ self.HasClass kCapabilityClass_UserID = true) := by
    rw [hid]; tauto
  have h2 : ¬ (target.instance_ ≠ "" ∧ target.instance_ ≠ E.GetNamePath target.name ∧
      ¬ self.HasClass kCapabilityClass_InstanceName = true) := by
    tauto
  have hallow2 : self.allow_any_application = true ↔
      (StdMap.find capability_spec.required "*").isSome = true := by
    rw [hallow, decide_eq_true_iff, StdMap.count_eq_one_iff]
  have key : self.ValidateCapabilities E shell target callback =
      if (StdMap.find capability_spec.required "*").isSome = true ∨
          (StdMap.find capability_spec.required target.name).isSome = true then (true, shell)
      else (false, shell.emit (Event.ConnectCallbackRun callback ConnectResult.ACCESS_DENIED
          E.kInheritUserID E.kInvalidInstanceID)) := by
    unfold Instance.ValidateCapabilities
    rw [if_neg h1, if_neg h2, hspec]
    by_cases h3 : (StdMap.find capability_spec.required "*").isSome = true ∨
          (StdMap.find capability_spec.required target.name).isSome = true
    · rw [if_pos h3, if_pos]
      rcases h3 with h3 | h3
      · exact Or.inl (hallow2.mpr h3)
      · exact Or.inr h3
    · rw [if_neg h3, if_neg]
      rintro (h4 | h4)
      · exact h3 (Or.inl (hallow2.mp h4))
      · exact h3 (Or.inr h4)
  rw [key]
  refine ⟨?_, ?_, ?_, ?_⟩
  · split_ifs with h3 <;> simp [h3]
  · split_ifs with h3 <;> simp
  · split_ifs with h3 <;> simp
  · intro hw
    rw [if_pos]
    left
    rw [hw]
    rfl

/-- C3 at a concrete input: the instance the constructor builds for
`mojo:app_a` with the permissive spec may connect to `mojo:anything`. -/
theorem ValidateCapabilities_authorization_step_witness :
    Instance.ValidateCapabilities
      { id := 1
        identity := { name := "mojo:app_a", user_id := sampleUser, instance_ := "app_a" }
        capability_spec := GetPermissiveCapabilities
        allow_any_application := true
        shell_client := some 10
        connectors := []
        pid := none }
      sampleExternals sampleShell
      { name := "mojo:anything", user_id := sampleUser, instance_ := "" } 7 =
    (true, sampleShell) :=
  (ValidateCapabilities_authorization_step sampleExternals (some 10)
    (Shell.initial sampleExternals) { (Shell.initial sampleExternals) with unique_id := 1 }
    { name := "mojo:app_a", user_id := sampleUser, instance_ := "app_a" }
    GetPermissiveCapabilities _ rfl sampleShell
    { name := "mojo:anything", user_id := sampleUser, instance_ := "" } 7
    (Or.inl rfl) (Or.inl rfl)).2.2.2 rfl

/-! ## Theorems: rejections of `Instance::Connect` -/

theorem Instance.resolvedTarget_name (self : Instance) (E : Externals) (target_ptr : Identity) :
    (self.resolvedTarget E target_ptr).name = target_ptr.name := by
  unfold Instance.resolvedTarget Identity.set_user_id
  split_ifs <;> rfl

theorem Instance.resolvedTarget_instance (self : Instance) (E : Externals)
    (target_ptr : Identity) :
    (self.resolvedTarget E target_ptr).instance_ = target_ptr.instance_ := by
  unfold Instance.resolvedTarget Identity.set_user_id
  split_ifs <;> rfl

/-- A rejection logs the one callback run and touches nothing else. -/
theorem Shell.rejected_frame (s : Shell) (E : Externals) (callback : Handle)
    (result : ConnectResult) :
    (s.rejected E callback result).identity_to_instance = s.identity_to_instance ∧
    (s.rejected E callback result).pending_resolutions = s.pending_resolutions ∧
    (s.rejected E callback result).unique_id = s.unique_id ∧
    (s.rejected E callback result).eventsSince s =
      [Event.ConnectCallbackRun callback result E.kInheritUserID E.kInvalidInstanceID] := by
  simp [Shell.rejected, Shell.emit, Shell.eventsSince]

/-- A failed identity validation ends the connect. -/
theorem Instance.Connect_invalid_identity (self : Instance) (E : Externals) (shell : Shell)
    (target_ptr : Identity) (remote_interfaces local_interfaces : Option Handle)
    (client_process_connection : Option ClientProcessConnection) (callback : Handle)
    (h : ¬ (E.IsValidName (self.resolvedTarget E target_ptr).name = true ∧
      E.IsValidGUID (self.resolvedTarget E target_ptr).user_id = true)) :
    self.Connect E shell target_ptr remote_interfaces local_interfaces
        client_process_connection callback =
      Except.ok (shell.rejected E callback ConnectResult.INVALID_ARGUMENT) := by
  rw [Instance.Connect_unfold, Instance.ValidateIdentity_eq, if_neg h]

/-- After a passed identity validation the connect continues with the
client-process validation. -/
theorem Instance.Connect_valid_identity (self : Instance) (E : Externals) (shell : Shell)
    (target_ptr : Identity) (remote_interfaces local_interfaces : Option Handle)
    (client_process_connection : Option ClientProcessConnection) (callback : Handle)
    (h : E.IsValidName (self.resolvedTarget E target_ptr).name = true ∧
      E.IsValidGUID (self.resolvedTarget E target_ptr).user_id = true) :
    self.Connect E shell target_ptr remote_interfaces local_interfaces
        client_process_connection callback =
      match self.ValidateClientProcessConnection E shell client_process_connection
          (self.resolvedTarget E target_ptr) callback with
      | (false, shell) => Except.ok shell
      | (true, shell) =>
        match self.ValidateCapabilities E shell (self.resolvedTarget E target_ptr)
          callback with
        | (false, shell) => Except.ok shell
        | (true, shell) =>
          Shell.Connect_1 E shell
            { source := self.identity
              target := self.resolvedTarget E target_ptr
              remote_interfaces := remote_interfaces
              local_interfaces := local_interfaces
              client_process_connection := client_process_connection
              connect_callback := callback } := by
  rw [Instance.Connect_unfold, Instance.ValidateIdentity_eq, if_pos h]

/-- `ConnectToClient` only appends to the log. -/
theorem Instance.ConnectToClient_log (self : Instance) (E : Externals) (shell : Shell)
    (params : ConnectParams) :
    ∃ rest, (self.ConnectToClient E shell params).log = shell.log ++ rest := by
  unfold Instance.ConnectToClient
  simp only
  split <;> exact ⟨_, List.append_assoc _ _ _⟩

/-- Every run of `Shell::Connect` that returns has logged its trace event
first: a run of `Instance::Connect` that logs no such event did not enter
`Shell::Connect`. -/
theorem Shell.Connect_logs_trace (E : Externals) (s : Shell) (params : ConnectParams)
    (client : Option Handle) (s1 : Shell)
    (h : Shell.Connect E s params client = Except.ok s1) :
    ∃ rest, s1.log = s.log ++ Event.TraceShellConnect params.target.name :: rest := by
  unfold Shell.Connect at h
  simp only at h
  split_ifs at h with h1 h2 h3 h4 h5
  · unfold Shell.ConnectToExistingInstance at h
    split at h
    · rename_i b s2 heq
      split at heq
      · rename_i inst hinst
        obtain ⟨rest, hrest⟩ := Instance.ConnectToClient_log inst E
          (s.emit (Event.TraceShellConnect params.target.name)) params
        cases heq
        cases h
        exact ⟨rest, by rw [hrest]; simp [Shell.emit]⟩
      · cases heq
    · rename_i b s2 heq
      split at heq
      · cases heq
      · cases heq
        cases h
        exact ⟨[Event.ResolveMojoName params.target.name], by simp [Shell.emit]⟩
  · cases h
    exact ⟨[Event.ResolveMojoName params.target.name], by simp [Shell.emit]⟩

/-- Without the `client_process` class a non-null connection is refused. -/
theorem Instance.ValidateClientProcessConnection_no_class (self : Instance) (E : Externals)
    (shell : Shell) (connection : ClientProcessConnection) (target : Identity)
    (callback : Handle) (hclass : self.HasClass kCapabilityClass_ClientProcess = false) :
    self.ValidateClientProcessConnection E shell (some connection) target callback =
      (false, shell.rejected E callback ConnectResult.ACCESS_DENIED) := by
  simp [Instance.ValidateClientProcessConnection, hclass, Shell.rejected]

/-- C4 (amended): a connect with a non-null client-process connection from a
source without the `client_process` class is rejected with one callback run,
`ACCESS_DENIED` when the target identity is valid and `INVALID_ARGUMENT`
otherwise; the registry and the pending resolver requests are unchanged and
`Shell::Connect` (whose first action is its trace event) is not reached. -/
theorem Connect_without_client_process_class (self : Instance) (E : Externals)
    (shell : Shell) (target_ptr : Identity) (remote_interfaces local_interfaces : Option Handle)
    (connection : ClientProcessConnection) (callback : Handle)
    (hclass : self.HasClass kCapabilityClass_ClientProcess = false) :
    self.Connect E shell target_ptr remote_interfaces local_interfaces (some connection)
        callback =
      Except.ok (shell.rejected E callback
        (if E.IsValidName (self.resolvedTarget E target_ptr).name = true ∧
            E.IsValidGUID (self.resolvedTarget E target_ptr).user_id = true
         then ConnectResult.ACCESS_DENIED else ConnectResult.INVALID_ARGUMENT)) ∧
    (∀ s, self.Connect E shell target_ptr remote_interfaces local_interfaces (some connection)
        callback = Except.ok s →
      s.identity_to_instance = shell.identity_to_instance ∧
      s.pending_resolutions = shell.pending_resolutions ∧
      ∀ n, Event.TraceShellConnect n ∉ s.eventsSince shell) := by
  have key : self.Connect E shell target_ptr remote_interfaces local_interfaces
      (some connection) callback =
      Except.ok (shell.rejected E callback
        (if E.IsValidName (self.resolvedTarget E target_ptr).name = true ∧
            E.IsValidGUID (self.resolvedTarget E target_ptr).user_id = true
         then ConnectResult.ACCESS_DENIED else ConnectResult.INVALID_ARGUMENT)) := by
    by_cases h : E.IsValidName (self.resolvedTarget E target_ptr).name = true ∧
        E.IsValidGUID (self.resolvedTarget E target_ptr).user_id = true
    · rw [Instance.Connect_valid_identity _ _ _ _ _ _ _ _ h,
        Instance.ValidateClientProcessConnection_no_class _ _ _ _ _ _ hclass, if_pos h]
    · rw [Instance.Connect_invalid_identity _ _ _ _ _ _ _ _ h, if_neg h]
  refine ⟨key, ?_⟩
  intro s hs
  rw [key] at hs
  cases hs
  obtain ⟨h1, h2, -, h4⟩ := Shell.rejected_frame shell E callback
    (if E.IsValidName (self.resolvedTarget E target_ptr).name = true ∧
        E.IsValidGUID (self.resolvedTarget E target_ptr).user_id = true
     then ConnectResult.ACCESS_DENIED else ConnectResult.INVALID_ARGUMENT)
  refine ⟨h1, h2, ?_⟩
  intro n
  rw [h4]
  simp

/-- C4 (amended) at a concrete input: `mojo:app_a`, which lacks the class,
offers a client process for the valid target `mojo:app_c`. -/
theorem Connect_without_client_process_class_witness :
    permissiveInstance.Connect sampleExternals sampleShell
        { name := "mojo:app_c", user_id := sampleUser, instance_ := "" } none none
        (some { shell_client_factory := some 1, pid_receiver_request := some 2 }) 7 =
      Except.ok (sampleShell.rejected sampleExternals 7 ConnectResult.ACCESS_DENIED) :=
  (Connect_without_client_process_class permissiveInstance sampleExternals sampleShell
    { name := "mojo:app_c", user_id := sampleUser, instance_ := "" } none none
    { shell_client_factory := some 1, pid_receiver_request := some 2 } 7 (by decide)).1

/-- C4 as stated fails: `mojo:app_a` lacks the `client_process` class and
offers a client process for a target with the empty (invalid) name; the
callback receives `INVALID_ARGUMENT`, not `ACCESS_DENIED`. -/
theorem Connect_without_client_process_class_counterexample :
    permissiveInstance.HasClass kCapabilityClass_ClientProcess = false ∧
    permissiveInstance.Connect sampleExternals sampleShell
        { name := "", user_id := sampleUser, instance_ := "" } none none
        (some { shell_client_factory := some 1, pid_receiver_request := some 2 }) 7 =
      Except.ok (sampleShell.emit (Event.ConnectCallbackRun 7 ConnectResult.INVALID_ARGUMENT
        sampleExternals.kInheritUserID sampleExternals.kInvalidInstanceID)) ∧
    permissiveInstance.Connect sampleExternals sampleShell
        { name := "", user_id := sampleUser, instance_ := "" } none none
        (some { shell_client_factory := some 1, pid_receiver_request := some 2 }) 7 ≠
      Except.ok (sampleShell.emit (Event.ConnectCallbackRun 7 ConnectResult.ACCESS_DENIED
        sampleExternals.kInheritUserID sampleExternals.kInvalidInstanceID)) := by
  have h : permissiveInstance.Connect sampleExternals sampleShell
        { name := "", user_id := sampleUser, instance_ := "" } none none
        (some { shell_client_factory := some 1, pid_receiver_request := some 2 }) 7 =
      Except.ok (sampleShell.emit (Event.ConnectCallbackRun 7 ConnectResult.INVALID_ARGUMENT
        sampleExternals.kInheritUserID sampleExternals.kInvalidInstanceID)) := rfl
  refine ⟨by decide, h, ?_⟩
  rw [h]
  intro h2
  have h3 := congrArg (fun r => match r with
    | Except.ok s => s.log
    | Except.error _ => []) h2
  revert h3
  decide

/-- With the `client_process` class held, a connection with a missing handle
is refused as an invalid argument. -/
theorem Instance.ValidateClientProcessConnection_missing_handle (self : Instance)
    (E : Externals) (shell : Shell) (connection : ClientProcessConnection) (target : Identity)
    (callback : Handle) (hclass : self.HasClass kCapabilityClass_ClientProcess = true)
    (hmissing : connection.shell_client_factory.isSome = false ∨
      connection.pid_receiver_request.isSome = false) :
    self.ValidateClientProcessConnection E shell (some connection) target callback =
      (false, shell.rejected E callback ConnectResult.INVALID_ARGUMENT) := by
  unfold Instance.ValidateClientProcessConnection Shell.rejected
  rcases hmissing with h | h <;> simp [hclass, h]

/-- C5 (amended): with a valid target identity, a source that holds the
`client_process` class, and a client-process connection in which exactly one
of `shell_client_factory` and `pid_receiver_request` is valid, the connect is
rejected with `INVALID_ARGUMENT`. -/
theorem Connect_one_handle_invalid (self : Instance) (E : Externals) (shell : Shell)
    (target_ptr : Identity) (remote_interfaces local_interfaces : Option Handle)
    (connection : ClientProcessConnection) (callback : Handle)
    (hname : E.IsValidName (self.resolvedTarget E target_ptr).name = true)
    (hguid : E.IsValidGUID (self.resolvedTarget E target_ptr).user_id = true)
    (hclass : self.HasClass kCapabilityClass_ClientProcess = true)
    (hone : connection.shell_client_factory.isSome ≠ connection.pid_receiver_request.isSome) :
    self.Connect E shell target_ptr remote_interfaces local_interfaces (some connection)
        callback =
      Except.ok (shell.emit (Event.ConnectCallbackRun callback ConnectResult.INVALID_ARGUMENT
        E.kInheritUserID E.kInvalidInstanceID)) := by
  have hmissing : connection.shell_client_factory.isSome = false ∨
      connection.pid_receiver_request.isSome = false := by
    cases h1 : connection.shell_client_factory.isSome
    · exact Or.inl rfl
    · cases h2 : connection.pid_receiver_request.isSome
      · exact Or.inr rfl
      · exact absurd (h1.trans h2.symm) hone
  rw [Instance.Connect_valid_identity _ _ _ _ _ _ _ _ ⟨hname, hguid⟩,
    Instance.ValidateClientProcessConnection_missing_handle _ _ _ _ _ _ hclass hmissing]
  rfl

/-- C5 (amended) at a concrete input: `mojo:app_p` holds the class and sends
a factory handle without a pid receiver request. -/
theorem Connect_one_handle_invalid_witness :
    privilegedInstance.Connect sampleExternals sampleShell
        { name := "mojo:app_c", user_id := sampleUser, instance_ := "" } none none
        (some { shell_client_factory := some 1, pid_receiver_request := none }) 7 =
      Except.ok (sampleShell.emit (Event.ConnectCallbackRun 7 ConnectResult.INVALID_ARGUMENT
        sampleExternals.kInheritUserID sampleExternals.kInvalidInstanceID)) :=
  Connect_one_handle_invalid privilegedInstance sampleExternals sampleShell
    { name := "mojo:app_c", user_id := sampleUser, instance_ := "" } none none
    { shell_client_factory := some 1, pid_receiver_request := none } 7
    (by decide) (by decide) (by decide) (by decide)

/-- C5 as stated fails: the target identity `mojo:app_c` is valid and exactly
one handle is valid, but the source `mojo:app_a` lacks the `client_process`
class, so the callback receives `ACCESS_DENIED`, not `INVALID_ARGUMENT`. -/
theorem Connect_one_handle_invalid_counterexample :
    sampleExternals.IsValidName "mojo:app_c" = true ∧
    sampleExternals.IsValidGUID sampleUser = true ∧
    sampleUser ≠ sampleExternals.kInheritUserID ∧
    permissiveInstance.Connect sampleExternals sampleShell
        { name := "mojo:app_c", user_id := sampleUser, instance_ := "" } none none
        (some { shell_client_factory := some 1, pid_receiver_request := none }) 7 =
      Except.ok (sampleShell.emit (Event.ConnectCallbackRun 7 ConnectResult.ACCESS_DENIED
        sampleExternals.kInheritUserID sampleExternals.kInvalidInstanceID)) ∧
    permissiveInstance.Connect sampleExternals sampleShell
        { name := "mojo:app_c", user_id := sampleUser, instance_ := "" } none none
        (some { shell_client_factory := some 1, pid_receiver_request := none }) 7 ≠
      Except.ok (sampleShell.emit (Event.ConnectCallbackRun 7 ConnectResult.INVALID_ARGUMENT
        sampleExternals.kInheritUserID sampleExternals.kInvalidInstanceID)) := by
  have h : permissiveInstance.Connect sampleExternals sampleShell
        { name := "mojo:app_c", user_id := sampleUser, instance_ := "" } none none
        (some { shell_client_factory := some 1, pid_receiver_request := none }) 7 =
      Except.ok (sampleShell.emit (Event.ConnectCallbackRun 7 ConnectResult.ACCESS_DENIED
        sampleExternals.kInheritUserID sampleExternals.kInvalidInstanceID)) := rfl
  refine ⟨by decide, by decide, by decide, h, ?_⟩
  rw [h]
  intro h2
  have h3 := congrArg (fun r => match r with
    | Except.ok s => s.log
    | Except.error _ => []) h2
  revert h3
  decide

/-- When the capability validation refuses the resolved target, the connect is
rejected whatever the earlier validations say, and with `ACCESS_DENIED` when
they pass. -/
theorem Instance.Connect_rejected_of_capabilities (self : Instance) (E : Externals)
    (shell : Shell) (target_ptr : Identity) (remote_interfaces local_interfaces : Option Handle)
    (client_process_connection : Option ClientProcessConnection) (callback : Handle)
    (h : self.ValidateCapabilities E shell (self.resolvedTarget E target_ptr) callback =
      (false, shell.rejected E callback ConnectResult.ACCESS_DENIED)) :
    (∃ result, result ≠ ConnectResult.SUCCEEDED ∧
      self.Connect E shell target_ptr remote_interfaces local_interfaces
        client_process_connection callback = Except.ok (shell.rejected E callback result)) ∧
    ((Instance.ValidateIdentity E shell (self.resolvedTarget E target_ptr) callback).1 = true →
      (self.ValidateClientProcessConnection E shell client_process_connection
        (self.resolvedTarget E target_ptr) callback).1 = true →
      self.Connect E shell target_ptr remote_interfaces local_interfaces
        client_process_connection callback =
        Except.ok (shell.rejected E callback ConnectResult.ACCESS_DENIED)) := by
  by_cases hid : E.IsValidName (self.resolvedTarget E target_ptr).name = true ∧
      E.IsValidGUID (self.resolvedTarget E target_ptr).user_id = true
  · rcases Instance.ValidateClientProcessConnection_outcome self E shell
      client_process_connection (self.resolvedTarget E target_ptr) callback with hc | ⟨r, hr, hc⟩
    · have e : self.Connect E shell target_ptr remote_interfaces local_interfaces
          client_process_connection callback =
          Except.ok (shell.rejected E callback ConnectResult.ACCESS_DENIED) := by
        rw [Instance.Connect_valid_identity _ _ _ _ _ _ _ _ hid, hc]
        simp only [h]
      exact ⟨⟨ConnectResult.ACCESS_DENIED, by decide, e⟩, fun _ _ => e⟩
    · have e : self.Connect E shell target_ptr remote_interfaces local_interfaces
          client_process_connection callback = Except.ok (shell.rejected E callback r) := by
        rw [Instance.Connect_valid_identity _ _ _ _ _ _ _ _ hid, hc]
      refine ⟨⟨r, hr, e⟩, fun _ hfalse => ?_⟩
      rw [hc] at hfalse
      cases hfalse
  · have e : self.Connect E shell target_ptr remote_interfaces local_interfaces
        client_process_connection callback =
        Except.ok (shell.rejected E callback ConnectResult.INVALID_ARGUMENT) :=
      Instance.Connect_invalid_identity _ _ _ _ _ _ _ _ hid
    refine ⟨⟨ConnectResult.INVALID_ARGUMENT, by decide, e⟩, fun hfalse => ?_⟩
    rw [Instance.ValidateIdentity_eq, if_neg hid] at hfalse
    cases hfalse

/-- The cross-user check of `ValidateCapabilities` (shell.cc:324-334). -/
theorem Instance.ValidateCapabilities_cross_user (self : Instance) (E : Externals)
    (shell : Shell) (target : Identity) (callback : Handle)
    (hdiffers : target.user_id ≠ self.identity.user_id)
    (hnotroot : target.user_id ≠ E.kRootUserID)
    (hclass : self.HasClass kCapabilityClass_UserID = false) :
    self.ValidateCapabilities E shell target callback =
      (false, shell.rejected E callback ConnectResult.ACCESS_DENIED) := by
  unfold Instance.ValidateCapabilities Shell.rejected
  rw [if_pos]
  exact ⟨hdiffers, hnotroot, by simp [hclass]⟩

/-- The instance-qualifier check of `ValidateCapabilities` (shell.cc:335-346):
a target refused by it is refused with `ACCESS_DENIED`, by it or by the
cross-user check before it. -/
theorem Instance.ValidateCapabilities_qualifier (self : Instance) (E : Externals)
    (shell : Shell) (target : Identity) (callback : Handle)
    (hnonempty : target.instance_ ≠ "")
    (hnotdefault : target.instance_ ≠ E.GetNamePath target.name)
    (hclass : self.HasClass kCapabilityClass_InstanceName = false) :
    self.ValidateCapabilities E shell target callback =
      (false, shell.rejected E callback ConnectResult.ACCESS_DENIED) := by
  unfold Instance.ValidateCapabilities Shell.rejected
  by_cases h1 : target.user_id ≠ self.identity.user_id ∧ target.user_id ≠ E.kRootUserID ∧
      ¬ self.HasClass kCapabilityClass_UserID = true
  · rw [if_pos h1]
  · rw [if_neg h1, if_pos]
    exact ⟨hnonempty, hnotdefault, by simp [hclass]⟩

/-- C6 (amended): when the resolved target user differs from the source user
and is not the root user, and the source lacks the `user_id` class, the
connect is rejected (one callback run, not `SUCCEEDED`, nothing else changed),
with `ACCESS_DENIED` whenever the identity and client-process validations
pass. When the target user is the source user or the root user, or the source
holds `user_id`, the check rejects nothing: `ValidateCapabilities` answers as
it does for the same target under the source user. -/
theorem Connect_cross_user_check (self : Instance) (E : Externals) (shell : Shell)
    (target_ptr : Identity) (remote_interfaces local_interfaces : Option Handle)
    (client_process_connection : Option ClientProcessConnection) (callback : Handle) :
    ((self.resolvedTarget E target_ptr).user_id ≠ self.identity.user_id →
      (self.resolvedTarget E target_ptr).user_id ≠ E.kRootUserID →
      self.HasClass kCapabilityClass_UserID = false →
      (∃ result, result ≠ ConnectResult.SUCCEEDED ∧
        self.Connect E shell target_ptr remote_interfaces local_interfaces
          client_process_connection callback =
          Except.ok (shell.emit (Event.ConnectCallbackRun callback result
            E.kInheritUserID E.kInvalidInstanceID))) ∧
      ((Instance.ValidateIdentity E shell (self.resolvedTarget E target_ptr)
          callback).1 = true →
        (self.ValidateClientProcessConnection E shell client_process_connection
          (self.resolvedTarget E target_ptr) callback).1 = true →
        self.Connect E shell target_ptr remote_interfaces local_interfaces
          client_process_connection callback =
          Except.ok (shell.emit (Event.ConnectCallbackRun callback
            ConnectResult.ACCESS_DENIED E.kInheritUserID E.kInvalidInstanceID)))) ∧
    (∀ target : Identity,
      (target.user_id = self.identity.user_id ∨ target.user_id = E.kRootUserID ∨
        self.HasClass kCapabilityClass_UserID = true) →
      self.ValidateCapabilities E shell target callback =
        self.ValidateCapabilities E shell (target.set_user_id self.identity.user_id)
          callback) := by
  constructor
  · intro hdiffers hnotroot hclass
    exact Instance.Connect_rejected_of_capabilities self E shell target_ptr remote_interfaces
      local_interfaces client_process_connection callback
      (Instance.ValidateCapabilities_cross_user self E shell _ callback hdiffers hnotroot hclass)
  · intro target h
    have h1 : ¬ (target.user_id ≠ self.identity.user_id ∧ target.user_id ≠ E.kRootUserID ∧
        ¬ self.HasClass kCapabilityClass_UserID = true) := by tauto
    unfold Instance.ValidateCapabilities Identity.set_user_id
    simp only [if_neg h1]
    simp

/-- C6 (amended) at concrete inputs: `mojo:app_a` lacks `user_id` and is
refused a target under another user with `ACCESS_DENIED`; for a target under
the root user the capability validation passes. -/
theorem Connect_cross_user_check_witness :
    permissiveInstance.Connect sampleExternals sampleShell
        { name := "mojo:app_c", user_id := otherUser, instance_ := "" } none none none 7 =
      Except.ok (sampleShell.emit (Event.ConnectCallbackRun 7 ConnectResult.ACCESS_DENIED
        sampleExternals.kInheritUserID sampleExternals.kInvalidInstanceID)) ∧
    permissiveInstance.ValidateCapabilities sampleExternals sampleShell
        { name := "mojo:app_c", user_id := sampleExternals.kRootUserID, instance_ := "" } 7 =
      (true, sampleShell) :=
  ⟨((Connect_cross_user_check permissiveInstance sampleExternals sampleShell
      { name := "mojo:app_c", user_id := otherUser, instance_ := "" } none none none 7).1
      (by decide) (by decide) (by decide)).2 (by decide) (by decide),
   ((Connect_cross_user_check permissiveInstance sampleExternals sampleShell
      { name := "mojo:app_c", user_id := otherUser, instance_ := "" } none none none 7).2
      { name := "mojo:app_c", user_id := sampleExternals.kRootUserID, instance_ := "" }
      (Or.inr (Or.inl rfl))).trans (by decide)⟩

/-- C6 as stated fails: `mojo:app_a` lacks `user_id` and names a target under
another, non-root user, but the target name is empty (invalid), so the
callback receives `INVALID_ARGUMENT`, not `ACCESS_DENIED`. -/
theorem Connect_cross_user_check_counterexample :
    otherUser ≠ permissiveInstance.identity.user_id ∧
    otherUser ≠ sampleExternals.kRootUserID ∧
    otherUser ≠ sampleExternals.kInheritUserID ∧
    permissiveInstance.HasClass kCapabilityClass_UserID = false ∧
    permissiveInstance.Connect sampleExternals sampleShell
        { name := "", user_id := otherUser, instance_ := "" } none none none 7 =
      Except.ok (sampleShell.emit (Event.ConnectCallbackRun 7 ConnectResult.INVALID_ARGUMENT
        sampleExternals.kInheritUserID sampleExternals.kInvalidInstanceID)) ∧
    permissiveInstance.Connect sampleExternals sampleShell
        { name := "", user_id := otherUser, instance_ := "" } none none none 7 ≠
      Except.ok (sampleShell.emit (Event.ConnectCallbackRun 7 ConnectResult.ACCESS_DENIED
        sampleExternals.kInheritUserID sampleExternals.kInvalidInstanceID)) := by
  have h : permissiveInstance.Connect sampleExternals sampleShell
        { name := "", user_id := otherUser, instance_ := "" } none none none 7 =
      Except.ok (sampleShell.emit (Event.ConnectCallbackRun 7 ConnectResult.INVALID_ARGUMENT
        sampleExternals.kInheritUserID sampleExternals.kInvalidInstanceID)) := rfl
  refine ⟨by decide, by decide, by decide, by decide, h, ?_⟩
  rw [h]
  intro h2
  have h3 := congrArg (fun r => match r with
    | Except.ok s => s.log
    | Except.error _ => []) h2
  revert h3
  decide

/-- C7 (amended): when the target carries a non-empty instance qualifier other
than `GetNamePath(name)` and the source lacks the `instance_name` class, the
connect is rejected (one callback run, not `SUCCEEDED`, nothing else changed),
with `ACCESS_DENIED` whenever the identity and client-process validations
pass. When the qualifier is empty or the default, or the source holds
`instance_name`, the check rejects nothing: `ValidateCapabilities` answers as
it does for the same target with the empty qualifier. -/
theorem Connect_instance_qualifier_check (self : Instance) (E : Externals) (shell : Shell)
    (target_ptr : Identity) (remote_interfaces local_interfaces : Option Handle)
    (client_process_connection : Option ClientProcessConnection) (callback : Handle) :
    (target_ptr.instance_ ≠ "" →
      target_ptr.instance_ ≠ E.GetNamePath target_ptr.name →
      self.HasClass kCapabilityClass_InstanceName = false →
      (∃ result, result ≠ ConnectResult.SUCCEEDED ∧
        self.Connect E shell target_ptr remote_interfaces local_interfaces
          client_process_connection callback =
          Except.ok (shell.emit (Event.ConnectCallbackRun callback result
            E.kInheritUserID E.kInvalidInstanceID))) ∧
      ((Instance.ValidateIdentity E shell (self.resolvedTarget E target_ptr)
          callback).1 = true →
        (self.ValidateClientProcessConnection E shell client_process_connection
          (self.resolvedTarget E target_ptr) callback).1 = true →
        self.Connect E shell target_ptr remote_interfaces local_interfaces
          client_process_connection callback =
          Except.ok (shell.emit (Event.ConnectCallbackRun callback
            ConnectResult.ACCESS_DENIED E.kInheritUserID E.kInvalidInstanceID)))) ∧
    (∀ target : Identity,
      (target.instance_ = "" ∨ target.instance_ = E.GetNamePath target.name ∨
        self.HasClass kCapabilityClass_InstanceName = true) →
      self.ValidateCapabilities E shell target callback =
        self.ValidateCapabilities E shell { target with instance_ := "" } callback) := by
  constructor
  · intro hnonempty hnotdefault hclass
    refine Instance.Connect_rejected_of_capabilities self E shell target_ptr remote_interfaces
      local_interfaces client_process_connection callback
      (Instance.ValidateCapabilities_qualifier self E shell _ callback ?_ ?_ hclass)
    · rw [Instance.resolvedTarget_instance]; exact hnonempty
    · rw [Instance.resolvedTarget_instance, Instance.resolvedTarget_name]; exact hnotdefault
  · intro target h
    have h2 : ¬ (target.instance_ ≠ "" ∧ target.instance_ ≠ E.GetNamePath target.name ∧
        ¬ self.HasClass kCapabilityClass_InstanceName = true) := by tauto
    unfold Instance.ValidateCapabilities
    simp only [if_neg h2]
    simp

/-- C7 (amended) at concrete inputs: `mojo:app_a` lacks `instance_name` and is
refused the qualifier `x` of `mojo:app_c` with `ACCESS_DENIED`; with the
default qualifier `app_c` the capability validation passes. -/
theorem Connect_instance_qualifier_check_witness :
    permissiveInstance.Connect sampleExternals sampleShell
        { name := "mojo:app_c", user_id := sampleUser, instance_ := "x" } none none none 7 =
      Except.ok (sampleShell.emit (Event.ConnectCallbackRun 7 ConnectResult.ACCESS_DENIED
        sampleExternals.kInheritUserID sampleExternals.kInvalidInstanceID)) ∧
    permissiveInstance.ValidateCapabilities sampleExternals sampleShell
        { name := "mojo:app_c", user_id := sampleUser, instance_ := "app_c" } 7 =
      (true, sampleShell) :=
  ⟨((Connect_instance_qualifier_check permissiveInstance sampleExternals sampleShell
      { name := "mojo:app_c", user_id := sampleUser, instance_ := "x" } none none none 7).1
      (by decide) (by decide) (by decide)).2 (by decide) (by decide),
   ((Connect_instance_qualifier_check permissiveInstance sampleExternals sampleShell
      { name := "mojo:app_c", user_id := sampleUser, instance_ := "x" } none none none 7).2
      { name := "mojo:app_c", user_id := sampleUser, instance_ := "app_c" }
      (Or.inr (Or.inl (by decide)))).trans (by decide)⟩

/-- C7 as stated fails: `mojo:app_a` lacks `instance_name` and names the
qualifier `x` of `mojo:app_c`, which is not the default `app_c`, but the
target user id is malformed, so the callback receives `INVALID_ARGUMENT`, not
`ACCESS_DENIED`. -/
theorem Connect_instance_qualifier_check_counterexample :
    ("x" : String) ≠ "" ∧
    "x" ≠ sampleExternals.GetNamePath "mojo:app_c" ∧
    permissiveInstance.HasClass kCapabilityClass_InstanceName = false ∧
    permissiveInstance.Connect sampleExternals sampleShell
        { name := "mojo:app_c", user_id := "not-a-guid", instance_ := "x" } none none none 7 =
      Except.ok (sampleShell.emit (Event.ConnectCallbackRun 7 ConnectResult.INVALID_ARGUMENT
        sampleExternals.kInheritUserID sampleExternals.kInvalidInstanceID)) ∧
    permissiveInstance.Connect sampleExternals sampleShell
        { name := "mojo:app_c", user_id := "not-a-guid", instance_ := "x" } none none none 7 ≠
      Except.ok (sampleShell.emit (Event.ConnectCallbackRun 7 ConnectResult.ACCESS_DENIED
        sampleExternals.kInheritUserID sampleExternals.kInvalidInstanceID)) := by
  have h : permissiveInstance.Connect sampleExternals sampleShell
        { name := "mojo:app_c", user_id := "not-a-guid", instance_ := "x" } none none none 7 =
      Except.ok (sampleShell.emit (Event.ConnectCallbackRun 7 ConnectResult.INVALID_ARGUMENT
        sampleExternals.kInheritUserID sampleExternals.kInvalidInstanceID)) := rfl
  refine ⟨by decide, by decide, by decide, h, ?_⟩
  rw [h]
  intro h2
  have h3 := congrArg (fun r => match r with
    | Except.ok s => s.log
    | Except.error _ => []) h2
  revert h3
  decide

/-- `GetExistingOrRootInstance` finds something exactly when the registry has
an entry for the identity or for the same name and qualifier under root. -/
theorem Shell.GetExistingOrRootInstance_isSome (E : Externals) (s : Shell)
    (identity : Identity) :
    (s.GetExistingOrRootInstance E identity).isSome = true ↔
      ((StdMap.find s.identity_to_instance identity).isSome = true ∨
       (StdMap.find s.identity_to_instance
          { identity with user_id := E.kRootUserID }).isSome = true) := by
  unfold Shell.GetExistingOrRootInstance Shell.GetExistingInstance Identity.set_user_id
  cases h : StdMap.find s.identity_to_instance identity <;> simp

/-- C8: with a non-null client-process connection, a source holding
`client_process` and both handles valid, the connect is rejected with
`INVALID_ARGUMENT` whenever the registry already has an instance for the
(resolved) target identity or for the same name and qualifier under the root
user; nothing but the callback run is logged. -/
theorem Connect_client_process_for_existing_instance (self : Instance) (E : Externals)
    (shell : Shell) (target_ptr : Identity) (remote_interfaces local_interfaces : Option Handle)
    (connection : ClientProcessConnection) (callback : Handle)
    (hclass : self.HasClass kCapabilityClass_ClientProcess = true)
    (hfactory : connection.shell_client_factory.isSome = true)
    (hreceiver : connection.pid_receiver_request.isSome = true)
    (hexists :
      (StdMap.find shell.identity_to_instance (self.resolvedTarget E target_ptr)).isSome = true ∨
      (StdMap.find shell.identity_to_instance
        { (self.resolvedTarget E target_ptr) with user_id := E.kRootUserID }).isSome = true) :
    self.Connect E shell target_ptr remote_interfaces local_interfaces (some connection)
        callback =
      Except.ok (shell.emit (Event.ConnectCallbackRun callback ConnectResult.INVALID_ARGUMENT
        E.kInheritUserID E.kInvalidInstanceID)) := by
  by_cases hid : E.IsValidName (self.resolvedTarget E target_ptr).name = true ∧
      E.IsValidGUID (self.resolvedTarget E target_ptr).user_id = true
  · have hc : self.ValidateClientProcessConnection E shell (some connection)
        (self.resolvedTarget E target_ptr) callback =
        (false, shell.rejected E callback ConnectResult.INVALID_ARGUMENT) := by
      have hx := (Shell.GetExistingOrRootInstance_isSome E shell
        (self.resolvedTarget E target_ptr)).mpr hexists
      simp [Instance.ValidateClientProcessConnection, hclass, hfactory, hreceiver, hx,
        Shell.rejected]
    rw [Instance.Connect_valid_identity _ _ _ _ _ _ _ _ hid, hc]
    rfl
  · exact Instance.Connect_invalid_identity _ _ _ _ _ _ _ _ hid

/-- C8 at concrete inputs: `mojo:app_p` offers a client process for
`mojo:app_b`, which is already registered. -/
theorem Connect_client_process_for_existing_instance_witness :
    privilegedInstance.Connect sampleExternals sampleShell
        { name := "mojo:app_b", user_id := sampleUser, instance_ := "app_b" } none none
        (some { shell_client_factory := some 1, pid_receiver_request := some 2 }) 7 =
      Except.ok (sampleShell.emit (Event.ConnectCallbackRun 7 ConnectResult.INVALID_ARGUMENT
        sampleExternals.kInheritUserID sampleExternals.kInvalidInstanceID)) :=
  Connect_client_process_for_existing_instance privilegedInstance sampleExternals sampleShell
    { name := "mojo:app_b", user_id := sampleUser, instance_ := "app_b" } none none
    { shell_client_factory := some 1, pid_receiver_request := some 2 } 7
    (by decide) (by decide) (by decide) (Or.inl (by decide))

/-- C9: when the target user id, after the inherit substitution, is not a
well-formed GUID, the connect ends with the callback run once with
`INVALID_ARGUMENT`: the registry and the pending resolver requests are
unchanged, nothing else is logged (so `Shell::Connect` is not entered), and
the outcome is the same for every capability spec of the source and every
client-process connection (no later check takes part). -/
theorem Connect_malformed_user_id (self : Instance) (E : Externals) (shell : Shell)
    (target_ptr : Identity) (remote_interfaces local_interfaces : Option Handle)
    (client_process_connection : Option ClientProcessConnection) (callback : Handle)
    (hguid : E.IsValidGUID (self.resolvedTarget E target_ptr).user_id = false) :
    self.Connect E shell target_ptr remote_interfaces local_interfaces
        client_process_connection callback =
      Except.ok (shell.emit (Event.ConnectCallbackRun callback ConnectResult.INVALID_ARGUMENT
        E.kInheritUserID E.kInvalidInstanceID)) ∧
    (∀ s, self.Connect E shell target_ptr remote_interfaces local_interfaces
        client_process_connection callback = Except.ok s →
      s.identity_to_instance = shell.identity_to_instance ∧
      s.pending_resolutions = shell.pending_resolutions ∧
      s.eventsSince shell =
        [Event.ConnectCallbackRun callback ConnectResult.INVALID_ARGUMENT
          E.kInheritUserID E.kInvalidInstanceID]) ∧
    (∀ (other : Instance) (connection : Option ClientProcessConnection),
      other.identity.user_id = self.identity.user_id →
      other.Connect E shell target_ptr remote_interfaces local_interfaces connection
        callback =
      self.Connect E shell target_ptr remote_interfaces local_interfaces
        client_process_connection callback) := by
  have hid : ¬ (E.IsValidName (self.resolvedTarget E target_ptr).name = true ∧
      E.IsValidGUID (self.resolvedTarget E target_ptr).user_id = true) := by
    rw [hguid]; simp
  have key := Instance.Connect_invalid_identity self E shell target_ptr remote_interfaces
    local_interfaces client_process_connection callback hid
  refine ⟨key, ?_, ?_⟩
  · intro s hs
    rw [key] at hs
    cases hs
    obtain ⟨h1, h2, -, h4⟩ :=
      Shell.rejected_frame shell E callback ConnectResult.INVALID_ARGUMENT
    exact ⟨h1, h2, h4⟩
  · intro other connection huser
    have hres : other.resolvedTarget E target_ptr = self.resolvedTarget E target_ptr := by
      unfold Instance.resolvedTarget
      rw [huser]
    rw [key]
    exact Instance.Connect_invalid_identity other E shell target_ptr remote_interfaces
      local_interfaces connection callback (by rw [hres]; exact hid)

/-- C9 at a concrete input: `mojo:app_p` names a target whose user id is not
a GUID. -/
theorem Connect_malformed_user_id_witness :
    privilegedInstance.Connect sampleExternals sampleShell
        { name := "mojo:app_b", user_id := "bogus", instance_ := "app_b" } none none none 7 =
      Except.ok (sampleShell.emit (Event.ConnectCallbackRun 7 ConnectResult.INVALID_ARGUMENT
        sampleExternals.kInheritUserID sampleExternals.kInvalidInstanceID)) :=
  (Connect_malformed_user_id privilegedInstance sampleExternals sampleShell
    { name := "mojo:app_b", user_id := "bogus", instance_ := "app_b" } none none none 7
    (by decide)).1

/-- C10: each of the three validations either passes without logging or fails
after running the callback once with a result other than `SUCCEEDED`, the
inherit user id and the invalid instance id; and whenever one of them fails,
`Instance::Connect` ends in the state that differs from the initial one by
exactly that one callback run. -/
theorem Connect_rejection_runs_callback_once (self : Instance) (E : Externals) (shell : Shell)
    (target_ptr : Identity) (remote_interfaces local_interfaces : Option Handle)
    (client_process_connection : Option ClientProcessConnection) (callback : Handle) :
    PassesOrRejects E shell callback
      (Instance.ValidateIdentity E shell (self.resolvedTarget E target_ptr) callback) ∧
    PassesOrRejects E shell callback
      (self.ValidateClientProcessConnection E shell client_process_connection
        (self.resolvedTarget E target_ptr) callback) ∧
    PassesOrRejects E shell callback
      (self.ValidateCapabilities E shell (self.resolvedTarget E target_ptr) callback) ∧
    (¬ ((Instance.ValidateIdentity E shell (self.resolvedTarget E target_ptr) callback).1 = true ∧
        (self.ValidateClientProcessConnection E shell client_process_connection
          (self.resolvedTarget E target_ptr) callback).1 = true ∧
        (self.ValidateCapabilities E shell (self.resolvedTarget E target_ptr)
          callback).1 = true) →
      ∃ result, result ≠ ConnectResult.SUCCEEDED ∧
        self.Connect E shell target_ptr remote_interfaces local_interfaces
          client_process_connection callback =
          Except.ok (shell.emit (Event.ConnectCallbackRun callback result
            E.kInheritUserID E.kInvalidInstanceID)) ∧
        (shell.emit (Event.ConnectCallbackRun callback result
            E.kInheritUserID E.kInvalidInstanceID)).eventsSince shell =
          [Event.ConnectCallbackRun callback result E.kInheritUserID E.kInvalidInstanceID] ∧
        (shell.emit (Event.ConnectCallbackRun callback result
            E.kInheritUserID E.kInvalidInstanceID)).identity_to_instance =
          shell.identity_to_instance) := by
  have hcap : PassesOrRejects E shell callback
      (self.ValidateCapabilities E shell (self.resolvedTarget E target_ptr) callback) := by
    rcases Instance.ValidateCapabilities_outcome self E shell
      (self.resolvedTarget E target_ptr) callback with h | h
    · exact Or.inl h
    · exact Or.inr ⟨ConnectResult.ACCESS_DENIED, by decide, h⟩
  refine ⟨Instance.ValidateIdentity_outcome E shell _ callback,
    Instance.ValidateClientProcessConnection_outcome self E shell _ _ callback, hcap, ?_⟩
  intro hfail
  have frame : ∀ result : ConnectResult,
      (shell.emit (Event.ConnectCallbackRun callback result
          E.kInheritUserID E.kInvalidInstanceID)).eventsSince shell =
        [Event.ConnectCallbackRun callback result E.kInheritUserID E.kInvalidInstanceID] ∧
      (shell.emit (Event.ConnectCallbackRun callback result
          E.kInheritUserID E.kInvalidInstanceID)).identity_to_instance =
        shell.identity_to_instance := fun result =>
    ⟨(Shell.rejected_frame shell E callback result).2.2.2,
     (Shell.rejected_frame shell E callback result).1⟩
  rw [Instance.Connect_unfold]
  rcases Instance.ValidateIdentity_outcome E shell (self.resolvedTarget E target_ptr)
    callback with h1 | ⟨r, hr, h1⟩
  · rcases Instance.ValidateClientProcessConnection_outcome self E shell
      client_process_connection (self.resolvedTarget E target_ptr) callback
      with h2 | ⟨r, hr, h2⟩
    · rcases hcap with h3 | ⟨r, hr, h3⟩
      · exact absurd ⟨by rw [h1], by rw [h2], by rw [h3]⟩ hfail
      · rw [h1]
        simp only [h2, h3]
        exact ⟨r, hr, rfl, frame r⟩
    · rw [h1]
      simp only [h2]
      exact ⟨r, hr, rfl, frame r⟩
  · rw [h1]
    exact ⟨r, hr, rfl, frame r⟩

/-- C10 at a concrete input: `mojo:app_b` may connect to nothing, so its
connect to `mojo:app_a` fails the capability validation. -/
theorem Connect_rejection_runs_callback_once_witness :
    ∃ result, result ≠ ConnectResult.SUCCEEDED ∧
      isolatedInstance.Connect sampleExternals sampleShell
        { name := "mojo:app_a", user_id := sampleUser, instance_ := "app_a" } none none none 7 =
      Except.ok (sampleShell.emit (Event.ConnectCallbackRun 7 result
        sampleExternals.kInheritUserID sampleExternals.kInvalidInstanceID)) ∧
      (sampleShell.emit (Event.ConnectCallbackRun 7 result
        sampleExternals.kInheritUserID sampleExternals.kInvalidInstanceID)).eventsSince
          sampleShell =
        [Event.ConnectCallbackRun 7 result
          sampleExternals.kInheritUserID sampleExternals.kInvalidInstanceID] ∧
      (sampleShell.emit (Event.ConnectCallbackRun 7 result
        sampleExternals.kInheritUserID sampleExternals.kInvalidInstanceID)).identity_to_instance =
        sampleShell.identity_to_instance :=
  (Connect_rejection_runs_callback_once isolatedInstance sampleExternals sampleShell
    { name := "mojo:app_a", user_id := sampleUser, instance_ := "app_a" } none none none 7).2.2.2
    (by decide)


/-! ## Theorems: the registry as a map -/

theorem StdMap.find_eq_none_iff {K V : Type} [DecidableEq K] (m : StdMap K V) (k : K) :
    StdMap.find m k = none ↔ k ∉ m.map Prod.fst := by
  induction m with
  | nil => simp [StdMap.find]
  | cons e rest ih =>
    obtain ⟨k0, v0⟩ := e
    unfold StdMap.find
    by_cases h : k0 = k
    · simp [h]
    · simp only [h, if_false, ih, List.map_cons, List.mem_cons]
      constructor
      · rintro h1 (h2 | h2)
        · exact h h2.symm
        · exact h1 h2
      · intro h1 h2
        exact h1 (Or.inr h2)

theorem StdMap.mem_of_find {K V : Type} [DecidableEq K] (m : StdMap K V) (k : K) (v : V)
    (h : StdMap.find m k = some v) : (k, v) ∈ m := by
  induction m with
  | nil => simp [StdMap.find] at h
  | cons e rest ih =>
    obtain ⟨k0, v0⟩ := e
    unfold StdMap.find at h
    by_cases h0 : k0 = k
    · simp only [h0, if_true, Option.some.injEq] at h
      subst h0 h
      exact List.mem_cons_self _ _
    · simp only [h0, if_false] at h
      exact List.mem_cons_of_mem _ (ih h)

theorem StdMap.find_of_mem {K V : Type} [DecidableEq K] (m : StdMap K V) (k : K) (v : V)
    (hnodup : (m.map Prod.fst).Nodup) (h : (k, v) ∈ m) : StdMap.find m k = some v := by
  induction m with
  | nil => simp at h
  | cons e rest ih =>
    obtain ⟨k0, v0⟩ := e
    simp only [List.map_cons, List.nodup_cons] at hnodup
    unfold StdMap.find
    rcases List.mem_cons.mp h with h1 | h1
    · cases h1
      simp
    · have hne : k0 ≠ k := by
        rintro rfl
        exact hnodup.1 (List.mem_map.mpr ⟨(k0, v), h1, rfl⟩)
      simp only [hne, if_false]
      exact ih hnodup.2 h1

theorem StdMap.assign_of_find_none {K V : Type} [DecidableEq K] (m : StdMap K V) (k : K)
    (v : V) (h : StdMap.find m k = none) : StdMap.assign m k v = m ++ [(k, v)] := by
  induction m with
  | nil => rfl
  | cons e rest ih =>
    obtain ⟨k0, v0⟩ := e
    unfold StdMap.find at h
    by_cases h0 : k0 = k
    · simp [h0] at h
    · simp only [h0, if_false] at h
      unfold StdMap.assign
      simp only [h0, if_false, ih h, List.cons_append]

theorem StdMap.find_append_singleton {K V : Type} [DecidableEq K] (m : StdMap K V) (k : K)
    (v : V) (k1 : K) :
    StdMap.find (m ++ [(k, v)]) k1 =
      match StdMap.find m k1 with
      | some x => some x
      | none => if k = k1 then some v else none := by
  induction m with
  | nil => simp [StdMap.find]
  | cons e rest ih =>
    obtain ⟨k0, v0⟩ := e
    simp only [List.cons_append]
    unfold StdMap.find
    by_cases h0 : k0 = k1
    · simp [h0]
    · simp only [h0, if_false]
      exact ih

theorem StdMap.erase_subset {K V : Type} [DecidableEq K] (m : StdMap K V) (k : K) :
    ∀ entry, entry ∈ StdMap.erase m k → entry ∈ m := by
  induction m with
  | nil => simp [StdMap.erase]
  | cons e rest ih =>
    obtain ⟨k0, v0⟩ := e
    intro entry hentry
    unfold StdMap.erase at hentry
    by_cases h0 : k0 = k
    · simp only [h0, if_true] at hentry
      exact List.mem_cons_of_mem _ hentry
    · simp only [h0, if_false] at hentry
      rcases List.mem_cons.mp hentry with h1 | h1
      · rw [h1]; exact List.mem_cons_self _ _
      · exact List.mem_cons_of_mem _ (ih entry h1)

theorem StdMap.erase_nodup {K V : Type} [DecidableEq K] (m : StdMap K V) (k : K)
    (h : (m.map Prod.fst).Nodup) : ((StdMap.erase m k).map Prod.fst).Nodup := by
  induction m with
  | nil => simp [StdMap.erase]
  | cons e rest ih =>
    obtain ⟨k0, v0⟩ := e
    simp only [List.map_cons, List.nodup_cons] at h
    unfold StdMap.erase
    by_cases h0 : k0 = k
    · simp only [h0, if_true]
      exact h.2
    · simp only [h0, if_false, List.map_cons, List.nodup_cons]
      refine ⟨?_, ih h.2⟩
      intro hmem
      obtain ⟨entry, hentry, hfst⟩ := List.mem_map.mp hmem
      exact h.1 (List.mem_map.mpr ⟨entry, StdMap.erase_subset rest k entry hentry, hfst⟩)

theorem StdMap.find_erase_ne {K V : Type} [DecidableEq K] (m : StdMap K V) (k k1 : K)
    (h : k1 ≠ k) : StdMap.find (StdMap.erase m k) k1 = StdMap.find m k1 := by
  induction m with
  | nil => rfl
  | cons e rest ih =>
    obtain ⟨k0, v0⟩ := e
    unfold StdMap.erase
    by_cases h0 : k0 = k
    · simp only [h0, if_true]
      have : ¬ k = k1 := fun e => h e.symm
      simp [StdMap.find, this]
    · simp only [h0, if_false]
      unfold StdMap.find
      by_cases h1 : k0 = k1
      · simp [h1]
      · simp only [h1, if_false]
        exact ih

theorem StdMap.find_erase_self {K V : Type} [DecidableEq K] (m : StdMap K V) (k : K)
    (h : (m.map Prod.fst).Nodup) : StdMap.find (StdMap.erase m k) k = none := by
  induction m with
  | nil => rfl
  | cons e rest ih =>
    obtain ⟨k0, v0⟩ := e
    simp only [List.map_cons, List.nodup_cons] at h
    unfold StdMap.erase
    by_cases h0 : k0 = k
    · simp only [h0, if_true]
      rw [StdMap.find_eq_none_iff]
      rw [← h0]
      exact h.1
    · simp only [h0, if_false]
      unfold StdMap.find
      simp only [h0, if_false]
      exact ih h.2

/-- Storing an instance keeps every key of the registry. -/
theorem Shell.storeInstance_keys (s : Shell) (self : Instance) :
    (s.storeInstance self).identity_to_instance.map Prod.fst =
      s.identity_to_instance.map Prod.fst := by
  unfold Shell.storeInstance
  simp only [List.map_map]
  apply List.map_congr_left
  intro entry _
  simp only [Function.comp]
  split_ifs <;> rfl

/-- Storing an instance changes the entry under its identity and no other. -/
theorem Shell.storeInstance_find (s : Shell) (self : Instance) (key : Identity) :
    StdMap.find (s.storeInstance self).identity_to_instance key =
      if key = self.identity then
        (StdMap.find s.identity_to_instance key).map (fun _ => self)
      else StdMap.find s.identity_to_instance key := by
  unfold Shell.storeInstance
  simp only
  induction s.identity_to_instance with
  | nil => simp [StdMap.find]
  | cons e rest ih =>
    obtain ⟨k0, v0⟩ := e
    simp only [List.map_cons]
    by_cases h1 : k0 = self.identity
    · have e1 : (if (k0, v0).1 = self.identity then ((k0, v0).1, self) else (k0, v0)) =
          (k0, self) := if_pos h1
      rw [e1]
      simp only [StdMap.find]
      by_cases h0 : k0 = key
      · have h2 : key = self.identity := h0 ▸ h1
        simp [h0, h2]
      · simp only [h0, if_false]
        exact ih
    · have e1 : (if (k0, v0).1 = self.identity then ((k0, v0).1, self) else (k0, v0)) =
          (k0, v0) := if_neg h1
      rw [e1]
      simp only [StdMap.find]
      by_cases h0 : k0 = key
      · have h2 : ¬ key = self.identity := h0 ▸ h1
        simp [h0, h2]
      · simp only [h0, if_false]
        exact ih

/-- The loop over the listeners logs one message each, in order, and changes
nothing else. -/
theorem Shell.ForAllPtrs_eq (s : Shell) (message : Handle → Event) :
    s.ForAllPtrs message = { s with log := s.log ++ s.instance_listeners.map message } := by
  unfold Shell.ForAllPtrs
  have key : ∀ (l : List Handle) (t : Shell),
      l.foldl (fun (s : Shell) (listener : Handle) => s.emit (message listener)) t =
        { t with log := t.log ++ l.map message } := by
    intro l
    induction l with
    | nil => intro t; simp
    | cons x xs ih =>
      intro t
      rw [List.foldl_cons, ih]
      simp [Shell.emit]
  exact key s.instance_listeners s

theorem createdIds_append (a b : List Event) :
    createdIds (a ++ b) = createdIds a ++ createdIds b := by
  simp [createdIds, List.filterMap_append]

/-- `ConnectToClient` logs the two delivery events and changes nothing else. -/
theorem Instance.ConnectToClient_eq (self : Instance) (E : Externals) (shell : Shell)
    (params : ConnectParams) :
    self.ConnectToClient E shell params =
      { shell with log := shell.log ++ self.deliveryEvents E shell params } := by
  unfold Instance.ConnectToClient Instance.deliveryEvents Instance.allowedCapabilities
    Shell.emit Shell.GetExistingInstance
  simp only [StdSet.insert, CapabilityRequest.empty, List.not_mem_nil, if_false,
    List.nil_append, List.append_assoc, List.singleton_append]


/-! ## Theorems: runs that create nothing -/

theorem Shell.Quiet.refl (s : Shell) : Shell.Quiet s s :=
  ⟨rfl, rfl, [], by simp, rfl⟩

theorem Shell.Quiet.trans {a b c : Shell} (h1 : Shell.Quiet a b) (h2 : Shell.Quiet b c) :
    Shell.Quiet a c := by
  obtain ⟨r1, u1, e1, l1, c1⟩ := h1
  obtain ⟨r2, u2, e2, l2, c2⟩ := h2
  refine ⟨r2.trans r1, u2.trans u1, e1 ++ e2, ?_, ?_⟩
  · rw [l2, l1, List.append_assoc]
  · rw [createdIds_append, c1, c2]; rfl

/-- Logging events that create nothing is quiet. -/
theorem Shell.Quiet.log (s : Shell) (events : List Event) (h : createdIds events = []) :
    Shell.Quiet s { s with log := s.log ++ events } :=
  ⟨rfl, rfl, events, rfl, h⟩

theorem Shell.Quiet.emit (s : Shell) (e : Event) (h : e.createdId = none) :
    Shell.Quiet s (s.emit e) :=
  ⟨rfl, rfl, [e], rfl, by simp [createdIds, h]⟩

theorem Instance.deliveryEvents_createdIds (self : Instance) (E : Externals) (shell : Shell)
    (params : ConnectParams) : createdIds (self.deliveryEvents E shell params) = [] := rfl

theorem Instance.ConnectToClient_quiet (self : Instance) (E : Externals) (shell : Shell)
    (params : ConnectParams) : Shell.Quiet shell (self.ConnectToClient E shell params) := by
  rw [Instance.ConnectToClient_eq]
  exact Shell.Quiet.log shell _ (Instance.deliveryEvents_createdIds self E shell params)

theorem Shell.rejected_quiet (s : Shell) (E : Externals) (callback : Handle)
    (result : ConnectResult) : Shell.Quiet s (s.rejected E callback result) :=
  Shell.Quiet.emit s _ rfl

theorem Shell.GetExistingOrRootInstance_emit (E : Externals) (s : Shell) (e : Event)
    (identity : Identity) :
    (s.emit e).GetExistingOrRootInstance E identity = s.GetExistingOrRootInstance E identity :=
  rfl

theorem Shell.ConnectToExistingInstance_quiet (E : Externals) (s : Shell)
    (params : ConnectParams) : Shell.Quiet s (s.ConnectToExistingInstance E params).2 := by
  unfold Shell.ConnectToExistingInstance
  cases s.GetExistingOrRootInstance E params.target with
  | none => exact Shell.Quiet.refl s
  | some inst => exact Instance.ConnectToClient_quiet inst E s params

/-- `Shell::Connect` without a client, when an instance is found for the
target: the connect is delivered to it and nothing is resolved. -/
theorem Shell.Connect_existing (E : Externals) (s : Shell) (params : ConnectParams)
    (inst : Instance) (hpre : s.ConnectPreconditions E params none)
    (h : s.GetExistingOrRootInstance E params.target = some inst) :
    Shell.Connect E s params none =
      Except.ok (inst.ConnectToClient E (s.emit (Event.TraceShellConnect params.target.name))
        params) := by
  obtain ⟨h1, h2, h3, -⟩ := hpre
  unfold Shell.Connect Shell.ConnectToExistingInstance
  simp only [h1, h2, h3, Shell.GetExistingOrRootInstance_emit, h]
  simp

/-- `Shell::Connect` when no instance is found for the target, or a client is
supplied: the resolver is asked and the bound callback waits. -/
theorem Shell.Connect_unresolved (E : Externals) (s : Shell) (params : ConnectParams)
    (client : Option Handle) (hpre : s.ConnectPreconditions E params client)
    (h : client.isSome = true ∨ s.GetExistingOrRootInstance E params.target = none) :
    Shell.Connect E s params client =
      Except.ok
        { s with
          log := s.log ++ [Event.TraceShellConnect params.target.name,
            Event.ResolveMojoName params.target.name]
          pending_resolutions :=
            s.pending_resolutions ++ [(params.target.name, params, client)] } := by
  obtain ⟨h1, h2, h3, h4⟩ := hpre
  unfold Shell.Connect Shell.ConnectToExistingInstance
  cases hc : client with
  | some c =>
    have h5 := h4 (by rw [hc]; rfl)
    simp [h1, h2, h3, StdMap.count, h5, Shell.emit]
  | none =>
    rcases h with h | h
    · rw [hc] at h; cases h
    · simp only [h1, h2, h3, Shell.GetExistingOrRootInstance_emit, h]
      simp [Shell.emit]

/-- A run of `Shell::Connect` that returns has created no instance. -/
theorem Shell.Connect_quiet (E : Externals) (s : Shell) (params : ConnectParams)
    (client : Option Handle) (s1 : Shell)
    (h : Shell.Connect E s params client = Except.ok s1) : Shell.Quiet s s1 := by
  have hresolve : Shell.Quiet s
      { (s.emit (Event.TraceShellConnect params.target.name)).emit
          (Event.ResolveMojoName params.target.name) with
        pending_resolutions :=
          (s.emit (Event.TraceShellConnect params.target.name)).pending_resolutions ++
            [(params.target.name, params, client)] } :=
    ⟨rfl, rfl, [Event.TraceShellConnect params.target.name,
      Event.ResolveMojoName params.target.name], by simp [Shell.emit], rfl⟩
  unfold Shell.Connect at h
  simp only at h
  split_ifs at h with h1 h2 h3 h4 h5
  · have hq := Shell.ConnectToExistingInstance_quiet E
      (s.emit (Event.TraceShellConnect params.target.name)) params
    have ht : Shell.Quiet s (s.emit (Event.TraceShellConnect params.target.name)) :=
      Shell.Quiet.emit s _ rfl
    split at h
    · rename_i b s2 heq
      cases h
      rw [heq] at hq
      exact ht.trans hq
    · rename_i b s2 heq
      cases h
      rw [heq] at hq
      obtain ⟨r2, u2, e2, l2, c2⟩ := ht.trans hq
      refine ⟨r2, u2, e2 ++ [Event.ResolveMojoName params.target.name], ?_, ?_⟩
      · have l3 : s2.log = s.log ++ e2 := l2
        simp [Shell.emit, l3]
      · rw [createdIds_append, c2]; rfl
  · cases h
    exact hresolve


/-- A run of `Instance::Connect` that returns has created no instance. -/
theorem Instance.Connect_connector_quiet (self : Instance) (E : Externals) (shell : Shell)
    (target_ptr : Identity) (remote_interfaces local_interfaces : Option Handle)
    (client_process_connection : Option ClientProcessConnection) (callback : Handle)
    (s1 : Shell)
    (h : self.Connect E shell target_ptr remote_interfaces local_interfaces
      client_process_connection callback = Except.ok s1) : Shell.Quiet shell s1 := by
  rw [Instance.Connect_unfold] at h
  rcases Instance.ValidateIdentity_outcome E shell (self.resolvedTarget E target_ptr)
    callback with h1 | ⟨r, -, h1⟩
  · rcases Instance.ValidateClientProcessConnection_outcome self E shell
      client_process_connection (self.resolvedTarget E target_ptr) callback
      with h2 | ⟨r, -, h2⟩
    · rcases Instance.ValidateCapabilities_outcome self E shell
        (self.resolvedTarget E target_ptr) callback with h3 | h3
      · rw [h1] at h
        simp only [h2, h3] at h
        exact Shell.Connect_quiet E shell _ none s1 h
      · rw [h1] at h
        simp only [h2, h3, Except.ok.injEq] at h
        rw [← h]
        exact Shell.rejected_quiet shell E callback _
    · rw [h1] at h
      simp only [h2, Except.ok.injEq] at h
      rw [← h]
      exact Shell.rejected_quiet shell E callback r
  · rw [h1] at h
    simp only [Except.ok.injEq] at h
    rw [← h]
    exact Shell.rejected_quiet shell E callback r

/-! ## Theorems: creating an instance -/

/-- A successful run of the constructor, member by member. -/
theorem Instance.construct_members {E : Externals} {shell_client : Option Handle}
    {shell : Shell} {identity : Identity} {capability_spec : CapabilitySpec} {self : Instance}
    {shell1 : Shell}
    (h : Instance.construct E shell_client shell identity capability_spec =
      Except.ok (self, shell1)) :
    self.shell_client = shell_client ∧ self.connectors = [] := by
  unfold Instance.construct Instance.GenerateUniqueID at h
  generalize hn : (shell.unique_id + 1) % 2 ^ 32 = n at h ⊢
  by_cases h1 : n = E.kInvalidInstanceID
  · simp only [h1, if_true] at h
    cases h
  · have h1s : ¬ E.kInvalidInstanceID = n := fun e => h1 e.symm
    simp only [h1, if_false] at h
    by_cases h2 : identity.name = kShellName ∨
        (Shell.GetLoaderForName { shell with unique_id := n } identity.name).isSome = true
    · simp only [h2, if_true, h1s, if_false, Except.ok.injEq, Prod.mk.injEq] at h
      obtain ⟨rfl, rfl⟩ := h
      exact ⟨rfl, rfl⟩
    · simp only [h2, if_false, h1s, Except.ok.injEq, Prod.mk.injEq] at h
      obtain ⟨rfl, rfl⟩ := h
      exact ⟨rfl, rfl⟩

/-- The constructor returns whenever the id counter is not about to wrap onto
the invalid id. -/
theorem Instance.construct_total (E : Externals) (shell_client : Option Handle) (shell : Shell)
    (identity : Identity) (capability_spec : CapabilitySpec)
    (h : (shell.unique_id + 1) % 2 ^ 32 ≠ E.kInvalidInstanceID) :
    ∃ self, Instance.construct E shell_client shell identity capability_spec =
      Except.ok (self, { shell with unique_id := (shell.unique_id + 1) % 2 ^ 32 }) := by
  unfold Instance.construct Instance.GenerateUniqueID
  generalize hn : (shell.unique_id + 1) % 2 ^ 32 = n at h ⊢
  have h1s : ¬ E.kInvalidInstanceID = n := fun e => h e.symm
  simp only [h, if_false]
  by_cases h2 : identity.name = kShellName ∨
      (Shell.GetLoaderForName { shell with unique_id := n } identity.name).isSome = true
  · simp only [h2, if_true, h1s, if_false]
    exact ⟨_, rfl⟩
  · simp only [h2, if_false, h1s]
    exact ⟨_, rfl⟩

/-- What a successful `CreateInstance` has done. -/
theorem Shell.CreateInstance_ok {E : Externals} {s : Shell} {target : Identity}
    {spec : CapabilitySpec} {client : Option Handle} {created : Instance} {s1 : Shell}
    (h : s.CreateInstance E target spec client = Except.ok (created, s1)) :
    target.user_id ≠ E.kInheritUserID ∧
    StdMap.find s.identity_to_instance target = none ∧
    created.identity = target ∧ created.capability_spec = spec ∧
    created.shell_client = client ∧ created.connectors = [] ∧
    created.id = (s.unique_id + 1) % 2 ^ 32 ∧ created.id ≠ E.kInvalidInstanceID ∧
    s1 = { s with
      identity_to_instance := s.identity_to_instance ++ [(target, created)]
      unique_id := created.id
      log := s.log ++
        s.instance_listeners.map
          (fun listener => Event.InstanceCreated listener created.CreateInstanceInfo) ++
        [Event.Initialize created.id created.identity] } := by
  unfold Shell.CreateInstance at h
  by_cases h0 : target.user_id = E.kInheritUserID
  · simp only [h0, if_true] at h
    cases h
  · simp only [h0, if_false] at h
    cases hc : Instance.construct E client s target spec with
    | error f => rw [hc] at h; cases h
    | ok pair =>
      obtain ⟨made, s2⟩ := pair
      rw [hc] at h
      simp only at h
      obtain ⟨hid, hspec, -, hidn, hne, hs2⟩ := Instance.construct_ok hc
      obtain ⟨hclient, hconn⟩ := Instance.construct_members hc
      have hreg : s2.identity_to_instance = s.identity_to_instance := by rw [hs2]
      by_cases h1 : (StdMap.find s2.identity_to_instance target).isSome = true
      · simp only [h1, if_true] at h
        cases h
      · simp only [h1, if_false, Except.ok.injEq, Prod.mk.injEq] at h
        obtain ⟨rfl, rfl⟩ := h
        have hnone : StdMap.find s.identity_to_instance target = none := by
          rw [hreg] at h1
          cases hf : StdMap.find s.identity_to_instance target with
          | none => rfl
          | some x => rw [hf] at h1; simp at h1
        refine ⟨h0, hnone, hid, hspec, hclient, hconn, hidn, hne, ?_⟩
        rw [Shell.ForAllPtrs_eq, hs2]
        simp only [Shell.emit, StdMap.assign_of_find_none _ _ _ hnone]

/-- `CreateInstance` returns when the target user is not the inherit sentinel,
the id counter is not about to wrap and the identity is free. -/
theorem Shell.CreateInstance_total (E : Externals) (s : Shell) (target : Identity)
    (spec : CapabilitySpec) (client : Option Handle)
    (huser : target.user_id ≠ E.kInheritUserID)
    (hid : (s.unique_id + 1) % 2 ^ 32 ≠ E.kInvalidInstanceID)
    (hfree : StdMap.find s.identity_to_instance target = none) :
    ∃ created s1, s.CreateInstance E target spec client = Except.ok (created, s1) := by
  obtain ⟨self, hself⟩ := Instance.construct_total E client s target spec hid
  unfold Shell.CreateInstance
  simp only [huser, if_false, hself, hfree]
  exact ⟨_, _, rfl⟩

/-- A successful `CreateInstance` is the creation of one instance. -/
theorem Shell.CreateInstance_created {E : Externals} {s : Shell} {target : Identity}
    {spec : CapabilitySpec} {client : Option Handle} {created : Instance} {s1 : Shell}
    (h : s.CreateInstance E target spec client = Except.ok (created, s1)) :
    Shell.Created E s s1 created := by
  obtain ⟨-, hnone, hid, -, -, -, hidn, hne, hs1⟩ := Shell.CreateInstance_ok h
  rw [hs1]
  refine ⟨by rw [hid]; exact hnone, hidn, hne, by rw [hid], rfl, _, List.append_assoc _ _ _, ?_⟩
  rw [createdIds_append]
  have : createdIds (s.instance_listeners.map
      (fun listener => Event.InstanceCreated listener created.CreateInstanceInfo)) = [] := by
    unfold createdIds
    rw [List.filterMap_eq_nil_iff]
    intro e he
    obtain ⟨l, -, rfl⟩ := List.mem_map.mp he
    rfl
  rw [this]
  rfl

theorem Shell.Created.quiet {E : Externals} {a b c : Shell} {created : Instance}
    (h1 : Shell.Created E a b created) (h2 : Shell.Quiet b c) : Shell.Created E a c created := by
  obtain ⟨f, i, n, r1, u1, e1, l1, c1⟩ := h1
  obtain ⟨r2, u2, e2, l2, c2⟩ := h2
  refine ⟨f, i, n, r2.trans r1, u2.trans u1, e1 ++ e2, ?_, ?_⟩
  · rw [l2, l1, List.append_assoc]
  · rw [createdIds_append, c1, c2]; rfl


/-! ## Theorems: the resolver callback -/

/-- `OnGotResolvedName` when an instance exists by now for the final target:
the connect is delivered to it and nothing is created. -/
theorem Shell.OnGotResolvedName_create_existing (E : Externals) (s : Shell)
    (params : ConnectParams) (client : Option Handle) (resolved_name resolved_instance : String)
    (capabilities_ptr : Option CapabilitySpec) (fresh : FreshHandles) (inst : Instance)
    (h : s.GetExistingOrRootInstance E
      (Shell.finalTarget E params resolved_name resolved_instance) = some inst) :
    s.OnGotResolvedName_create E params client resolved_name resolved_instance
        capabilities_ptr fresh =
      Except.ok (none, inst.ConnectToClient E s
        { params with target := Shell.finalTarget E params resolved_name resolved_instance }) := by
  unfold Shell.OnGotResolvedName_create Shell.ConnectToExistingInstance
  unfold Shell.finalTarget Shell.finalInstanceName at h
  simp only [h]
  rfl

/-- `OnGotResolvedName` when no instance exists for the final target: one is
created, with the manifest or else the permissive spec, and the connect is
delivered to it. -/
theorem Shell.OnGotResolvedName_create_new (E : Externals) (s : Shell)
    (params : ConnectParams) (client : Option Handle) (resolved_name resolved_instance : String)
    (capabilities_ptr : Option CapabilitySpec) (fresh : FreshHandles)
    (h : s.GetExistingOrRootInstance E
      (Shell.finalTarget E params resolved_name resolved_instance) = none) :
    s.OnGotResolvedName_create E params client resolved_name resolved_instance
        capabilities_ptr fresh =
      match s.CreateInstance E (Shell.finalTarget E params resolved_name resolved_instance)
        (capabilities_ptr.getD GetPermissiveCapabilities)
        (if client.isSome = true then client else some fresh.shell_client) with
      | Except.error f => Except.error f
      | Except.ok (created, s1) =>
        Except.ok (some
          { created := created
            source := params.source
            target := Shell.finalTarget E params resolved_name resolved_instance
            instance_name := Shell.finalInstanceName E params resolved_name resolved_instance
            request := if client.isSome = true then none else some fresh.shell_client
            client_process_connection := params.client_process_connection },
          created.ConnectToClient E s1
            { params with
              target := Shell.finalTarget E params resolved_name resolved_instance
              client_process_connection := none }) := by
  unfold Shell.OnGotResolvedName_create Shell.ConnectToExistingInstance
  unfold Shell.finalTarget Shell.finalInstanceName at h
  simp only [h]
  unfold Shell.finalTarget Shell.finalInstanceName
  cases capabilities_ptr <;> cases client <;> rfl

theorem Shell.LoadWithLoader_quiet (s : Shell) (target : Identity) (request : Option Handle) :
    Shell.Quiet s (s.LoadWithLoader target request).2 := by
  unfold Shell.LoadWithLoader
  cases s.GetLoaderForName target.name with
  | none => exact Shell.Quiet.refl s
  | some loader => exact Shell.Quiet.emit s _ rfl

theorem Shell.CreateShellClient_quiet (E : Externals) (s : Shell)
    (source shell_client_factory : Identity) (name : String) (request : Option Handle)
    (fresh : FreshHandles) (s1 : Shell)
    (h : s.CreateShellClient E source shell_client_factory name request fresh =
      Except.ok s1) : Shell.Quiet s s1 := by
  unfold Shell.CreateShellClient Shell.GetShellClientFactory ConnectToInterface
    Shell.Connect_1 at h
  cases hf : StdMap.find s.shell_client_factories shell_client_factory with
  | some factory =>
    simp only [hf, Except.ok.injEq] at h
    rw [← h]
    exact Shell.Quiet.emit s _ rfl
  | none =>
    simp only [hf] at h
    cases hc : Shell.Connect E s
        { (ConnectParams.fromTo source shell_client_factory) with
          remote_interfaces := some fresh.remote_interfaces } none with
    | error f => rw [hc] at h; cases h
    | ok s2 =>
      rw [hc] at h
      simp only [Except.ok.injEq] at h
      have hq := Shell.Connect_quiet E s _ none s2 hc
      rw [← h]
      refine hq.trans ?_
      exact ⟨rfl, rfl, [Event.FactoryCreateShellClient (some fresh.factory) request name],
        rfl, rfl⟩

theorem Shell.OnGotResolvedName_launch_quiet (E : Externals) (s : Shell)
    (made : CreatedInstance) (resolved_name : String)
    (capabilities_ptr : Option CapabilitySpec) (file_url : Option String)
    (fresh : FreshHandles) (s1 : Shell)
    (h : s.OnGotResolvedName_launch E made resolved_name capabilities_ptr file_url fresh =
      Except.ok s1) : Shell.Quiet s s1 := by
  have hlaunch : ∀ s2 : Shell,
      (match file_url, capabilities_ptr with
        | some url, some _ =>
          if made.target.name ≠ resolved_name then
            s.CreateShellClient E made.source
              (Identity.construct E resolved_name made.target.user_id made.instance_name)
              made.target.name made.request fresh
          else
            match made.client_process_connection with
            | some connection =>
              Except.ok (made.created.StartWithClientProcessConnection s made.request
                connection)
            | none =>
              Except.ok (made.created.StartWithFilePath s made.request url fresh.runner)
        | _, _ =>
          Except.error
            (Fatal.CHECK "CHECK(!file_url.is_null() && !capabilities_ptr.is_null())")) =
        Except.ok s2 → Shell.Quiet s s2 := by
    intro s2 h2
    cases file_url with
    | none => cases h2
    | some url =>
      cases capabilities_ptr with
      | none => cases h2
      | some caps =>
        simp only at h2
        split_ifs at h2 with hname
        · exact Shell.CreateShellClient_quiet E s _ _ _ _ fresh s2 h2
        · cases hcpc : made.client_process_connection with
          | some connection =>
            rw [hcpc] at h2
            simp only [Except.ok.injEq] at h2
            rw [← h2]
            exact ⟨rfl, rfl, _, List.append_assoc _ _ _, rfl⟩
          | none =>
            rw [hcpc] at h2
            simp only [Except.ok.injEq] at h2
            rw [← h2]
            exact ⟨rfl, rfl, [Event.RunnerStart fresh.runner url made.created.identity false
              made.request], rfl, rfl⟩
  unfold Shell.OnGotResolvedName_launch at h
  by_cases hr : (!made.request.isSome) = true
  · simp only [hr, if_true, Except.ok.injEq] at h
    rw [← h]
    exact Shell.Quiet.refl s
  · simp only [hr, if_false] at h
    by_cases hc : made.client_process_connection.isNone = true
    · simp only [hc, if_true] at h
      have hq := Shell.LoadWithLoader_quiet s made.target made.request
      unfold Shell.LoadWithLoader at h hq
      cases hl : s.GetLoaderForName made.target.name with
      | some loader =>
        rw [hl] at h hq
        simp only [Bool.false_eq_true, if_false, Except.ok.injEq] at h
        rw [← h]
        exact hq
      | none =>
        rw [hl] at h
        simp only [Bool.false_eq_true, if_false] at h
        exact hlaunch s1 h
    · simp only [hc] at h
      exact hlaunch s1 h

/-- A run of `OnGotResolvedName` that returns has either created nothing or
created exactly one instance, registered under the final target. -/
theorem Shell.OnGotResolvedName_effect (E : Externals) (s : Shell) (params : ConnectParams)
    (client : Option Handle) (resolved_name resolved_instance : String)
    (capabilities_ptr : Option CapabilitySpec) (file_url : Option String)
    (fresh : FreshHandles) (s1 : Shell)
    (h : Shell.OnGotResolvedName E s params client resolved_name resolved_instance
      capabilities_ptr file_url fresh = Except.ok s1) :
    (s.GetExistingOrRootInstance E
        (Shell.finalTarget E params resolved_name resolved_instance) ≠ none ∧
      Shell.Quiet s s1) ∨
    (s.GetExistingOrRootInstance E
        (Shell.finalTarget E params resolved_name resolved_instance) = none ∧
      ∃ created, created.identity = Shell.finalTarget E params resolved_name resolved_instance ∧
        Shell.Created E s s1 created) := by
  unfold Shell.OnGotResolvedName at h
  cases hx : s.GetExistingOrRootInstance E
      (Shell.finalTarget E params resolved_name resolved_instance) with
  | some inst =>
    rw [Shell.OnGotResolvedName_create_existing E s params client resolved_name
      resolved_instance capabilities_ptr fresh inst hx] at h
    simp only [Except.ok.injEq] at h
    rw [← h]
    exact Or.inl ⟨by simp, Instance.ConnectToClient_quiet inst E s _⟩
  | none =>
    rw [Shell.OnGotResolvedName_create_new E s params client resolved_name
      resolved_instance capabilities_ptr fresh hx] at h
    cases hc : s.CreateInstance E (Shell.finalTarget E params resolved_name resolved_instance)
        (capabilities_ptr.getD GetPermissiveCapabilities)
        (if client.isSome = true then client else some fresh.shell_client) with
    | error f => rw [hc] at h; cases h
    | ok pair =>
      obtain ⟨created, s2⟩ := pair
      rw [hc] at h
      simp only at h
      have hcreated := Shell.CreateInstance_created hc
      have hid := (Shell.CreateInstance_ok hc).2.2.1
      have hq1 := Instance.ConnectToClient_quiet created E s2
        { params with
          target := Shell.finalTarget E params resolved_name resolved_instance
          client_process_connection := none }
      have hq2 := Shell.OnGotResolvedName_launch_quiet E _ _ resolved_name capabilities_ptr
        file_url fresh s1 h
      exact Or.inr ⟨rfl, created, hid, (hcreated.quiet hq1).quiet hq2⟩


/-! ## Theorems: destroying an instance -/

theorem Shell.destructionEvents_createdIds (s : Shell) (inst : Instance) :
    createdIds (s.destructionEvents inst) = [] := by
  unfold Shell.destructionEvents
  rw [createdIds_append]
  have h1 : createdIds (s.instance_listeners.map
      (fun listener => Event.InstanceDestroyed listener inst.id)) = [] := by
    unfold createdIds
    rw [List.filterMap_eq_nil_iff]
    intro e he
    obtain ⟨l, -, rfl⟩ := List.mem_map.mp he
    rfl
  rw [h1]
  cases s.instance_quit_callback <;> rfl

/-- `OnInstanceError` for a registered instance: its entry is erased and the
destruction events are logged; every other member is untouched. -/
theorem Shell.OnInstanceError_eq (s : Shell) (inst : Instance) (registered : Instance)
    (h : StdMap.find s.identity_to_instance inst.identity = some registered) :
    s.OnInstanceError inst =
      Except.ok
        { s with
          identity_to_instance := StdMap.erase s.identity_to_instance inst.identity
          log := s.log ++ s.destructionEvents inst } := by
  unfold Shell.OnInstanceError Shell.destructionEvents
  simp only [h, Shell.ForAllPtrs_eq]
  cases hq : s.instance_quit_callback <;> simp [Shell.emit]

/-- `OnInstanceError` for an instance that is not registered fails its assertion. -/
theorem Shell.OnInstanceError_unregistered (s : Shell) (inst : Instance)
    (h : StdMap.find s.identity_to_instance inst.identity = none) :
    s.OnInstanceError inst =
      Except.error (Fatal.DCHECK "DCHECK(it != identity_to_instance_.end())") := by
  unfold Shell.OnInstanceError
  simp only [h]

theorem Shell.Quiet.sameIds {a b : Shell} (h : Shell.Quiet a b) : Shell.SameIds a b :=
  ⟨h.2.1, h.2.2⟩

theorem Shell.SameIds.same_refl (s : Shell) : Shell.SameIds s s :=
  ⟨rfl, [], by simp, rfl⟩

theorem Shell.SameIds.same_trans {a b c : Shell} (h1 : Shell.SameIds a b) (h2 : Shell.SameIds b c) :
    Shell.SameIds a c := by
  obtain ⟨u1, e1, l1, c1⟩ := h1
  obtain ⟨u2, e2, l2, c2⟩ := h2
  refine ⟨u2.trans u1, e1 ++ e2, ?_, ?_⟩
  · rw [l2, l1, List.append_assoc]
  · rw [createdIds_append, c1, c2]; rfl

/-- A run of `OnConnectionLost` that returns either changed nothing or erased
the entry of the instance. -/
theorem Instance.OnConnectionLost_effect (self : Instance) (shell s1 : Shell)
    (h : self.OnConnectionLost shell = Except.ok s1) :
    (¬ (self.connectors = [] ∧ self.shell_client = none) ∧ s1 = shell) ∨
    ((self.connectors = [] ∧ self.shell_client = none) ∧
      (StdMap.find shell.identity_to_instance self.identity).isSome = true ∧
      s1 = { shell with
        identity_to_instance := StdMap.erase shell.identity_to_instance self.identity
        log := shell.log ++ shell.destructionEvents self }) := by
  unfold Instance.OnConnectionLost at h
  by_cases hc : self.connectors = [] ∧ self.shell_client = none
  · rw [if_pos hc] at h
    cases hf : StdMap.find shell.identity_to_instance self.identity with
    | none =>
      rw [Shell.OnInstanceError_unregistered shell self hf] at h
      cases h
    | some registered =>
      rw [Shell.OnInstanceError_eq shell self registered hf] at h
      simp only [Except.ok.injEq] at h
      exact Or.inr ⟨hc, rfl, h.symm⟩
  · rw [if_neg hc] at h
    simp only [Except.ok.injEq] at h
    exact Or.inl ⟨hc, h.symm⟩

/-! ## Theorems: invariants of the registry and of the ids -/

theorem Shell.RegistryOk.congr {E : Externals} {a b : Shell}
    (h : b.identity_to_instance = a.identity_to_instance) (hok : a.RegistryOk E) :
    b.RegistryOk E := by
  unfold Shell.RegistryOk at hok ⊢
  rw [h]
  exact hok

theorem Shell.RegistryOk.after_creation {E : Externals} {a b : Shell} {created : Instance}
    (h : Shell.Created E a b created) (hok : a.RegistryOk E) : b.RegistryOk E := by
  obtain ⟨hfree, -, hne, hreg, -, -⟩ := h
  obtain ⟨h1, h2, h3⟩ := hok
  unfold Shell.RegistryOk
  rw [hreg]
  refine ⟨?_, ?_, ?_⟩
  · rw [List.map_append]
    refine List.Nodup.append h1 (List.nodup_singleton _) ?_
    intro k hk1 hk2
    simp only [List.map_cons, List.map_nil, List.mem_singleton] at hk2
    subst hk2
    exact (StdMap.find_eq_none_iff _ _).mp hfree hk1
  · intro entry hentry
    rcases List.mem_append.mp hentry with hm | hm
    · exact h2 entry hm
    · simp only [List.mem_singleton] at hm
      rw [hm]
  · intro entry hentry
    rcases List.mem_append.mp hentry with hm | hm
    · exact h3 entry hm
    · simp only [List.mem_singleton] at hm
      rw [hm]
      exact hne

/-- Storing changed members of a registered instance keeps the registry sound. -/
theorem Shell.RegistryOk.store {E : Externals} {s : Shell} (self changed : Instance)
    (hreg : StdMap.find s.identity_to_instance self.identity = some self)
    (hnum : changed.id = self.id)
    (hok : s.RegistryOk E) : (s.storeInstance changed).RegistryOk E := by
  obtain ⟨h1, h2, h3⟩ := hok
  have hne : self.id ≠ E.kInvalidInstanceID :=
    h3 _ (StdMap.mem_of_find _ _ _ hreg)
  refine ⟨by rw [Shell.storeInstance_keys]; exact h1, ?_, ?_⟩
  · intro entry hentry
    unfold Shell.storeInstance at hentry
    obtain ⟨e0, he0, rfl⟩ := List.mem_map.mp hentry
    by_cases hk : e0.1 = changed.identity
    · simp only [hk, if_true]
    · simp only [hk, if_false]
      exact h2 e0 he0
  · intro entry hentry
    unfold Shell.storeInstance at hentry
    obtain ⟨e0, he0, rfl⟩ := List.mem_map.mp hentry
    by_cases hk : e0.1 = changed.identity
    · simp only [hk, if_true]
      rw [hnum]
      exact hne
    · simp only [hk, if_false]
      exact h3 e0 he0

theorem Shell.RegistryOk.erase {E : Externals} {a b : Shell} (key : Identity)
    (h : b.identity_to_instance = StdMap.erase a.identity_to_instance key)
    (hok : a.RegistryOk E) : b.RegistryOk E := by
  obtain ⟨h1, h2, h3⟩ := hok
  unfold Shell.RegistryOk
  rw [h]
  exact ⟨StdMap.erase_nodup _ _ h1,
    fun entry hentry => h2 entry (StdMap.erase_subset _ _ entry hentry),
    fun entry hentry => h3 entry (StdMap.erase_subset _ _ entry hentry)⟩

theorem Shell.IdsOk.of_sameIds {a b : Shell} (h : Shell.SameIds a b) (hok : a.IdsOk) :
    b.IdsOk := by
  obtain ⟨hu, events, hl, hc⟩ := h
  obtain ⟨h1, h2, h3⟩ := hok
  have hids : createdIds b.log = createdIds a.log := by
    rw [hl, createdIds_append, hc, List.append_nil]
  unfold Shell.IdsOk
  rw [hids, hu]
  exact ⟨h1, h2, h3⟩

theorem Shell.IdsOk.ids_after_creation {E : Externals} {a b : Shell} {created : Instance}
    (hzero : E.kInvalidInstanceID = 0) (h : Shell.Created E a b created) (hok : a.IdsOk) :
    b.IdsOk ∧ created.id = a.unique_id + 1 := by
  obtain ⟨-, hid, hne, -, hu, events, hl, hc⟩ := h
  obtain ⟨h1, h2, h3⟩ := hok
  rw [hzero] at hne
  have hlt : a.unique_id + 1 < 2 ^ 32 := by
    by_contra hge
    have heq : a.unique_id + 1 = 2 ^ 32 := by omega
    rw [heq, Nat.mod_self] at hid
    exact hne hid
  have hval : created.id = a.unique_id + 1 := by
    rw [hid, Nat.mod_eq_of_lt hlt]
  have hids : createdIds b.log = createdIds a.log ++ [created.id] := by
    rw [hl, createdIds_append, hc]
  refine ⟨?_, hval⟩
  unfold Shell.IdsOk
  rw [hids, hu]
  refine ⟨?_, ?_, by rw [hval]; exact hlt⟩
  · rw [List.pairwise_append]
    refine ⟨h1, List.pairwise_singleton _ _, ?_⟩
    intro x hx y hy
    simp only [List.mem_singleton] at hy
    rw [hy, hval]
    have := (h2 x hx).2
    omega
  · intro id hmem
    rcases List.mem_append.mp hmem with hm | hm
    · have := h2 id hm
      rw [hval]
      omega
    · simp only [List.mem_singleton] at hm
      rw [hm, hval]
      omega


theorem Shell.storeInstance_sameIds (s : Shell) (self : Instance) :
    Shell.SameIds s (s.storeInstance self) :=
  ⟨rfl, [], by simp [Shell.storeInstance], rfl⟩

/-- The effect of a connection loss on a registered instance whose changed
members are `changed`. -/
theorem Instance.OnConnectionLost_step {E : Externals} {s s1 : Shell} (self changed : Instance)
    (hreg : StdMap.find s.identity_to_instance self.identity = some self)
    (hnum : changed.id = self.id)
    (h : changed.OnConnectionLost (s.storeInstance changed) = Except.ok s1)
    (hok : s.RegistryOk E) : s1.RegistryOk E ∧ Shell.SameIds s s1 := by
  have hstore := Shell.RegistryOk.store self changed hreg hnum hok
  rcases Instance.OnConnectionLost_effect changed _ s1 h with ⟨-, h1⟩ | ⟨-, -, h1⟩
  · rw [h1]
    exact ⟨hstore, Shell.storeInstance_sameIds s changed⟩
  · rw [h1]
    refine ⟨Shell.RegistryOk.erase changed.identity rfl hstore, ?_⟩
    exact (Shell.storeInstance_sameIds s changed).same_trans
      ⟨rfl, _, rfl, Shell.destructionEvents_createdIds _ changed⟩

/-- One entry into the broker keeps the registry sound, and either leaves the
ids alone or creates exactly one instance. -/
theorem Shell.Step.effect {E : Externals} {s s1 : Shell} (h : Shell.Step E s s1)
    (hok : s.RegistryOk E) :
    s1.RegistryOk E ∧ (Shell.SameIds s s1 ∨ ∃ created, Shell.Created E s s1 created) := by
  have quiet : ∀ t : Shell, Shell.Quiet s t →
      t.RegistryOk E ∧ (Shell.SameIds s t ∨ ∃ created, Shell.Created E s t created) :=
    fun t hq => ⟨Shell.RegistryOk.congr hq.1 hok, Or.inl hq.sameIds⟩
  match h with
  | Shell.Step.Connect _ _ params h => exact quiet _ (Shell.Connect_quiet E s params none s1 h)
  | Shell.Step.InitInstanceForEmbedder _ _ name fresh h =>
    exact quiet _ (Shell.Connect_quiet E s _ _ s1 h)
  | Shell.Step.InstanceConnect _ _ self target_ptr ri li cpc callback _ h =>
    exact quiet _ (Instance.Connect_connector_quiet self E s target_ptr ri li cpc callback s1 h)
  | Shell.Step.Resolved _ _ index rn ri caps url fresh h =>
    unfold Shell.DeliverResolution at h
    cases hp : s.pending_resolutions.get? index with
    | none => rw [hp] at h; cases h
    | some entry =>
      obtain ⟨name, params, client⟩ := entry
      rw [hp] at h
      simp only [Option.some.injEq] at h
      rcases Shell.OnGotResolvedName_effect E _ params client rn ri caps url fresh s1 h
        with ⟨-, hq⟩ | ⟨-, created, -, hc⟩
      · exact quiet _ hq
      · exact ⟨@Shell.RegistryOk.after_creation E s _ _ hc hok, Or.inr ⟨created, hc⟩⟩
  | Shell.Step.ShellClientLost _ _ self hreg h =>
    obtain ⟨h1, h2⟩ := Instance.OnConnectionLost_step self { self with shell_client := none }
      hreg rfl h hok
    exact ⟨h1, Or.inl h2⟩
  | Shell.Step.ConnectorLost _ _ self connector hreg h =>
    obtain ⟨h1, h2⟩ := Instance.OnConnectionLost_step self
      { self with connectors := self.connectors.erase connector } hreg rfl h hok
    exact ⟨h1, Or.inl h2⟩
  | Shell.Step.InitializeResponse _ self connector_request hreg =>
    cases connector_request with
    | none => exact quiet _ (Shell.Quiet.refl s)
    | some request =>
      exact ⟨Shell.RegistryOk.store self _ hreg rfl hok,
        Or.inl (Shell.storeInstance_sameIds s _)⟩
  | Shell.Step.Clone _ self request hreg =>
    exact ⟨Shell.RegistryOk.store self _ hreg rfl hok,
      Or.inl (Shell.storeInstance_sameIds s _)⟩
  | Shell.Step.PIDAvailable _ self pid hreg =>
    unfold Instance.PIDAvailable Shell.NotifyPIDAvailable
    rw [Shell.ForAllPtrs_eq]
    refine ⟨Shell.RegistryOk.congr rfl
      (Shell.RegistryOk.store self { self with pid := some pid } hreg rfl hok), Or.inl ?_⟩
    refine (Shell.storeInstance_sameIds s { self with pid := some pid }).same_trans ⟨rfl, _, rfl, ?_⟩
    unfold createdIds
    rw [List.filterMap_eq_nil_iff]
    intro e he
    obtain ⟨l, -, rfl⟩ := List.mem_map.mp he
    rfl
  | Shell.Step.AddInstanceListener _ listener =>
    exact quiet _ ⟨rfl, rfl, [Event.SetExistingInstances listener
      (s.identity_to_instance.map
        (fun (entry : Identity × Instance) => entry.2.CreateInstanceInfo))], rfl, rfl⟩
  | Shell.Step.SetInstanceQuitCallback _ callback => exact quiet _ ⟨rfl, rfl, [], by simp [Shell.SetInstanceQuitCallback], rfl⟩
  | Shell.Step.SetLoaderForName _ loader name =>
    refine quiet _ ?_
    unfold Shell.SetLoaderForName
    cases hf : StdMap.find s.name_to_loader name with
    | none => exact ⟨rfl, rfl, [], by simp, rfl⟩
    | some old =>
      cases old with
      | none => exact ⟨rfl, rfl, [], by simp, rfl⟩
      | some l => exact ⟨rfl, rfl, [Event.DeleteLoader l], rfl, rfl⟩
  | Shell.Step.set_default_loader _ loader =>
    refine quiet _ ?_
    unfold Shell.set_default_loader
    cases hf : s.default_loader with
    | none => exact ⟨rfl, rfl, [], by simp, rfl⟩
    | some l => exact ⟨rfl, rfl, [Event.DeleteLoader l], rfl, rfl⟩
  | Shell.Step.CleanupRunner _ runner =>
    exact quiet _ ⟨rfl, rfl, [], by simp [Shell.CleanupRunner], rfl⟩
  | Shell.Step.ShellClientFactoryLost _ _ which h =>
    unfold Shell.OnShellClientFactoryLost at h
    cases hf : StdMap.find s.shell_client_factories which with
    | none => rw [hf] at h; cases h
    | some f =>
      rw [hf] at h
      simp only [Except.ok.injEq] at h
      rw [← h]
      exact quiet _ ⟨rfl, rfl, [], by simp, rfl⟩

/-- The state the constructor of the broker leaves is sound. -/
theorem Shell.construct_invariants {E : Externals} {catalog : Option Handle} {fresh : FreshHandles}
    {s : Shell} (h : Shell.construct E catalog fresh = Except.ok s) :
    s.RegistryOk E ∧ (E.kInvalidInstanceID = 0 → s.IdsOk) := by
  have h0 : (match (Shell.initial E).CreateInstance E (CreateShellIdentity E)
      GetPermissiveCapabilities (some fresh.shell_client) with
    | Except.error f => Except.error f
    | Except.ok (_, s) => if catalog.isSome then s.InitCatalog E catalog else Except.ok s) =
      Except.ok s := h
  clear h
  rename' h0 => h
  generalize hs0 : Shell.initial E = s0 at h
  have hreg0 : s0.RegistryOk E := by
    rw [← hs0]
    unfold Shell.RegistryOk Shell.initial
    simp
  have hids0 : E.kInvalidInstanceID = 0 → s0.IdsOk := by
    intro hz
    rw [← hs0]
    unfold Shell.IdsOk Shell.initial createdIds
    simp [hz]
  cases hc : s0.CreateInstance E (CreateShellIdentity E) GetPermissiveCapabilities
      (some fresh.shell_client) with
  | error f => rw [hc] at h; cases h
  | ok pair =>
    obtain ⟨shellInstance, sA⟩ := pair
    rw [hc] at h
    simp only at h
    have hcA := Shell.CreateInstance_created hc
    have hregA := Shell.RegistryOk.after_creation hcA hreg0
    have hidsA : E.kInvalidInstanceID = 0 → sA.IdsOk :=
      fun hz => (Shell.IdsOk.ids_after_creation hz hcA (hids0 hz)).1
    by_cases hcat : catalog.isSome = true
    · simp only [hcat, if_true] at h
      unfold Shell.InitCatalog at h
      simp only at h
      cases hc2 : sA.CreateInstance E (Identity.construct_2 E kCatalogName E.kRootUserID)
          CapabilitySpec.empty catalog with
      | error f => rw [hc2] at h; cases h
      | ok pair2 =>
        obtain ⟨catalogInstance, sB⟩ := pair2
        rw [hc2] at h
        simp only [Except.ok.injEq] at h
        have hcB := Shell.CreateInstance_created hc2
        have hq : Shell.Quiet sB s := by
          rw [← h]
          exact ⟨rfl, rfl, [Event.ResolveMojoName kCatalogName,
            Event.ResolveMojoName kShellName], by simp [Shell.emit], rfl⟩
        have hcS := hcB.quiet hq
        exact ⟨Shell.RegistryOk.after_creation hcS hregA,
          fun hz => (Shell.IdsOk.ids_after_creation hz hcS (hidsA hz)).1⟩
    · simp only [hcat, Bool.false_eq_true, if_false, Except.ok.injEq] at h
      rw [← h]
      exact ⟨hregA, hidsA⟩

/-- In every reachable state the registry is sound. -/
theorem Shell.Reachable.registryOk {E : Externals} {s : Shell} (h : Shell.Reachable E s) :
    s.RegistryOk E := by
  induction h with
  | construct catalog fresh s h => exact (Shell.construct_invariants h).1
  | step s s1 _ hstep ih => exact (Shell.Step.effect hstep ih).1

/-- In every reachable state the ids handed out are sound, when the invalid
id is 0. -/
theorem Shell.Reachable.idsOk {E : Externals} {s : Shell} (hzero : E.kInvalidInstanceID = 0)
    (h : Shell.Reachable E s) : s.IdsOk := by
  induction h with
  | construct catalog fresh s h => exact (Shell.construct_invariants h).2 hzero
  | step s s1 hreach hstep ih =>
    rcases (Shell.Step.effect hstep (Shell.Reachable.registryOk hreach)).2
      with hsame | ⟨created, hc⟩
    · exact Shell.IdsOk.of_sameIds hsame ih
    · exact (Shell.IdsOk.ids_after_creation hzero hc ih).1


/-! ## Theorems: delivery of a connect -/

theorem Shell.eventsSince_of_log {s s1 : Shell} {events : List Event}
    (h : s1.log = s.log ++ events) : s1.eventsSince s = events := by
  unfold Shell.eventsSince
  rw [h]
  exact List.drop_left _ _

/-- Among the two delivery events the callback runs once, with `SUCCEEDED`,
the user id and the id of the instance. -/
theorem Instance.deliveryEvents_callback (self : Instance) (E : Externals) (shell : Shell)
    (params : ConnectParams) :
    (self.deliveryEvents E shell params).filter
        (Event.isConnectCallbackRun params.connect_callback) =
      [Event.ConnectCallbackRun params.connect_callback ConnectResult.SUCCEEDED
        self.identity.user_id self.id] := by
  simp [Instance.deliveryEvents, Event.isConnectCallbackRun]

/-- An instance found by `GetExistingOrRootInstance` is an entry of the registry. -/
theorem Shell.GetExistingOrRootInstance_mem (E : Externals) (s : Shell) (identity : Identity)
    (inst : Instance) (h : s.GetExistingOrRootInstance E identity = some inst) :
    (identity, inst) ∈ s.identity_to_instance ∨
    ({ identity with user_id := E.kRootUserID }, inst) ∈ s.identity_to_instance := by
  unfold Shell.GetExistingOrRootInstance Shell.GetExistingInstance Identity.set_user_id at h
  cases hf : StdMap.find s.identity_to_instance identity with
  | some found =>
    rw [hf] at h
    simp only [Option.some.injEq] at h
    rw [← h]
    exact Or.inl (StdMap.mem_of_find _ _ _ hf)
  | none =>
    rw [hf] at h
    exact Or.inr (StdMap.mem_of_find _ _ _ h)

/-- A source whose spec has no wildcard entry and no entry for the target
name is refused by the capability validation. -/
theorem Instance.ValidateCapabilities_unauthorized (self : Instance) (E : Externals)
    (shell : Shell) (target : Identity) (callback : Handle)
    (hany : self.allow_any_application = false)
    (hentry : StdMap.find self.capability_spec.required target.name = none) :
    self.ValidateCapabilities E shell target callback =
      (false, shell.rejected E callback ConnectResult.ACCESS_DENIED) := by
  rcases Instance.ValidateCapabilities_outcome self E shell target callback with h | h
  · exfalso
    unfold Instance.ValidateCapabilities at h
    rw [hany, hentry] at h
    split_ifs at h with h1 h2 h3
    · simp at h
    · simp at h
    · simp at h3
    · simp at h
  · exact h

/-- C11 (amended): when `Shell::Connect` finds an instance for the target, the
delivery applies no capability check of its own. The callback is run once,
with `SUCCEEDED` and the user id and id of that instance, whatever the spec
of the source grants; a registered source whose spec has neither an entry for
the name of the instance nor a wildcard entry only makes the capability
request sent with `AcceptConnection` empty. The refusal of such a source is
the work of `Instance::Connect`, which never reaches the delivery. -/
theorem Connect_delivery_without_capability_check (E : Externals) (s : Shell)
    (params : ConnectParams) (inst : Instance)
    (hpre : s.ConnectPreconditions E params none)
    (hfound : s.GetExistingOrRootInstance E params.target = some inst) :
    Shell.Connect_1 E s params =
      Except.ok { s with
        log := s.log ++
          Event.TraceShellConnect params.target.name :: inst.deliveryEvents E s params } ∧
    (inst.deliveryEvents E s params).filter
        (Event.isConnectCallbackRun params.connect_callback) =
      [Event.ConnectCallbackRun params.connect_callback ConnectResult.SUCCEEDED
        inst.identity.user_id inst.id] ∧
    (∀ source, StdMap.find s.identity_to_instance params.source = some source →
      StdMap.find source.capability_spec.required inst.identity.name = none →
      StdMap.find source.capability_spec.required "*" = none →
      inst.allowedCapabilities E s params.source =
        ({ interfaces := [], classes := [] }, source.id)) ∧
    (∀ (self : Instance) (shell : Shell) (target_ptr : Identity)
        (remote_interfaces local_interfaces : Option Handle)
        (client_process_connection : Option ClientProcessConnection) (callback : Handle),
      self.allow_any_application = false →
      StdMap.find self.capability_spec.required target_ptr.name = none →
      ∃ result, result ≠ ConnectResult.SUCCEEDED ∧
        self.Connect E shell target_ptr remote_interfaces local_interfaces
          client_process_connection callback =
          Except.ok (shell.emit (Event.ConnectCallbackRun callback result
            E.kInheritUserID E.kInvalidInstanceID))) := by
  refine ⟨?_, Instance.deliveryEvents_callback inst E s params, ?_, ?_⟩
  · unfold Shell.Connect_1
    rw [Shell.Connect_existing E s params inst hpre hfound, Instance.ConnectToClient_eq]
    simp [Shell.emit, Instance.deliveryEvents, Instance.allowedCapabilities,
      Shell.GetExistingInstance]
  · intro source hsource hname hwild
    unfold Instance.allowedCapabilities Shell.GetExistingInstance
    rw [hsource]
    simp [GenerateCapabilityRequestForConnection, GetCapabilityRequest, hname, hwild,
      CapabilityRequest.empty]
  · intro self shell target_ptr ri li cpc callback hany hentry
    refine (Instance.Connect_rejected_of_capabilities self E shell target_ptr ri li cpc
      callback ?_).1
    refine Instance.ValidateCapabilities_unauthorized self E shell _ callback hany ?_
    rw [Instance.resolvedTarget_name]
    exact hentry

/-- C11 (amended) at a concrete input: the connect from `mojo:app_b`, whose
spec grants nothing, to the registered `mojo:app_a` is delivered. -/
theorem Connect_delivery_without_capability_check_witness :
    Shell.Connect_1 sampleExternals sampleShell ungrantedParams =
      Except.ok { sampleShell with
        log := sampleShell.log ++
          Event.TraceShellConnect ungrantedParams.target.name ::
            permissiveInstance.deliveryEvents sampleExternals sampleShell ungrantedParams } :=
  (Connect_delivery_without_capability_check sampleExternals sampleShell ungrantedParams
    permissiveInstance ⟨by decide, by decide, by decide, by decide⟩ (by decide)).1

/-- C11 as stated fails: `mojo:app_b` is registered with a spec that has
neither an entry for `mojo:app_a` nor a wildcard entry, yet its connect to the
registered `mojo:app_a` through `Shell::Connect` is completed with
`SUCCEEDED`, and no `ACCESS_DENIED` is reported. -/
theorem Connect_delivery_without_capability_check_counterexample :
    StdMap.find sampleShell.identity_to_instance ungrantedParams.source =
      some isolatedInstance ∧
    StdMap.find isolatedInstance.capability_spec.required "mojo:app_a" = none ∧
    StdMap.find isolatedInstance.capability_spec.required "*" = none ∧
    StdMap.find sampleShell.identity_to_instance ungrantedParams.target =
      some permissiveInstance ∧
    Shell.Connect_1 sampleExternals sampleShell ungrantedParams =
      Except.ok { sampleShell with
        log :=
          [Event.TraceShellConnect "mojo:app_a",
           Event.ConnectCallbackRun 7 ConnectResult.SUCCEEDED sampleUser 1,
           Event.AcceptConnection 1 isolatedInstance.identity 3 none none
             { interfaces := [], classes := [] } "mojo:app_a"] } :=
  ⟨by decide, by decide, by decide, by decide, rfl⟩

/-- C12: every delivery (`ConnectToClient`) logs the callback run once, with
`SUCCEEDED`, the user id and the id of the instance. In a reachable state, the
id of an instance a connect is delivered to is not the invalid one, and
neither is the id of the instance `OnGotResolvedName` creates and delivers
to; in that run too the callback runs exactly once. -/
theorem ConnectToClient_completes_with_success (E : Externals) :
    (∀ (self : Instance) (shell : Shell) (params : ConnectParams),
      (self.ConnectToClient E shell params).eventsSince shell =
        self.deliveryEvents E shell params ∧
      (self.deliveryEvents E shell params).filter
          (Event.isConnectCallbackRun params.connect_callback) =
        [Event.ConnectCallbackRun params.connect_callback ConnectResult.SUCCEEDED
          self.identity.user_id self.id]) ∧
    (∀ (s s1 : Shell) (params : ConnectParams), Shell.Reachable E s →
      s.ConnectToExistingInstance E params = (true, s1) →
      ∃ inst, s.GetExistingOrRootInstance E params.target = some inst ∧
        s1 = inst.ConnectToClient E s params ∧ inst.id ≠ E.kInvalidInstanceID) ∧
    (∀ (s s1 : Shell) (params : ConnectParams) (client : Option Handle)
        (resolved_name resolved_instance : String) (capabilities_ptr : Option CapabilitySpec)
        (fresh : FreshHandles) (made : CreatedInstance),
      s.OnGotResolvedName_create E params client resolved_name resolved_instance
        capabilities_ptr fresh = Except.ok (some made, s1) →
      made.created.id ≠ E.kInvalidInstanceID ∧
      (s1.eventsSince s).filter (Event.isConnectCallbackRun params.connect_callback) =
        [Event.ConnectCallbackRun params.connect_callback ConnectResult.SUCCEEDED
          made.created.identity.user_id made.created.id]) := by
  refine ⟨?_, ?_, ?_⟩
  · intro self shell params
    refine ⟨?_, Instance.deliveryEvents_callback self E shell params⟩
    rw [Instance.ConnectToClient_eq]
    exact Shell.eventsSince_of_log rfl
  · intro s s1 params hreach h
    unfold Shell.ConnectToExistingInstance at h
    cases hf : s.GetExistingOrRootInstance E params.target with
    | none => rw [hf] at h; cases h
    | some inst =>
      rw [hf] at h
      simp only [Prod.mk.injEq, true_and] at h
      refine ⟨inst, rfl, h.symm, ?_⟩
      obtain ⟨-, -, hids⟩ := Shell.Reachable.registryOk hreach
      rcases Shell.GetExistingOrRootInstance_mem E s params.target inst hf with hm | hm
      · exact hids _ hm
      · exact hids _ hm
  · intro s s1 params client rn ri caps fresh made h
    cases hx : s.GetExistingOrRootInstance E (Shell.finalTarget E params rn ri) with
    | some inst =>
      rw [Shell.OnGotResolvedName_create_existing E s params client rn ri caps fresh inst hx]
        at h
      cases h
    | none =>
      rw [Shell.OnGotResolvedName_create_new E s params client rn ri caps fresh hx] at h
      cases hc : s.CreateInstance E (Shell.finalTarget E params rn ri)
          (caps.getD GetPermissiveCapabilities)
          (if client.isSome = true then client else some fresh.shell_client) with
      | error f => rw [hc] at h; cases h
      | ok pair =>
        obtain ⟨created, s2⟩ := pair
        rw [hc] at h
        simp only [Except.ok.injEq, Prod.mk.injEq, Option.some.injEq] at h
        obtain ⟨hmade, hs1⟩ := h
        obtain ⟨-, -, -, -, -, -, -, hne, hs2⟩ := Shell.CreateInstance_ok hc
        rw [← hmade]
        refine ⟨hne, ?_⟩
        have hlog : s1.log = s.log ++
            ((s.instance_listeners.map
              (fun listener => Event.InstanceCreated listener created.CreateInstanceInfo) ++
              [Event.Initialize created.id created.identity]) ++
              created.deliveryEvents E s2
                { params with
                  target := Shell.finalTarget E params rn ri
                  client_process_connection := none }) := by
          rw [← hs1, Instance.ConnectToClient_eq]
          show s2.log ++ _ = _
          rw [hs2]
          simp only [List.append_assoc]
        rw [Shell.eventsSince_of_log hlog, List.filter_append, List.filter_append]
        have hnone : (s.instance_listeners.map
            (fun listener => Event.InstanceCreated listener created.CreateInstanceInfo)).filter
            (Event.isConnectCallbackRun params.connect_callback) = [] := by
          rw [List.filter_eq_nil_iff]
          intro e he
          obtain ⟨l, -, rfl⟩ := List.mem_map.mp he
          simp [Event.isConnectCallbackRun]
        rw [hnone]
        simp [Instance.deliveryEvents, Event.isConnectCallbackRun]


/-- C12 at a concrete input: in the booted broker a connect to `mojo:shell`
is delivered to the instance of the shell, whose id is not the invalid one. -/
theorem ConnectToClient_completes_with_success_witness :
    ∃ inst, bootedShell.GetExistingOrRootInstance sampleExternals
        (ConnectParams.fromTo (CreateShellIdentity sampleExternals)
          (CreateShellIdentity sampleExternals)).target = some inst ∧
      (bootedShell.ConnectToExistingInstance sampleExternals
        (ConnectParams.fromTo (CreateShellIdentity sampleExternals)
          (CreateShellIdentity sampleExternals))).2 =
        inst.ConnectToClient sampleExternals bootedShell
          (ConnectParams.fromTo (CreateShellIdentity sampleExternals)
            (CreateShellIdentity sampleExternals)) ∧
      inst.id ≠ sampleExternals.kInvalidInstanceID :=
  (ConnectToClient_completes_with_success sampleExternals).2.1 bootedShell _
    (ConnectParams.fromTo (CreateShellIdentity sampleExternals)
      (CreateShellIdentity sampleExternals))
    (Shell.Reachable.construct (some 50) sampleFresh bootedShell rfl) rfl

/-! ## Theorems: one instance per identity, one id per instance -/

/-- The assertion of `CreateInstance` fails only when the target is registered. -/
theorem Shell.CreateInstance_DCHECK (E : Externals) (s : Shell) (target : Identity)
    (spec : CapabilitySpec) (client : Option Handle)
    (h : s.CreateInstance E target spec client =
      Except.error (Fatal.DCHECK kCreateInstanceDCHECK)) :
    (StdMap.find s.identity_to_instance target).isSome = true := by
  unfold Shell.CreateInstance at h
  by_cases h0 : target.user_id = E.kInheritUserID
  · simp only [h0, if_true] at h
    cases h
  · simp only [h0, if_false] at h
    cases hc : Instance.construct E client s target spec with
    | error f =>
      rw [hc] at h
      simp only [Except.error.injEq] at h
      exfalso
      unfold Instance.construct Instance.GenerateUniqueID at hc
      generalize (s.unique_id + 1) % 2 ^ 32 = n at hc
      by_cases h1 : n = E.kInvalidInstanceID
      · simp only [h1, if_true, Except.error.injEq] at hc
        rw [← hc] at h
        revert h
        decide
      · have h1s : ¬ E.kInvalidInstanceID = n := fun e => h1 e.symm
        simp only [h1, if_false] at hc
        by_cases h2 : target.name = kShellName ∨
            (Shell.GetLoaderForName { s with unique_id := n } target.name).isSome = true
        · simp only [h2, if_true, h1s, if_false] at hc
          cases hc
        · simp only [h2, if_false, h1s] at hc
          cases hc
    | ok pair =>
      obtain ⟨made, s2⟩ := pair
      rw [hc] at h
      simp only at h
      have hs2 := (Instance.construct_ok hc).2.2.2.2.2
      by_cases h1 : (StdMap.find s2.identity_to_instance target).isSome = true
      · rw [hs2] at h1
        exact h1
      · simp only [h1, if_false] at h
        cases h

/-- No assertion of `Shell::Connect` is the one of `CreateInstance`. -/
theorem Shell.Connect_error_ne (E : Externals) (s : Shell) (params : ConnectParams)
    (client : Option Handle) :
    Shell.Connect E s params client ≠ Except.error (Fatal.DCHECK kCreateInstanceDCHECK) := by
  intro h
  unfold Shell.Connect at h
  simp only at h
  split_ifs at h with h1 h2 h3 h4 h5
  all_goals first
    | (simp only [Except.error.injEq] at h; revert h; decide)
    | (split at h <;> cases h)

/-- The backing step never fails the assertion of `CreateInstance`. -/
theorem Shell.OnGotResolvedName_launch_error_ne (E : Externals) (s : Shell)
    (made : CreatedInstance) (resolved_name : String)
    (capabilities_ptr : Option CapabilitySpec) (file_url : Option String)
    (fresh : FreshHandles) :
    s.OnGotResolvedName_launch E made resolved_name capabilities_ptr file_url fresh ≠
      Except.error (Fatal.DCHECK kCreateInstanceDCHECK) := by
  have hcsc : ∀ (t : Shell) (source factory : Identity) (name : String)
      (request : Option Handle),
      t.CreateShellClient E source factory name request fresh ≠
        Except.error (Fatal.DCHECK kCreateInstanceDCHECK) := by
    intro t source factory name request h
    unfold Shell.CreateShellClient Shell.GetShellClientFactory ConnectToInterface
      Shell.Connect_1 at h
    cases hf : StdMap.find t.shell_client_factories factory with
    | some f => simp only [hf] at h; cases h
    | none =>
      simp only [hf] at h
      cases hc : Shell.Connect E t
          { (ConnectParams.fromTo source factory) with
            remote_interfaces := some fresh.remote_interfaces } none with
      | error f =>
        rw [hc] at h
        simp only [Except.error.injEq] at h
        rw [h] at hc
        exact Shell.Connect_error_ne E t _ none hc
      | ok s2 => rw [hc] at h; cases h
  have hlaunch :
      (match file_url, capabilities_ptr with
        | some url, some _ =>
          if made.target.name ≠ resolved_name then
            s.CreateShellClient E made.source
              (Identity.construct E resolved_name made.target.user_id made.instance_name)
              made.target.name made.request fresh
          else
            match made.client_process_connection with
            | some connection =>
              Except.ok (made.created.StartWithClientProcessConnection s made.request
                connection)
            | none =>
              Except.ok (made.created.StartWithFilePath s made.request url fresh.runner)
        | _, _ =>
          Except.error
            (Fatal.CHECK "CHECK(!file_url.is_null() && !capabilities_ptr.is_null())")) ≠
        Except.error (Fatal.DCHECK kCreateInstanceDCHECK) := by
    intro h2
    cases file_url with
    | none => cases h2
    | some url =>
      cases capabilities_ptr with
      | none => cases h2
      | some caps =>
        simp only at h2
        split_ifs at h2 with hname
        · exact hcsc s _ _ _ _ h2
        · cases hcpc : made.client_process_connection with
          | some connection => rw [hcpc] at h2; cases h2
          | none => rw [hcpc] at h2; cases h2
  intro h
  unfold Shell.OnGotResolvedName_launch at h
  by_cases hr : (!made.request.isSome) = true
  · simp only [hr, if_true] at h
    cases h
  · simp only [hr, if_false] at h
    by_cases hc : made.client_process_connection.isNone = true
    · simp only [hc, if_true] at h
      unfold Shell.LoadWithLoader at h
      cases hl : s.GetLoaderForName made.target.name with
      | some loader =>
        rw [hl] at h
        simp only [Bool.false_eq_true, if_false] at h
        cases h
      | none =>
        rw [hl] at h
        simp only [Bool.false_eq_true, if_false] at h
        exact hlaunch h
    · simp only [hc] at h
      exact hlaunch h

/-- An instance that `GetExistingOrRootInstance` does not find is not
registered under the exact identity. -/
theorem Shell.find_none_of_GetExistingOrRootInstance (E : Externals) (s : Shell)
    (identity : Identity) (h : s.GetExistingOrRootInstance E identity = none) :
    StdMap.find s.identity_to_instance identity = none := by
  unfold Shell.GetExistingOrRootInstance Shell.GetExistingInstance at h
  cases hf : StdMap.find s.identity_to_instance identity with
  | none => rfl
  | some inst => rw [hf] at h; cases h

/-- C13: in every reachable state the registry binds no identity twice, and
`CreateInstance` never overwrites an entry: no run of `OnGotResolvedName`
fails the assertion of `CreateInstance`, a run that returns leaves the
registry as it was or appends one entry under an identity that was free, and
the constructor of the broker does not fail that assertion either. -/
theorem Registry_one_instance_per_identity (E : Externals) :
    (∀ s : Shell, Shell.Reachable E s →
      (s.identity_to_instance.map Prod.fst).Nodup ∧
      ∀ identity : Identity,
        (s.identity_to_instance.filter (fun entry => entry.1 = identity)).length ≤ 1) ∧
    (∀ (s : Shell) (params : ConnectParams) (client : Option Handle)
        (resolved_name resolved_instance : String) (capabilities_ptr : Option CapabilitySpec)
        (file_url : Option String) (fresh : FreshHandles),
      Shell.OnGotResolvedName E s params client resolved_name resolved_instance
          capabilities_ptr file_url fresh ≠
        Except.error (Fatal.DCHECK kCreateInstanceDCHECK) ∧
      ∀ s1, Shell.OnGotResolvedName E s params client resolved_name resolved_instance
          capabilities_ptr file_url fresh = Except.ok s1 →
        s1.identity_to_instance = s.identity_to_instance ∨
        ∃ created,
          StdMap.find s.identity_to_instance created.identity = none ∧
          s1.identity_to_instance =
            s.identity_to_instance ++ [(created.identity, created)]) ∧
    (∀ (catalog : Option Handle) (fresh : FreshHandles),
      Shell.construct E catalog fresh ≠
        Except.error (Fatal.DCHECK kCreateInstanceDCHECK)) := by
  refine ⟨?_, ?_, ?_⟩
  · intro s hreach
    have hnodup := (Shell.Reachable.registryOk hreach).1
    refine ⟨hnodup, ?_⟩
    intro identity
    have hcount : ∀ m : List (Identity × Instance), (m.map Prod.fst).Nodup →
        (m.filter (fun entry => entry.1 = identity)).length ≤ 1 := by
      intro m
      induction m with
      | nil => intro _; simp
      | cons e rest ih =>
        intro hn
        simp only [List.map_cons, List.nodup_cons] at hn
        by_cases he : e.1 = identity
        · have hrest : rest.filter (fun entry => entry.1 = identity) = [] := by
            rw [List.filter_eq_nil_iff]
            intro x hx hxe
            simp only [decide_eq_true_eq] at hxe
            exact hn.1 (List.mem_map.mpr ⟨x, hx, hxe.trans he.symm⟩)
          simp [List.filter_cons, he, hrest]
        · simp only [List.filter_cons, he, decide_False, Bool.false_eq_true, if_false]
          exact ih hn.2
    exact hcount _ hnodup
  · intro s params client rn ri caps url fresh
    constructor
    · intro h
      unfold Shell.OnGotResolvedName at h
      cases hx : s.GetExistingOrRootInstance E (Shell.finalTarget E params rn ri) with
      | some inst =>
        rw [Shell.OnGotResolvedName_create_existing E s params client rn ri caps fresh inst
          hx] at h
        cases h
      | none =>
        rw [Shell.OnGotResolvedName_create_new E s params client rn ri caps fresh hx] at h
        cases hc : s.CreateInstance E (Shell.finalTarget E params rn ri)
            (caps.getD GetPermissiveCapabilities)
            (if client.isSome = true then client else some fresh.shell_client) with
        | error f =>
          rw [hc] at h
          simp only [Except.error.injEq] at h
          rw [h] at hc
          have hsome := Shell.CreateInstance_DCHECK E s _ _ _ hc
          rw [Shell.find_none_of_GetExistingOrRootInstance E s _ hx] at hsome
          cases hsome
        | ok pair =>
          obtain ⟨created, s2⟩ := pair
          rw [hc] at h
          exact Shell.OnGotResolvedName_launch_error_ne E _ _ rn caps url fresh h
    · intro s1 h
      rcases Shell.OnGotResolvedName_effect E s params client rn ri caps url fresh s1 h
        with ⟨-, hq⟩ | ⟨-, created, -, hc⟩
      · exact Or.inl hq.1
      · exact Or.inr ⟨created, hc.1, hc.2.2.2.1⟩
  · intro catalog fresh h
    have h0 : (match (Shell.initial E).CreateInstance E (CreateShellIdentity E)
        GetPermissiveCapabilities (some fresh.shell_client) with
      | Except.error f => Except.error f
      | Except.ok (_, s) => if catalog.isSome then s.InitCatalog E catalog else Except.ok s) =
        Except.error (Fatal.DCHECK kCreateInstanceDCHECK) := h
    cases hc : (Shell.initial E).CreateInstance E (CreateShellIdentity E)
        GetPermissiveCapabilities (some fresh.shell_client) with
    | error f =>
      rw [hc] at h0
      simp only [Except.error.injEq] at h0
      rw [h0] at hc
      have hsome := Shell.CreateInstance_DCHECK E _ _ _ _ hc
      simp [Shell.initial, StdMap.find] at hsome
    | ok pair =>
      obtain ⟨shellInstance, sA⟩ := pair
      rw [hc] at h0
      simp only at h0
      by_cases hcat : catalog.isSome = true
      · simp only [hcat, if_true] at h0
        unfold Shell.InitCatalog at h0
        simp only at h0
        cases hc2 : sA.CreateInstance E (Identity.construct_2 E kCatalogName E.kRootUserID)
            CapabilitySpec.empty catalog with
        | error f =>
          rw [hc2] at h0
          simp only [Except.error.injEq] at h0
          rw [h0] at hc2
          have hsome := Shell.CreateInstance_DCHECK E _ _ _ _ hc2
          obtain ⟨-, -, hid, -, -, -, -, -, hsA⟩ := Shell.CreateInstance_ok hc
          rw [hsA] at hsome
          simp only [Shell.initial, List.nil_append, StdMap.find] at hsome
          have hne : ¬ CreateShellIdentity E = Identity.construct_2 E kCatalogName
              E.kRootUserID := by
            intro he
            have hname := congrArg Identity.name he
            revert hname
            simp only [CreateShellIdentity, Identity.construct_2]
            decide
          simp [hne] at hsome
        | ok pair2 => rw [hc2] at h0; cases h0
      · simp only [hcat, Bool.false_eq_true, if_false] at h0
        cases h0

/-- C13 at a concrete input: the registry of the booted broker binds no
identity twice. -/
theorem Registry_one_instance_per_identity_witness :
    (bootedShell.identity_to_instance.map Prod.fst).Nodup :=
  ((Registry_one_instance_per_identity sampleExternals).1 bootedShell
    (Shell.Reachable.construct (some 50) sampleFresh bootedShell rfl)).1


/-- C14: with 0 as the invalid id, the ids of the instances created in a run
of the broker, destroyed ones included, grow strictly: each differs from
the invalid id and from every earlier id. A new instance gets the counter
plus one, and when the 32-bit counter would wrap onto the invalid id the run
ends in the fatal check of `GenerateUniqueID`, no id being handed out. -/
theorem Instance_ids_never_reused (E : Externals) (hzero : E.kInvalidInstanceID = 0) :
    (∀ s : Shell, Shell.Reachable E s →
      (createdIds s.log).Pairwise (fun a b => a < b) ∧
      (createdIds s.log).Nodup ∧
      (∀ id, id ∈ createdIds s.log → id ≠ E.kInvalidInstanceID ∧ id ≤ s.unique_id) ∧
      ∀ (target : Identity) (spec : CapabilitySpec) (client : Option Handle)
          (created : Instance) (s1 : Shell),
        s.CreateInstance E target spec client = Except.ok (created, s1) →
        created.id = s.unique_id + 1 ∧ created.id ≠ E.kInvalidInstanceID ∧
        (∀ id, id ∈ createdIds s.log → id < created.id) ∧
        createdIds s1.log = createdIds s.log ++ [created.id]) ∧
    (∀ shell : Shell, shell.unique_id + 1 < 2 ^ 32 →
      Instance.GenerateUniqueID E shell =
        Except.ok (shell.unique_id + 1, { shell with unique_id := shell.unique_id + 1 })) ∧
    (∀ shell : Shell, shell.unique_id + 1 = 2 ^ 32 →
      Instance.GenerateUniqueID E shell =
        Except.error (Fatal.CHECK "CHECK_NE(mojom::kInvalidInstanceID, id)")) := by
  refine ⟨?_, ?_, ?_⟩
  · intro s hreach
    obtain ⟨h1, h2, h3⟩ := Shell.Reachable.idsOk hzero hreach
    refine ⟨h1, h1.imp (fun hab => Nat.ne_of_lt hab), ?_, ?_⟩
    · intro id hid
      obtain ⟨hpos, hle⟩ := h2 id hid
      rw [hzero]
      exact ⟨Nat.pos_iff_ne_zero.mp hpos, hle⟩
    · intro target spec client created s1 hc
      have hcreated := Shell.CreateInstance_created hc
      obtain ⟨-, hval⟩ := Shell.IdsOk.ids_after_creation hzero hcreated ⟨h1, h2, h3⟩
      obtain ⟨-, -, hne, -, -, events, hl, hce⟩ := hcreated
      refine ⟨hval, hne, ?_, ?_⟩
      · intro id hid
        have := (h2 id hid).2
        omega
      · rw [hl, createdIds_append, hce]
  · intro shell hlt
    unfold Instance.GenerateUniqueID
    simp only [Nat.mod_eq_of_lt hlt, hzero, Nat.succ_ne_zero, if_false]
  · intro shell heq
    unfold Instance.GenerateUniqueID
    simp only [heq, Nat.mod_self, hzero, if_true]

/-- C14 at a concrete input: the booted broker has created the instances 1
and 2, and the next instance gets the id 3. -/
theorem Instance_ids_never_reused_witness :
    createdIds bootedShell.log = [1, 2] ∧
    Instance.GenerateUniqueID sampleExternals bootedShell =
      Except.ok (3, { bootedShell with unique_id := 3 }) :=
  ⟨by decide,
   (Instance_ids_never_reused sampleExternals rfl).2.1 bootedShell (by decide)⟩

/-! ## Theorems: routing to an instance that exists -/

/-- `Shell::Connect` without a client, when an instance is found: the state
changes by the trace event and the two delivery events. -/
theorem Shell.Connect_1_delivered (E : Externals) (s : Shell) (params : ConnectParams)
    (inst : Instance) (hpre : s.ConnectPreconditions E params none)
    (hfound : s.GetExistingOrRootInstance E params.target = some inst) :
    Shell.Connect_1 E s params =
      Except.ok { s with
        log := s.log ++
          Event.TraceShellConnect params.target.name :: inst.deliveryEvents E s params } := by
  unfold Shell.Connect_1
  rw [Shell.Connect_existing E s params inst hpre hfound, Instance.ConnectToClient_eq]
  simp [Shell.emit, Instance.deliveryEvents, Instance.allowedCapabilities,
    Shell.GetExistingInstance]

theorem Shell.GetExistingOrRootInstance_of_find (E : Externals) (s : Shell)
    (identity : Identity) (inst : Instance)
    (h : StdMap.find s.identity_to_instance identity = some inst) :
    s.GetExistingOrRootInstance E identity = some inst := by
  unfold Shell.GetExistingOrRootInstance Shell.GetExistingInstance
  rw [h]

/-- C15: when an instance is registered for the target, two successive
`Shell::Connect` calls for it that meet the asserted preconditions both
return; each runs its callback once, with `SUCCEEDED` and the user id and id
of that one instance; no resolver request is issued, and the registry and the
pending requests are as before. -/
theorem Connect_twice_same_instance (E : Externals) (s : Shell)
    (params1 params2 : ConnectParams) (inst : Instance)
    (hpre : s.ConnectPreconditions E params1 none)
    (htarget : params2.target = params1.target)
    (hreg : StdMap.find s.identity_to_instance params1.target = some inst) :
    ∃ s1 s2, Shell.Connect_1 E s params1 = Except.ok s1 ∧
      Shell.Connect_1 E s1 params2 = Except.ok s2 ∧
      (s1.eventsSince s).filter (Event.isConnectCallbackRun params1.connect_callback) =
        [Event.ConnectCallbackRun params1.connect_callback ConnectResult.SUCCEEDED
          inst.identity.user_id inst.id] ∧
      (s2.eventsSince s1).filter (Event.isConnectCallbackRun params2.connect_callback) =
        [Event.ConnectCallbackRun params2.connect_callback ConnectResult.SUCCEEDED
          inst.identity.user_id inst.id] ∧
      (s2.eventsSince s).filter Event.isResolveMojoName = [] ∧
      s2.identity_to_instance = s.identity_to_instance ∧
      s2.pending_resolutions = s.pending_resolutions := by
  have hfound := Shell.GetExistingOrRootInstance_of_find E s _ inst hreg
  have h1 := Shell.Connect_1_delivered E s params1 inst hpre hfound
  have hpre2 : Shell.ConnectPreconditions E
      { s with log := s.log ++
          Event.TraceShellConnect params1.target.name :: inst.deliveryEvents E s params1 }
      params2 none := by
    obtain ⟨p1, p2, p3, -⟩ := hpre
    rw [← htarget] at p1 p2 p3
    exact ⟨p1, p2, p3, fun hc => by cases hc⟩
  have hfound2 : Shell.GetExistingOrRootInstance E
      { s with log := s.log ++
          Event.TraceShellConnect params1.target.name :: inst.deliveryEvents E s params1 }
      params2.target = some inst := by
    rw [htarget]
    exact hfound
  have h2 := Shell.Connect_1_delivered E _ params2 inst hpre2 hfound2
  refine ⟨{ s with log := s.log ++
      Event.TraceShellConnect params1.target.name :: inst.deliveryEvents E s params1 },
    { s with log := (s.log ++
      Event.TraceShellConnect params1.target.name :: inst.deliveryEvents E s params1) ++
      Event.TraceShellConnect params2.target.name :: inst.deliveryEvents E s params2 },
    h1, h2, ?_, ?_, ?_, rfl, rfl⟩
  · rw [@Shell.eventsSince_of_log _ _ (Event.TraceShellConnect params1.target.name ::
      inst.deliveryEvents E s params1) rfl]
    simp [Instance.deliveryEvents, Event.isConnectCallbackRun]
  · rw [@Shell.eventsSince_of_log _ _ (Event.TraceShellConnect params2.target.name ::
      inst.deliveryEvents E s params2) rfl]
    simp [Instance.deliveryEvents, Event.isConnectCallbackRun]
  · rw [@Shell.eventsSince_of_log _ _ ((Event.TraceShellConnect params1.target.name ::
      inst.deliveryEvents E s params1) ++ (Event.TraceShellConnect params2.target.name ::
      inst.deliveryEvents E s params2)) (by simp)]
    simp [Instance.deliveryEvents, Event.isResolveMojoName]

/-- C15 at a concrete input: two connects from the shell to `mojo:app_a`,
with the callbacks 7 and 8. -/
theorem Connect_twice_same_instance_witness :
    ∃ s1 s2,
      Shell.Connect_1 sampleExternals sampleShell
        { (ConnectParams.fromTo (CreateShellIdentity sampleExternals)
            permissiveInstance.identity) with connect_callback := 7 } = Except.ok s1 ∧
      Shell.Connect_1 sampleExternals s1
        { (ConnectParams.fromTo (CreateShellIdentity sampleExternals)
            permissiveInstance.identity) with connect_callback := 8 } = Except.ok s2 ∧
      (s1.eventsSince sampleShell).filter (Event.isConnectCallbackRun 7) =
        [Event.ConnectCallbackRun 7 ConnectResult.SUCCEEDED sampleUser 1] ∧
      (s2.eventsSince s1).filter (Event.isConnectCallbackRun 8) =
        [Event.ConnectCallbackRun 8 ConnectResult.SUCCEEDED sampleUser 1] ∧
      (s2.eventsSince sampleShell).filter Event.isResolveMojoName = [] ∧
      s2.identity_to_instance = sampleShell.identity_to_instance ∧
      s2.pending_resolutions = sampleShell.pending_resolutions :=
  Connect_twice_same_instance sampleExternals sampleShell
    { (ConnectParams.fromTo (CreateShellIdentity sampleExternals)
        permissiveInstance.identity) with connect_callback := 7 }
    { (ConnectParams.fromTo (CreateShellIdentity sampleExternals)
        permissiveInstance.identity) with connect_callback := 8 }
    permissiveInstance ⟨by decide, by decide, by decide, by decide⟩ rfl (by decide)

/-- C16: `GetExistingOrRootInstance` returns the instance registered under
exactly the identity when there is one, else the one registered under the
same name and qualifier with the root user when there is one, else nothing;
and `Shell::Connect` without a client delivers to the instance it returns
whenever it returns one. -/
theorem GetExistingOrRootInstance_lookup (E : Externals) (s : Shell) (identity : Identity) :
    (∀ inst, StdMap.find s.identity_to_instance identity = some inst →
      s.GetExistingOrRootInstance E identity = some inst) ∧
    (StdMap.find s.identity_to_instance identity = none →
      ∀ inst, StdMap.find s.identity_to_instance
          { name := identity.name, user_id := E.kRootUserID,
            instance_ := identity.instance_ } = some inst →
        s.GetExistingOrRootInstance E identity = some inst) ∧
    (StdMap.find s.identity_to_instance identity = none →
      StdMap.find s.identity_to_instance
          { name := identity.name, user_id := E.kRootUserID,
            instance_ := identity.instance_ } = none →
      s.GetExistingOrRootInstance E identity = none) ∧
    (∀ (params : ConnectParams) (inst : Instance),
      params.target = identity →
      s.ConnectPreconditions E params none →
      s.GetExistingOrRootInstance E identity = some inst →
      Shell.Connect_1 E s params =
        Except.ok { s with
          log := s.log ++
            Event.TraceShellConnect params.target.name :: inst.deliveryEvents E s params }) := by
  refine ⟨?_, ?_, ?_, ?_⟩
  · intro inst h
    exact Shell.GetExistingOrRootInstance_of_find E s identity inst h
  · intro h inst hroot
    unfold Shell.GetExistingOrRootInstance Shell.GetExistingInstance Identity.set_user_id
    rw [h]
    exact hroot
  · intro h hroot
    unfold Shell.GetExistingOrRootInstance Shell.GetExistingInstance Identity.set_user_id
    rw [h]
    exact hroot
  · intro params inst htarget hpre hfound
    rw [← htarget] at hfound
    exact Shell.Connect_1_delivered E s params inst hpre hfound

/-- C16 at a concrete input: `mojo:shell` is registered under the root user
only, and a connect to it under `sampleUser` is delivered to that instance. -/
theorem GetExistingOrRootInstance_lookup_witness :
    ∃ inst, bootedShell.GetExistingOrRootInstance sampleExternals
        { name := "mojo:shell", user_id := sampleUser, instance_ := "shell" } = some inst ∧
      inst.identity = CreateShellIdentity sampleExternals ∧ inst.id = 1 :=
  ⟨_, (GetExistingOrRootInstance_lookup sampleExternals bootedShell
      { name := "mojo:shell", user_id := sampleUser, instance_ := "shell" }).2.1
      (by decide) _ rfl, by decide, by decide⟩

/-! ## Theorems: destruction -/

/-- C19: for a registered instance `OnInstanceError` returns; it removes the
entry of the identity of the instance and no other, logs `InstanceDestroyed`
with the id of the instance for every listener, in order, and after that the
run of the quit callback with the destroyed identity, exactly when one is
set; nothing else changes. -/
theorem OnInstanceError_removes_one_entry (E : Externals) (s : Shell) (inst registered : Instance)
    (hok : s.RegistryOk E)
    (hreg : StdMap.find s.identity_to_instance inst.identity = some registered) :
    ∃ s1, s.OnInstanceError inst = Except.ok s1 ∧
      StdMap.find s1.identity_to_instance inst.identity = none ∧
      (∀ other, other ≠ inst.identity →
        StdMap.find s1.identity_to_instance other =
          StdMap.find s.identity_to_instance other) ∧
      s1.identity_to_instance = StdMap.erase s.identity_to_instance inst.identity ∧
      s1.eventsSince s =
        s.instance_listeners.map (fun listener => Event.InstanceDestroyed listener inst.id) ++
          (match s.instance_quit_callback with
           | some callback => [Event.InstanceQuitCallbackRun callback inst.identity]
           | none => []) ∧
      s1.instance_listeners = s.instance_listeners ∧
      s1.instance_quit_callback = s.instance_quit_callback ∧
      s1.pending_resolutions = s.pending_resolutions ∧
      s1.unique_id = s.unique_id ∧
      s1.name_to_loader = s.name_to_loader := by
  refine ⟨_, Shell.OnInstanceError_eq s inst registered hreg, ?_, ?_, rfl, ?_, rfl, rfl, rfl,
    rfl, rfl⟩
  · exact StdMap.find_erase_self _ _ hok.1
  · intro other hne
    exact StdMap.find_erase_ne _ _ _ hne
  · exact Shell.eventsSince_of_log rfl


/-- C19 at a concrete input: `mojo:app_b` (id 3) is destroyed in a broker with
the listeners 60 and 61 and the quit callback 70. -/
theorem OnInstanceError_removes_one_entry_witness :
    ∃ s1, observedShell.OnInstanceError isolatedInstance = Except.ok s1 ∧
      StdMap.find s1.identity_to_instance isolatedInstance.identity = none ∧
      StdMap.find s1.identity_to_instance permissiveInstance.identity =
        some permissiveInstance ∧
      s1.eventsSince observedShell =
        [Event.InstanceDestroyed 60 3, Event.InstanceDestroyed 61 3,
         Event.InstanceQuitCallbackRun 70 isolatedInstance.identity] := by
  obtain ⟨s1, h1, h2, h3, -, h5, -⟩ :=
    OnInstanceError_removes_one_entry sampleExternals observedShell isolatedInstance
      isolatedInstance (by unfold Shell.RegistryOk; decide) (by decide)
  exact ⟨s1, h1, h2, (h3 permissiveInstance.identity (by decide)).trans (by decide), h5⟩

/-! ## Theorems: losing the channels of an instance -/

/-- `OnConnectionLost` after the members of a registered instance changed:
the instance is destroyed exactly when it has no connector and no control
channel left, and is otherwise kept with its changed members. -/
theorem Instance.OnConnectionLost_registered (E : Externals) (s : Shell)
    (self changed : Instance) (hok : s.RegistryOk E)
    (hreg : StdMap.find s.identity_to_instance self.identity = some self)
    (hid : changed.identity = self.identity) :
    (changed.connectors = [] ∧ changed.shell_client = none →
      changed.OnConnectionLost (s.storeInstance changed) =
        (s.storeInstance changed).OnInstanceError changed ∧
      changed.OnConnectionLost (s.storeInstance changed) =
        Except.ok { (s.storeInstance changed) with
          identity_to_instance :=
            StdMap.erase (s.storeInstance changed).identity_to_instance self.identity
          log := s.log ++ s.destructionEvents changed } ∧
      StdMap.find (StdMap.erase (s.storeInstance changed).identity_to_instance self.identity)
        self.identity = none) ∧
    (¬ (changed.connectors = [] ∧ changed.shell_client = none) →
      changed.OnConnectionLost (s.storeInstance changed) = Except.ok (s.storeInstance changed) ∧
      StdMap.find (s.storeInstance changed).identity_to_instance self.identity =
        some changed) := by
  have hfind : StdMap.find (s.storeInstance changed).identity_to_instance changed.identity =
      some changed := by
    rw [Shell.storeInstance_find, if_pos rfl, hid, hreg]
    rfl
  constructor
  · intro hc
    refine ⟨by unfold Instance.OnConnectionLost; rw [if_pos hc], ?_, ?_⟩
    · unfold Instance.OnConnectionLost
      rw [if_pos hc, Shell.OnInstanceError_eq _ changed changed hfind, hid]
      rfl
    · apply StdMap.find_erase_self
      rw [Shell.storeInstance_keys]
      exact hok.1
  · intro hc
    refine ⟨by unfold Instance.OnConnectionLost; rw [if_neg hc], ?_⟩
    rw [← hid]
    exact hfind

/-- C18: for a registered instance, a connection-loss event destroys it
exactly when, after the event, it has no connector binding and no control
channel. Losing the last connector with the control channel bound keeps it,
losing the control channel with a connector bound keeps it, and losing both,
in either order, ends in one run of `OnInstanceError`: the first loss logs
nothing and the second logs the destruction events once. -/
theorem Instance_destroyed_when_both_channels_lost (E : Externals) (s : Shell)
    (self : Instance) (hok : s.RegistryOk E)
    (hreg : StdMap.find s.identity_to_instance self.identity = some self) :
    (∀ connector, ∃ s1, self.OnConnectorLost s connector = Except.ok s1 ∧
      (StdMap.find s1.identity_to_instance self.identity = none ↔
        (self.connectors.erase connector = [] ∧ self.shell_client = none))) ∧
    (∃ s1, self.OnShellClientLost s = Except.ok s1 ∧
      (StdMap.find s1.identity_to_instance self.identity = none ↔ self.connectors = [])) ∧
    (∀ connector control, self.connectors = [connector] → self.shell_client = some control →
      self.OnConnectorLost s connector =
        Except.ok (s.storeInstance { self with connectors := [] }) ∧
      StdMap.find (s.storeInstance { self with connectors := [] }).identity_to_instance
        self.identity = some { self with connectors := [] }) ∧
    (self.connectors ≠ [] →
      self.OnShellClientLost s =
        Except.ok (s.storeInstance { self with shell_client := none }) ∧
      StdMap.find (s.storeInstance { self with shell_client := none }).identity_to_instance
        self.identity = some { self with shell_client := none }) ∧
    (∀ connector control, self.connectors = [connector] → self.shell_client = some control →
      ∃ s1 s2,
        self.OnConnectorLost s connector = Except.ok s1 ∧ s1.log = s.log ∧
        Instance.OnShellClientLost { self with connectors := [] } s1 = Except.ok s2 ∧
        StdMap.find s2.identity_to_instance self.identity = none ∧
        s2.eventsSince s = s.destructionEvents self) ∧
    (∀ connector control, self.connectors = [connector] → self.shell_client = some control →
      ∃ s1 s2,
        self.OnShellClientLost s = Except.ok s1 ∧ s1.log = s.log ∧
        Instance.OnConnectorLost { self with shell_client := none } s1 connector =
          Except.ok s2 ∧
        StdMap.find s2.identity_to_instance self.identity = none ∧
        s2.eventsSince s = s.destructionEvents self) := by
  have connectorLost : ∀ connector, ∃ s1, self.OnConnectorLost s connector = Except.ok s1 ∧
      (StdMap.find s1.identity_to_instance self.identity = none ↔
        (self.connectors.erase connector = [] ∧ self.shell_client = none)) := by
    intro connector
    obtain ⟨hyes, hno⟩ := Instance.OnConnectionLost_registered E s self
      { self with connectors := self.connectors.erase connector } hok hreg rfl
    by_cases hc : self.connectors.erase connector = [] ∧ self.shell_client = none
    · obtain ⟨-, h2, h3⟩ := hyes hc
      exact ⟨_, h2, ⟨fun _ => hc, fun _ => h3⟩⟩
    · obtain ⟨h1, h2⟩ := hno hc
      refine ⟨_, h1, ⟨fun hnone => ?_, fun hyes2 => absurd hyes2 hc⟩⟩
      rw [h2] at hnone
      cases hnone
  have clientLost : ∃ s1, self.OnShellClientLost s = Except.ok s1 ∧
      (StdMap.find s1.identity_to_instance self.identity = none ↔ self.connectors = []) := by
    obtain ⟨hyes, hno⟩ := Instance.OnConnectionLost_registered E s self
      { self with shell_client := none } hok hreg rfl
    by_cases hc : self.connectors = []
    · obtain ⟨-, h2, h3⟩ := hyes ⟨hc, rfl⟩
      exact ⟨_, h2, ⟨fun _ => hc, fun _ => h3⟩⟩
    · obtain ⟨h1, h2⟩ := hno (fun hboth => hc hboth.1)
      refine ⟨_, h1, ⟨fun hnone => ?_, fun hyes2 => absurd hyes2 hc⟩⟩
      rw [h2] at hnone
      cases hnone
  have keepOnConnector : ∀ connector control, self.connectors = [connector] →
      self.shell_client = some control →
      self.OnConnectorLost s connector =
        Except.ok (s.storeInstance { self with connectors := [] }) ∧
      StdMap.find (s.storeInstance { self with connectors := [] }).identity_to_instance
        self.identity = some { self with connectors := [] } := by
    intro connector control hconn hctl
    have herase : self.connectors.erase connector = [] := by rw [hconn]; simp
    obtain ⟨-, hno⟩ := Instance.OnConnectionLost_registered E s self
      { self with connectors := [] } hok hreg rfl
    have hc : ¬ (([] : List Handle) = [] ∧ self.shell_client = none) := by
      rw [hctl]; simp
    obtain ⟨h1, h2⟩ := hno hc
    refine ⟨?_, h2⟩
    unfold Instance.OnConnectorLost
    simp only [herase]
    exact h1
  have keepOnClient : self.connectors ≠ [] →
      self.OnShellClientLost s =
        Except.ok (s.storeInstance { self with shell_client := none }) ∧
      StdMap.find (s.storeInstance { self with shell_client := none }).identity_to_instance
        self.identity = some { self with shell_client := none } := by
    intro hconn
    obtain ⟨-, hno⟩ := Instance.OnConnectionLost_registered E s self
      { self with shell_client := none } hok hreg rfl
    exact hno (fun hboth => hconn hboth.1)
  refine ⟨connectorLost, clientLost, keepOnConnector, keepOnClient, ?_, ?_⟩
  · intro connector control hconn hctl
    obtain ⟨h1, h2⟩ := keepOnConnector connector control hconn hctl
    have hok1 : (s.storeInstance { self with connectors := [] }).RegistryOk E :=
      Shell.RegistryOk.store self _ hreg rfl hok
    obtain ⟨hyes, -⟩ := Instance.OnConnectionLost_registered E
      (s.storeInstance { self with connectors := [] }) { self with connectors := [] }
      { self with connectors := [], shell_client := none } hok1 h2 rfl
    obtain ⟨-, h3, h4⟩ := hyes ⟨rfl, rfl⟩
    exact ⟨_, _, h1, rfl, h3, h4, Shell.eventsSince_of_log rfl⟩
  · intro connector control hconn hctl
    have hne : self.connectors ≠ [] := by rw [hconn]; simp
    obtain ⟨h1, h2⟩ := keepOnClient hne
    have hok1 : (s.storeInstance { self with shell_client := none }).RegistryOk E :=
      Shell.RegistryOk.store self _ hreg rfl hok
    obtain ⟨hyes, -⟩ := Instance.OnConnectionLost_registered E
      (s.storeInstance { self with shell_client := none }) { self with shell_client := none }
      { self with shell_client := none, connectors := [] } hok1 h2 rfl
    obtain ⟨-, h3, h4⟩ := hyes ⟨rfl, rfl⟩
    have herase : self.connectors.erase connector = [] := by rw [hconn]; simp
    have hstep : Instance.OnConnectorLost { self with shell_client := none }
        (s.storeInstance { self with shell_client := none }) connector =
        Instance.OnConnectionLost { self with shell_client := none, connectors := [] }
          ((s.storeInstance { self with shell_client := none }).storeInstance
            { self with shell_client := none, connectors := [] }) := by
      unfold Instance.OnConnectorLost
      simp only [herase]
    exact ⟨_, _, h1, rfl, hstep.trans h3, h4, Shell.eventsSince_of_log rfl⟩

/-- C18 at a concrete input: `mojo:app_b` has the connector 31 and the control
channel 30; after losing both, connector first, it is gone and the two
listeners and the quit callback have been told once. -/
theorem Instance_destroyed_when_both_channels_lost_witness :
    ∃ s1 s2,
      isolatedInstance.OnConnectorLost observedShell 31 = Except.ok s1 ∧
      s1.log = observedShell.log ∧
      Instance.OnShellClientLost { isolatedInstance with connectors := [] } s1 =
        Except.ok s2 ∧
      StdMap.find s2.identity_to_instance isolatedInstance.identity = none ∧
      s2.eventsSince observedShell = observedShell.destructionEvents isolatedInstance :=
  (Instance_destroyed_when_both_channels_lost sampleExternals observedShell isolatedInstance
    (by unfold Shell.RegistryOk; decide) (by decide)).2.2.2.2.1 31 30 rfl rfl


/-! ## Theorems: what the resolver callback creates -/

/-- A run of the first part of `OnGotResolvedName` that created an instance:
no instance was found for the final target, `CreateInstance` returned the
instance, and the connect was delivered to it. -/
theorem Shell.OnGotResolvedName_create_made {E : Externals} {s s1 : Shell}
    {params : ConnectParams} {client : Option Handle} {resolved_name resolved_instance : String}
    {capabilities_ptr : Option CapabilitySpec} {fresh : FreshHandles} {made : CreatedInstance}
    (h : s.OnGotResolvedName_create E params client resolved_name resolved_instance
      capabilities_ptr fresh = Except.ok (some made, s1)) :
    s.GetExistingOrRootInstance E
      (Shell.finalTarget E params resolved_name resolved_instance) = none ∧
    ∃ s2, s.CreateInstance E (Shell.finalTarget E params resolved_name resolved_instance)
        (capabilities_ptr.getD GetPermissiveCapabilities)
        (if client.isSome = true then client else some fresh.shell_client) =
        Except.ok (made.created, s2) ∧
      s1 = made.created.ConnectToClient E s2
        { params with
          target := Shell.finalTarget E params resolved_name resolved_instance
          client_process_connection := none } ∧
      made =
        { created := made.created
          source := params.source
          target := Shell.finalTarget E params resolved_name resolved_instance
          instance_name := Shell.finalInstanceName E params resolved_name resolved_instance
          request := if client.isSome = true then none else some fresh.shell_client
          client_process_connection := params.client_process_connection } := by
  cases hx : s.GetExistingOrRootInstance E
      (Shell.finalTarget E params resolved_name resolved_instance) with
  | some inst =>
    rw [Shell.OnGotResolvedName_create_existing E s params client resolved_name
      resolved_instance capabilities_ptr fresh inst hx] at h
    cases h
  | none =>
    rw [Shell.OnGotResolvedName_create_new E s params client resolved_name resolved_instance
      capabilities_ptr fresh hx] at h
    cases hc : s.CreateInstance E (Shell.finalTarget E params resolved_name resolved_instance)
        (capabilities_ptr.getD GetPermissiveCapabilities)
        (if client.isSome = true then client else some fresh.shell_client) with
    | error f => rw [hc] at h; cases h
    | ok pair =>
      obtain ⟨created, s2⟩ := pair
      rw [hc] at h
      simp only [Except.ok.injEq, Prod.mk.injEq, Option.some.injEq] at h
      obtain ⟨hmade, hs1⟩ := h
      refine ⟨rfl, s2, ?_, ?_, ?_⟩
      · rw [← hmade]
      · rw [← hmade]; exact hs1.symm
      · rw [← hmade]

/-- The first part of `OnGotResolvedName` returns with a created instance when
no instance is found for the final target, the target user is not the inherit
sentinel and the id counter is not about to wrap. -/
theorem Shell.OnGotResolvedName_create_total (E : Externals) (s : Shell)
    (params : ConnectParams) (client : Option Handle) (resolved_name resolved_instance : String)
    (capabilities_ptr : Option CapabilitySpec) (fresh : FreshHandles)
    (hfree : s.GetExistingOrRootInstance E
      (Shell.finalTarget E params resolved_name resolved_instance) = none)
    (huser : params.target.user_id ≠ E.kInheritUserID)
    (hid : (s.unique_id + 1) % 2 ^ 32 ≠ E.kInvalidInstanceID) :
    ∃ made s1, s.OnGotResolvedName_create E params client resolved_name resolved_instance
      capabilities_ptr fresh = Except.ok (some made, s1) := by
  obtain ⟨created, s2, hc⟩ := Shell.CreateInstance_total E s
    (Shell.finalTarget E params resolved_name resolved_instance)
    (capabilities_ptr.getD GetPermissiveCapabilities)
    (if client.isSome = true then client else some fresh.shell_client) huser hid
    (Shell.find_none_of_GetExistingOrRootInstance E s _ hfree)
  rw [Shell.OnGotResolvedName_create_new E s params client resolved_name resolved_instance
    capabilities_ptr fresh hfree, hc]
  exact ⟨_, _, rfl⟩

/-- The log after the first part of `OnGotResolvedName` created an instance:
the creation events, then the two delivery events. -/
theorem Shell.OnGotResolvedName_create_log {E : Externals} {s s1 s2 : Shell}
    {target : Identity} {spec : CapabilitySpec} {client : Option Handle} {created : Instance}
    (params : ConnectParams)
    (hc : s.CreateInstance E target spec client = Except.ok (created, s2))
    (hs1 : s1 = created.ConnectToClient E s2 params) :
    s1.log = s.log ++
      ((s.instance_listeners.map
          (fun listener => Event.InstanceCreated listener created.CreateInstanceInfo) ++
        [Event.Initialize created.id created.identity]) ++
        created.deliveryEvents E s2 params) ∧
    s1.identity_to_instance = s.identity_to_instance ++ [(target, created)] ∧
    s1.unique_id = created.id ∧
    s1.pending_resolutions = s.pending_resolutions := by
  obtain ⟨-, -, -, -, -, -, -, -, hs2⟩ := Shell.CreateInstance_ok hc
  rw [hs1, Instance.ConnectToClient_eq]
  refine ⟨?_, ?_, ?_, ?_⟩
  · show s2.log ++ _ = _
    rw [hs2]
    simp only [List.append_assoc]
  · show s2.identity_to_instance = _
    rw [hs2]
  · show s2.unique_id = _
    rw [hs2]
  · show s2.pending_resolutions = _
    rw [hs2]

/-- Among the events of a creation and delivery the connect callback runs
once. -/
theorem Shell.creation_callback_once (listeners : List Handle) (created : Instance)
    (E : Externals) (s2 : Shell) (params : ConnectParams) :
    (((listeners.map
          (fun listener => Event.InstanceCreated listener created.CreateInstanceInfo) ++
        [Event.Initialize created.id created.identity]) ++
        created.deliveryEvents E s2 params).filter
      (Event.isConnectCallbackRun params.connect_callback)) =
      [Event.ConnectCallbackRun params.connect_callback ConnectResult.SUCCEEDED
        created.identity.user_id created.id] := by
  rw [List.filter_append, List.filter_append]
  have hnone : (listeners.map
      (fun listener => Event.InstanceCreated listener created.CreateInstanceInfo)).filter
      (Event.isConnectCallbackRun params.connect_callback) = [] := by
    rw [List.filter_eq_nil_iff]
    intro e he
    obtain ⟨l, -, rfl⟩ := List.mem_map.mp he
    simp [Event.isConnectCallbackRun]
  rw [hnone]
  simp [Instance.deliveryEvents, Event.isConnectCallbackRun]

/-- C20: when the resolver returns no manifest and no instance exists for the
final target, `OnGotResolvedName` (for a target user other than the inherit
sentinel, the id counter not exhausted) creates an instance with the
permissive spec, wildcard entry only and nothing provided, registers it under
the final target and delivers the connect to it, the callback running once
with `SUCCEEDED`. Only then comes the backing step, which is all that can
still fail: it returns when a client was supplied or a loader takes the
instance, and otherwise ends in the check on the manifest. -/
theorem OnGotResolvedName_without_manifest (E : Externals) (s : Shell)
    (params : ConnectParams) (client : Option Handle) (resolved_name resolved_instance : String)
    (file_url : Option String) (fresh : FreshHandles)
    (hfree : s.GetExistingOrRootInstance E
      (Shell.finalTarget E params resolved_name resolved_instance) = none)
    (huser : params.target.user_id ≠ E.kInheritUserID)
    (hid : (s.unique_id + 1) % 2 ^ 32 ≠ E.kInvalidInstanceID) :
    ∃ made s1,
      s.OnGotResolvedName_create E params client resolved_name resolved_instance none fresh =
        Except.ok (some made, s1) ∧
      made.created.identity = Shell.finalTarget E params resolved_name resolved_instance ∧
      made.created.capability_spec =
        { provided := [], required := [("*", { interfaces := ["*"], classes := [] })] } ∧
      StdMap.find s1.identity_to_instance
        (Shell.finalTarget E params resolved_name resolved_instance) = some made.created ∧
      (s1.eventsSince s).filter (Event.isConnectCallbackRun params.connect_callback) =
        [Event.ConnectCallbackRun params.connect_callback ConnectResult.SUCCEEDED
          made.created.identity.user_id made.created.id] ∧
      Shell.OnGotResolvedName E s params client resolved_name resolved_instance none file_url
          fresh =
        s1.OnGotResolvedName_launch E made resolved_name none file_url fresh ∧
      (client.isSome = true →
        s1.OnGotResolvedName_launch E made resolved_name none file_url fresh = Except.ok s1) ∧
      (∀ loader, client = none → params.client_process_connection = none →
        s1.GetLoaderForName params.target.name = some loader →
        s1.OnGotResolvedName_launch E made resolved_name none file_url fresh =
          Except.ok (s1.emit
            (Event.LoaderLoad loader params.target.name (some fresh.shell_client)))) ∧
      (client = none →
        (params.client_process_connection ≠ none ∨
          s1.GetLoaderForName params.target.name = none) →
        s1.OnGotResolvedName_launch E made resolved_name none file_url fresh =
          Except.error
            (Fatal.CHECK "CHECK(!file_url.is_null() && !capabilities_ptr.is_null())")) := by
  obtain ⟨made, s1, hcreate⟩ := Shell.OnGotResolvedName_create_total E s params client
    resolved_name resolved_instance none fresh hfree huser hid
  obtain ⟨-, s2, hc, hs1, hmade⟩ := Shell.OnGotResolvedName_create_made hcreate
  obtain ⟨-, hnone, hidentity, hspec, -, -, -, -, -⟩ := Shell.CreateInstance_ok hc
  obtain ⟨hlog, hregistry, -, -⟩ := Shell.OnGotResolvedName_create_log _ hc hs1
  have htarget : made.target = Shell.finalTarget E params resolved_name resolved_instance := by
    rw [hmade]
  have hname : made.target.name = params.target.name := by rw [htarget]; rfl
  have hrequest : made.request = if client.isSome = true then none else some fresh.shell_client := by
    rw [hmade]
  have hcpc : made.client_process_connection = params.client_process_connection := by
    rw [hmade]
  refine ⟨made, s1, hcreate, hidentity, ?_, ?_, ?_, ?_, ?_, ?_, ?_⟩
  · rw [hspec]
    rfl
  · rw [hregistry, StdMap.find_append_singleton, hnone]
    simp
  · rw [Shell.eventsSince_of_log hlog]
    exact Shell.creation_callback_once _ _ E s2 _
  · unfold Shell.OnGotResolvedName
    rw [hcreate]
  · intro hclient
    unfold Shell.OnGotResolvedName_launch
    rw [hrequest]
    simp [hclient]
  · intro loader hclient hnocpc hloader
    unfold Shell.OnGotResolvedName_launch Shell.LoadWithLoader
    rw [hrequest, hcpc, hname, hloader, hclient, hnocpc]
    simp
  · intro hclient hcase
    unfold Shell.OnGotResolvedName_launch Shell.LoadWithLoader
    rw [hrequest, hcpc, hname, hclient]
    rcases hcase with hcase | hcase
    · cases hp : params.client_process_connection with
      | none => exact absurd hp hcase
      | some connection => cases file_url <;> simp
    · rw [hcase]
      cases hp : params.client_process_connection <;> cases file_url <;> simp

/-- C20 at a concrete input: in the booted broker the resolver has no
manifest for `mojo:svc`; the instance 3 is created with the permissive spec
and the callback 7 runs with `SUCCEEDED`, then the run ends in the check. -/
theorem OnGotResolvedName_without_manifest_witness :
    ∃ made s1,
      bootedShell.OnGotResolvedName_create sampleExternals (svcParams 7) none "mojo:svc" "svc"
        none sampleFresh = Except.ok (some made, s1) ∧
      made.created.id = 3 ∧
      made.created.capability_spec = GetPermissiveCapabilities ∧
      (s1.eventsSince bootedShell).filter (Event.isConnectCallbackRun 7) =
        [Event.ConnectCallbackRun 7 ConnectResult.SUCCEEDED sampleUser 3] ∧
      Shell.OnGotResolvedName sampleExternals bootedShell (svcParams 7) none "mojo:svc" "svc"
        none none sampleFresh =
        Except.error
          (Fatal.CHECK "CHECK(!file_url.is_null() && !capabilities_ptr.is_null())") := by
  obtain ⟨made, s1, h1, h2, h3, -, h5, h6, -, -, h9⟩ :=
    OnGotResolvedName_without_manifest sampleExternals bootedShell (svcParams 7) none
      "mojo:svc" "svc" none sampleFresh (by decide) (by decide) (by decide)
  have hid : made.created.id = 3 := by
    have hmade := (Shell.OnGotResolvedName_create_made h1).2
    obtain ⟨s2, hc, -, -⟩ := hmade
    exact (Shell.CreateInstance_ok hc).2.2.2.2.2.2.1
  have huser : made.created.identity.user_id = sampleUser := by rw [h2]; rfl
  have hloader : s1.GetLoaderForName (svcParams 7).target.name = none := by
    have hmade := (Shell.OnGotResolvedName_create_made h1).2
    obtain ⟨s2, hc, hs1, -⟩ := hmade
    have hs2 := (Shell.CreateInstance_ok hc).2.2.2.2.2.2.2.2
    rw [hs1, Instance.ConnectToClient_eq, hs2]
    rfl
  refine ⟨made, s1, h1, hid, h3, ?_, ?_⟩
  · have h5b : (s1.eventsSince bootedShell).filter (Event.isConnectCallbackRun 7) =
        [Event.ConnectCallbackRun 7 ConnectResult.SUCCEEDED made.created.identity.user_id
          made.created.id] := h5
    rw [h5b, hid, huser]
  · rw [h6]
    exact h9 rfl (Or.inr hloader)



/-! ## Theorems: two connects that wait for the resolver -/

/-- `Shell::Connect` only appends to the queue of resolver requests. -/
theorem Shell.Connect_pending (E : Externals) (s : Shell) (params : ConnectParams)
    (client : Option Handle) (s1 : Shell)
    (h : Shell.Connect E s params client = Except.ok s1) :
    ∃ extra, s1.pending_resolutions = s.pending_resolutions ++ extra := by
  unfold Shell.Connect at h
  simp only at h
  split_ifs at h with h1 h2 h3 h4 h5
  · unfold Shell.ConnectToExistingInstance at h
    cases hx : (s.emit (Event.TraceShellConnect params.target.name)).GetExistingOrRootInstance E
        params.target with
    | some inst =>
      rw [hx] at h
      simp only [Except.ok.injEq] at h
      rw [← h, Instance.ConnectToClient_eq]
      exact ⟨[], (List.append_nil _).symm⟩
    | none =>
      rw [hx] at h
      simp only [Except.ok.injEq] at h
      rw [← h]
      exact ⟨_, rfl⟩
  · cases h
    exact ⟨_, rfl⟩

/-- `CreateShellClient` only appends to the queue of resolver requests. -/
theorem Shell.CreateShellClient_pending (E : Externals) (s : Shell)
    (source shell_client_factory : Identity) (name : String) (request : Option Handle)
    (fresh : FreshHandles) (s1 : Shell)
    (h : s.CreateShellClient E source shell_client_factory name request fresh =
      Except.ok s1) :
    ∃ extra, s1.pending_resolutions = s.pending_resolutions ++ extra := by
  unfold Shell.CreateShellClient Shell.GetShellClientFactory ConnectToInterface
    Shell.Connect_1 at h
  cases hf : StdMap.find s.shell_client_factories shell_client_factory with
  | some factory =>
    simp only [hf, Except.ok.injEq] at h
    rw [← h]
    exact ⟨[], (List.append_nil _).symm⟩
  | none =>
    simp only [hf] at h
    cases hc : Shell.Connect E s
        { (ConnectParams.fromTo source shell_client_factory) with
          remote_interfaces := some fresh.remote_interfaces } none with
    | error f => rw [hc] at h; cases h
    | ok s2 =>
      rw [hc] at h
      simp only [Except.ok.injEq] at h
      obtain ⟨extra, hq⟩ := Shell.Connect_pending E s _ none s2 hc
      rw [← h]
      exact ⟨extra, hq⟩

/-- The backing step of `OnGotResolvedName` only appends to the queue of
resolver requests. -/
theorem Shell.OnGotResolvedName_launch_pending (E : Externals) (s : Shell)
    (made : CreatedInstance) (resolved_name : String)
    (capabilities_ptr : Option CapabilitySpec) (file_url : Option String)
    (fresh : FreshHandles) (s1 : Shell)
    (h : s.OnGotResolvedName_launch E made resolved_name capabilities_ptr file_url fresh =
      Except.ok s1) :
    ∃ extra, s1.pending_resolutions = s.pending_resolutions ++ extra := by
  have hlaunch : ∀ s2 : Shell,
      (match file_url, capabilities_ptr with
        | some url, some _ =>
          if made.target.name ≠ resolved_name then
            s.CreateShellClient E made.source
              (Identity.construct E resolved_name made.target.user_id made.instance_name)
              made.target.name made.request fresh
          else
            match made.client_process_connection with
            | some connection =>
              Except.ok (made.created.StartWithClientProcessConnection s made.request
                connection)
            | none =>
              Except.ok (made.created.StartWithFilePath s made.request url fresh.runner)
        | _, _ =>
          Except.error
            (Fatal.CHECK "CHECK(!file_url.is_null() && !capabilities_ptr.is_null())")) =
        Except.ok s2 → ∃ extra, s2.pending_resolutions = s.pending_resolutions ++ extra := by
    intro s2 h2
    cases file_url with
    | none => cases h2
    | some url =>
      cases capabilities_ptr with
      | none => cases h2
      | some caps =>
        simp only at h2
        split_ifs at h2 with hname
        · exact Shell.CreateShellClient_pending E s _ _ _ _ fresh s2 h2
        · cases hcpc : made.client_process_connection with
          | some connection =>
            rw [hcpc] at h2
            simp only [Except.ok.injEq] at h2
            rw [← h2]
            exact ⟨[], (List.append_nil _).symm⟩
          | none =>
            rw [hcpc] at h2
            simp only [Except.ok.injEq] at h2
            rw [← h2]
            exact ⟨[], (List.append_nil _).symm⟩
  unfold Shell.OnGotResolvedName_launch at h
  by_cases hr : (!made.request.isSome) = true
  · simp only [hr, if_true, Except.ok.injEq] at h
    rw [← h]
    exact ⟨[], (List.append_nil _).symm⟩
  · simp only [hr, if_false] at h
    by_cases hc : made.client_process_connection.isNone = true
    · simp only [hc, if_true] at h
      unfold Shell.LoadWithLoader at h
      cases hl : s.GetLoaderForName made.target.name with
      | some loader =>
        rw [hl] at h
        simp only [Bool.false_eq_true, if_false, Except.ok.injEq] at h
        rw [← h]
        exact ⟨[], (List.append_nil _).symm⟩
      | none =>
        rw [hl] at h
        simp only [Bool.false_eq_true, if_false] at h
        exact hlaunch s1 h
    · simp only [hc] at h
      exact hlaunch s1 h

/-- A run of `OnGotResolvedName` that returns, when no instance exists for
the final target: one instance is created and registered under the final
target, the callback has run with `SUCCEEDED` and its id, and the queue of
resolver requests has only grown. -/
theorem Shell.OnGotResolvedName_created (E : Externals) (s : Shell) (params : ConnectParams)
    (client : Option Handle) (resolved_name resolved_instance : String)
    (capabilities_ptr : Option CapabilitySpec) (file_url : Option String)
    (fresh : FreshHandles) (s1 : Shell)
    (hfree : s.GetExistingOrRootInstance E
      (Shell.finalTarget E params resolved_name resolved_instance) = none)
    (h : Shell.OnGotResolvedName E s params client resolved_name resolved_instance
      capabilities_ptr file_url fresh = Except.ok s1) :
    ∃ created,
      created.identity = Shell.finalTarget E params resolved_name resolved_instance ∧
      Shell.Created E s s1 created ∧
      Event.ConnectCallbackRun params.connect_callback ConnectResult.SUCCEEDED
        created.identity.user_id created.id ∈ s1.eventsSince s ∧
      ∃ extra, s1.pending_resolutions = s.pending_resolutions ++ extra := by
  unfold Shell.OnGotResolvedName at h
  cases hcreate : s.OnGotResolvedName_create E params client resolved_name resolved_instance
      capabilities_ptr fresh with
  | error f => rw [hcreate] at h; cases h
  | ok pair =>
    obtain ⟨result, mid⟩ := pair
    cases result with
    | none =>
      rw [Shell.OnGotResolvedName_create_new E s params client resolved_name
        resolved_instance capabilities_ptr fresh hfree] at hcreate
      split at hcreate <;> cases hcreate
    | some made =>
      rw [hcreate] at h
      simp only at h
      obtain ⟨-, s2, hc, hmid, -⟩ := Shell.OnGotResolvedName_create_made hcreate
      obtain ⟨-, hnone, hidentity, -, -, -, hnum, hvalid, -⟩ := Shell.CreateInstance_ok hc
      obtain ⟨hlog, hregistry, hunique, hpending⟩ :=
        Shell.OnGotResolvedName_create_log _ hc hmid
      obtain ⟨hr, hu, events, hl, hcreated⟩ :=
        Shell.OnGotResolvedName_launch_quiet E mid made resolved_name capabilities_ptr
          file_url fresh s1 h
      obtain ⟨extra, hp⟩ :=
        Shell.OnGotResolvedName_launch_pending E mid made resolved_name capabilities_ptr
          file_url fresh s1 h
      have hlog1 : s1.log = s.log ++
          (((s.instance_listeners.map
              (fun listener => Event.InstanceCreated listener made.created.CreateInstanceInfo) ++
            [Event.Initialize made.created.id made.created.identity]) ++
            made.created.deliveryEvents E s2
              { params with
                target := Shell.finalTarget E params resolved_name resolved_instance
                client_process_connection := none }) ++ events) := by
        rw [hl, hlog, List.append_assoc]
      refine ⟨made.created, hidentity, ⟨?_, hnum, hvalid, ?_, ?_, _, hlog1, ?_⟩, ?_, extra, ?_⟩
      · rw [hidentity]; exact hnone
      · rw [hr, hregistry, hidentity]
      · rw [hu, hunique]
      · rw [createdIds_append, createdIds_append, hcreated,
          Instance.deliveryEvents_createdIds]
        simp [createdIds, List.filterMap_append, List.filterMap_map, Event.createdId]
      · rw [Shell.eventsSince_of_log hlog1]
        simp [Instance.deliveryEvents]
      · rw [hp, hpending]

/-- Two requests wait for the resolver, for the same target, and no instance
exists for the final target. When the callback of one has run and returned,
it has created the instance for the final target, and the callback of the
other then returns as a delivery to that instance. -/
theorem Shell.DeliverResolution_race (E : Externals) (sb : Shell) (i j : Nat)
    (name_a name_b : String) (pa pb : ConnectParams) (client_a client_b : Option Handle)
    (resolved_name resolved_instance : String)
    (caps1 caps2 : Option CapabilitySpec) (url1 url2 : Option String)
    (fresh1 fresh2 : FreshHandles) (s1 : Shell)
    (hi : sb.pending_resolutions.get? i = some (name_a, pa, client_a))
    (hj : (sb.pending_resolutions.eraseIdx i).get? j = some (name_b, pb, client_b))
    (htarget : pb.target = pa.target)
    (hfree : sb.GetExistingOrRootInstance E
      (Shell.finalTarget E pa resolved_name resolved_instance) = none)
    (hfirst : sb.DeliverResolution E i resolved_name resolved_instance caps1 url1 fresh1 =
      some (Except.ok s1)) :
    ∃ created s2,
      s1.DeliverResolution E j resolved_name resolved_instance caps2 url2 fresh2 =
        some (Except.ok s2) ∧
      created.identity = Shell.finalTarget E pa resolved_name resolved_instance ∧
      s2.identity_to_instance = sb.identity_to_instance ++
        [(Shell.finalTarget E pa resolved_name resolved_instance, created)] ∧
      createdIds (s2.eventsSince sb) = [created.id] ∧
      Event.ConnectCallbackRun pa.connect_callback ConnectResult.SUCCEEDED
        created.identity.user_id created.id ∈ s1.eventsSince sb ∧
      s2.eventsSince s1 = created.deliveryEvents E s1
        { pb with target := Shell.finalTarget E pa resolved_name resolved_instance } ∧
      (s2.eventsSince s1).filter (Event.isConnectCallbackRun pb.connect_callback) =
        [Event.ConnectCallbackRun pb.connect_callback ConnectResult.SUCCEEDED
          created.identity.user_id created.id] ∧
      s2.identity_to_instance = s1.identity_to_instance ∧
      s2.unique_id = s1.unique_id ∧
      s2.native_runners = s1.native_runners := by
  unfold Shell.DeliverResolution at hfirst
  rw [hi] at hfirst
  simp only [Option.some.injEq] at hfirst
  obtain ⟨created, hidentity, hcreated, hcallback, extra, hpending⟩ :=
    Shell.OnGotResolvedName_created E
      { sb with pending_resolutions := sb.pending_resolutions.eraseIdx i } pa client_a
      resolved_name resolved_instance caps1 url1 fresh1 s1 hfree hfirst
  have hcreated2 : Shell.Created E sb s1 created := hcreated
  have hcallback2 : Event.ConnectCallbackRun pa.connect_callback ConnectResult.SUCCEEDED
      created.identity.user_id created.id ∈ s1.eventsSince sb := hcallback
  have hpending2 : s1.pending_resolutions = sb.pending_resolutions.eraseIdx i ++ extra :=
    hpending
  have hget : s1.pending_resolutions.get? j = some (name_b, pb, client_b) := by
    rw [hpending2]
    have hlt : j < (sb.pending_resolutions.eraseIdx i).length := by
      by_contra hge
      rw [List.get?_eq_none.mpr (Nat.le_of_not_lt hge)] at hj
      cases hj
    rw [List.get?_eq_getElem?, List.getElem?_append_left hlt, ← List.get?_eq_getElem?]
    exact hj
  obtain ⟨hnone, -, -, hregistry, -, events, hlog, hids⟩ := hcreated2
  have hfind : StdMap.find s1.identity_to_instance
      (Shell.finalTarget E pa resolved_name resolved_instance) = some created := by
    rw [hregistry, hidentity, StdMap.find_append_singleton, ← hidentity, hnone]
    simp
  have hfinal : Shell.finalTarget E pb resolved_name resolved_instance =
      Shell.finalTarget E pa resolved_name resolved_instance := by
    unfold Shell.finalTarget Shell.finalInstanceName
    rw [htarget]
  have hfound : Shell.GetExistingOrRootInstance E
      { s1 with pending_resolutions := s1.pending_resolutions.eraseIdx j }
      (Shell.finalTarget E pb resolved_name resolved_instance) = some created := by
    rw [hfinal]
    exact Shell.GetExistingOrRootInstance_of_find E _ _ created hfind
  have hsecond : s1.DeliverResolution E j resolved_name resolved_instance caps2 url2 fresh2 =
      some (Except.ok
        { s1 with
          pending_resolutions := s1.pending_resolutions.eraseIdx j
          log := s1.log ++ created.deliveryEvents E s1
            { pb with target := Shell.finalTarget E pa resolved_name resolved_instance } }) := by
    unfold Shell.DeliverResolution
    rw [hget]
    simp only
    unfold Shell.OnGotResolvedName
    rw [Shell.OnGotResolvedName_create_existing E _ pb client_b resolved_name resolved_instance
      caps2 fresh2 created hfound, hfinal, Instance.ConnectToClient_eq]
    rfl
  have hlog3 : s1.log ++ created.deliveryEvents E s1
      { pb with target := Shell.finalTarget E pa resolved_name resolved_instance } =
      sb.log ++ (events ++ created.deliveryEvents E s1
        { pb with target := Shell.finalTarget E pa resolved_name resolved_instance }) := by
    rw [hlog, List.append_assoc]
  refine ⟨created, _, hsecond, hidentity, ?_, ?_, hcallback2, Shell.eventsSince_of_log rfl,
    ?_, rfl, rfl, rfl⟩
  · show s1.identity_to_instance = _
    rw [hregistry, hidentity]
  · rw [Shell.eventsSince_of_log hlog3, createdIds_append, hids,
      Instance.deliveryEvents_createdIds]
    rfl
  · rw [Shell.eventsSince_of_log rfl]
    exact Instance.deliveryEvents_callback created E s1
      { pb with target := Shell.finalTarget E pa resolved_name resolved_instance }


/-- Where two entries appended to a queue sit, before and after one of them
has been taken out. -/
theorem StdMap.get?_append_pair {α : Type} (l : List α) (a b : α) :
    (l ++ [a, b]).get? l.length = some a ∧
    ((l ++ [a, b]).eraseIdx l.length).get? l.length = some b ∧
    (l ++ [a, b]).get? (l.length + 1) = some b ∧
    ((l ++ [a, b]).eraseIdx (l.length + 1)).get? l.length = some a := by
  induction l with
  | nil => exact ⟨rfl, rfl, rfl, rfl⟩
  | cons x xs ih => exact ih

/-- C17: two `Shell::Connect` calls for the same target, for which no instance
is registered, both wait for the resolver. When the resolver answers both
with the same name and qualifier, and no instance exists for the final target
identity, then in either order: the callback that runs first (and returns)
creates the one instance for the final target and runs its connect callback
with `SUCCEEDED` and the id of that instance; the callback that runs second
returns, logs exactly the two delivery events to that instance, so creates
and launches nothing, and runs its connect callback once with `SUCCEEDED` and
the same id. -/
theorem Connect_race_creates_one_instance (E : Externals) (s : Shell) (p1 p2 : ConnectParams)
    (resolved_name resolved_instance : String)
    (hpre1 : s.ConnectPreconditions E p1 none) (hpre2 : s.ConnectPreconditions E p2 none)
    (htarget : p2.target = p1.target)
    (hwait : s.GetExistingOrRootInstance E p1.target = none)
    (hfree : s.GetExistingOrRootInstance E
      (Shell.finalTarget E p1 resolved_name resolved_instance) = none) :
    ∃ sa sb,
      Shell.Connect_1 E s p1 = Except.ok sa ∧ Shell.Connect_1 E sa p2 = Except.ok sb ∧
      sb.identity_to_instance = s.identity_to_instance ∧
      sb.pending_resolutions =
        s.pending_resolutions ++ [(p1.target.name, p1, none), (p1.target.name, p2, none)] ∧
      ∀ (i : Nat) (pa pb : ConnectParams),
        (i = s.pending_resolutions.length ∧ pa = p1 ∧ pb = p2) ∨
          (i = s.pending_resolutions.length + 1 ∧ pa = p2 ∧ pb = p1) →
        ∀ (caps1 caps2 : Option CapabilitySpec) (url1 url2 : Option String)
          (fresh1 fresh2 : FreshHandles) (s1 : Shell),
          sb.DeliverResolution E i resolved_name resolved_instance caps1 url1 fresh1 =
            some (Except.ok s1) →
          ∃ created s2,
            s1.DeliverResolution E s.pending_resolutions.length resolved_name
              resolved_instance caps2 url2 fresh2 = some (Except.ok s2) ∧
            created.identity = Shell.finalTarget E p1 resolved_name resolved_instance ∧
            s2.identity_to_instance = s.identity_to_instance ++
              [(Shell.finalTarget E p1 resolved_name resolved_instance, created)] ∧
            createdIds (s2.eventsSince sb) = [created.id] ∧
            Event.ConnectCallbackRun pa.connect_callback ConnectResult.SUCCEEDED
              created.identity.user_id created.id ∈ s1.eventsSince sb ∧
            s2.eventsSince s1 = created.deliveryEvents E s1
              { pb with target := Shell.finalTarget E p1 resolved_name resolved_instance } ∧
            (s2.eventsSince s1).filter (Event.isConnectCallbackRun pb.connect_callback) =
              [Event.ConnectCallbackRun pb.connect_callback ConnectResult.SUCCEEDED
                created.identity.user_id created.id] ∧
            s2.identity_to_instance = s1.identity_to_instance ∧
            s2.unique_id = s1.unique_id ∧
            s2.native_runners = s1.native_runners := by
  have hpre2a : Shell.ConnectPreconditions E
      { s with
        log := s.log ++ [Event.TraceShellConnect p1.target.name,
          Event.ResolveMojoName p1.target.name]
        pending_resolutions := s.pending_resolutions ++ [(p1.target.name, p1, none)] }
      p2 none :=
    ⟨hpre2.1, hpre2.2.1, hpre2.2.2.1, fun h => by simp at h⟩
  have hwait2 : Shell.GetExistingOrRootInstance E
      { s with
        log := s.log ++ [Event.TraceShellConnect p1.target.name,
          Event.ResolveMojoName p1.target.name]
        pending_resolutions := s.pending_resolutions ++ [(p1.target.name, p1, none)] }
      p2.target = none := by
    rw [htarget]
    exact hwait
  have hpos := StdMap.get?_append_pair s.pending_resolutions
    (p1.target.name, p1, (none : Option Handle)) (p1.target.name, p2, none)
  refine ⟨_, _, Shell.Connect_unresolved E s p1 none hpre1 (Or.inr hwait),
    Shell.Connect_unresolved E _ p2 none hpre2a (Or.inr hwait2), rfl, ?_, ?_⟩
  · show (s.pending_resolutions ++ [(p1.target.name, p1, none)]) ++
      [(p2.target.name, p2, none)] = _
    rw [htarget, List.append_assoc]
    rfl
  · intro i pa pb horder caps1 caps2 url1 url2 fresh1 fresh2 s1 hfirst
    have hrace : ∀ sb : Shell,
        sb.DeliverResolution E i resolved_name resolved_instance caps1 url1 fresh1 =
          some (Except.ok s1) →
        sb.pending_resolutions =
          s.pending_resolutions ++ [(p1.target.name, p1, none), (p1.target.name, p2, none)] →
        sb.identity_to_instance = s.identity_to_instance →
        ∃ created s2,
          s1.DeliverResolution E s.pending_resolutions.length resolved_name
            resolved_instance caps2 url2 fresh2 = some (Except.ok s2) ∧
          created.identity = Shell.finalTarget E p1 resolved_name resolved_instance ∧
          s2.identity_to_instance = s.identity_to_instance ++
            [(Shell.finalTarget E p1 resolved_name resolved_instance, created)] ∧
          createdIds (s2.eventsSince sb) = [created.id] ∧
          Event.ConnectCallbackRun pa.connect_callback ConnectResult.SUCCEEDED
            created.identity.user_id created.id ∈ s1.eventsSince sb ∧
          s2.eventsSince s1 = created.deliveryEvents E s1
            { pb with target := Shell.finalTarget E p1 resolved_name resolved_instance } ∧
          (s2.eventsSince s1).filter (Event.isConnectCallbackRun pb.connect_callback) =
            [Event.ConnectCallbackRun pb.connect_callback ConnectResult.SUCCEEDED
              created.identity.user_id created.id] ∧
          s2.identity_to_instance = s1.identity_to_instance ∧
          s2.unique_id = s1.unique_id ∧
          s2.native_runners = s1.native_runners := by
      intro sb hrun hp hr
      have hfreeb : sb.GetExistingOrRootInstance E
          (Shell.finalTarget E p1 resolved_name resolved_instance) = none := by
        unfold Shell.GetExistingOrRootInstance Shell.GetExistingInstance at hfree ⊢
        rw [hr]
        exact hfree
      rw [← hr]
      rcases horder with ⟨hi, ha, hb⟩ | ⟨hi, ha, hb⟩
      · subst hi ha hb
        exact Shell.DeliverResolution_race E sb _ _ _ _ pa pb none none resolved_name
          resolved_instance caps1 caps2 url1 url2 fresh1 fresh2 s1
          (by rw [hp]; exact hpos.1) (by rw [hp]; exact hpos.2.1) htarget hfreeb hrun
      · subst hi ha hb
        have hfinal : Shell.finalTarget E pa resolved_name resolved_instance =
            Shell.finalTarget E pb resolved_name resolved_instance := by
          unfold Shell.finalTarget Shell.finalInstanceName
          rw [htarget]
        rw [← hfinal] at hfreeb ⊢
        exact Shell.DeliverResolution_race E sb _ _ _ _ pa pb none none resolved_name
          resolved_instance caps1 caps2 url1 url2 fresh1 fresh2 s1
          (by rw [hp]; exact hpos.2.2.1) (by rw [hp]; exact hpos.2.2.2) htarget.symm hfreeb
          hrun
    exact hrace _ hfirst (by
      show (s.pending_resolutions ++ [(p1.target.name, p1, none)]) ++
        [(p2.target.name, p2, none)] = _
      rw [htarget, List.append_assoc]
      rfl) rfl


/-- C17 at a concrete input: in the booted broker two connects to `mojo:svc`,
with the callbacks 7 and 8, wait for the resolver; it answers both with
`mojo:svc`, `svc` and a manifest. Whichever request is answered first, both
callbacks return, one instance is created for `mojo:svc`, and both connect
callbacks run with `SUCCEEDED` and its id. -/
theorem Connect_race_creates_one_instance_witness :
    ∃ sa,
      Shell.Connect_1 sampleExternals bootedShell (svcParams 7) = Except.ok sa ∧
      Shell.Connect_1 sampleExternals sa (svcParams 8) = Except.ok twoPendingShell ∧
      ∀ index : Nat, index = 0 ∨ index = 1 →
        ∃ (created : Instance) (s1 s2 : Shell),
          twoPendingShell.DeliverResolution sampleExternals index "mojo:svc" "svc"
            (some CapabilitySpec.empty) (some "file:///svc") sampleFresh =
            some (Except.ok s1) ∧
          s1.DeliverResolution sampleExternals 0 "mojo:svc" "svc"
            (some CapabilitySpec.empty) (some "file:///svc") sampleFresh2 =
            some (Except.ok s2) ∧
          created.identity = { name := "mojo:svc", user_id := sampleUser, instance_ := "svc" } ∧
          createdIds (s2.eventsSince twoPendingShell) = [created.id] ∧
          Event.ConnectCallbackRun (if index = 0 then 7 else 8) ConnectResult.SUCCEEDED
            sampleUser created.id ∈ s1.eventsSince twoPendingShell ∧
          (s2.eventsSince s1).filter
              (Event.isConnectCallbackRun (if index = 0 then 8 else 7)) =
            [Event.ConnectCallbackRun (if index = 0 then 8 else 7) ConnectResult.SUCCEEDED
              sampleUser created.id] := by
  obtain ⟨sa, sb, h1, h2, -, -, hall⟩ :=
    Connect_race_creates_one_instance sampleExternals bootedShell (svcParams 7) (svcParams 8)
      "mojo:svc" "svc" ⟨by decide, by decide, by decide, by decide⟩
      ⟨by decide, by decide, by decide, by decide⟩ rfl (by decide) (by decide)
  have e1 : Shell.Connect_1 sampleExternals bootedShell (svcParams 7) =
      Except.ok { bootedShell with
        log := bootedShell.log ++
          [Event.TraceShellConnect "mojo:svc", Event.ResolveMojoName "mojo:svc"]
        pending_resolutions := [("mojo:svc", svcParams 7, none)] } := rfl
  have hsa := Except.ok.inj (h1.symm.trans e1)
  subst hsa
  have e2 : Shell.Connect_1 sampleExternals
      { bootedShell with
        log := bootedShell.log ++
          [Event.TraceShellConnect "mojo:svc", Event.ResolveMojoName "mojo:svc"]
        pending_resolutions := [("mojo:svc", svcParams 7, none)] } (svcParams 8) =
      Except.ok twoPendingShell := rfl
  have hsb := Except.ok.inj (h2.symm.trans e2)
  subst hsb
  refine ⟨_, e1, e2, ?_⟩
  intro index hindex
  rcases hindex with hindex | hindex
  · subst hindex
    obtain ⟨s1, hs1⟩ : ∃ s1, twoPendingShell.DeliverResolution sampleExternals 0 "mojo:svc"
        "svc" (some CapabilitySpec.empty) (some "file:///svc") sampleFresh =
        some (Except.ok s1) := ⟨_, rfl⟩
    obtain ⟨created, s2, r1, r2, -, r4, r5, -, r7, -, -, -⟩ :=
      hall 0 (svcParams 7) (svcParams 8) (Or.inl ⟨rfl, rfl, rfl⟩)
        (some CapabilitySpec.empty) (some CapabilitySpec.empty) (some "file:///svc")
        (some "file:///svc") sampleFresh sampleFresh2 s1 hs1
    have huser : created.identity.user_id = sampleUser := by rw [r2]; rfl
    rw [huser] at r5 r7
    exact ⟨created, s1, s2, hs1, r1, r2, r4, r5, r7⟩
  · subst hindex
    obtain ⟨s1, hs1⟩ : ∃ s1, twoPendingShell.DeliverResolution sampleExternals 1 "mojo:svc"
        "svc" (some CapabilitySpec.empty) (some "file:///svc") sampleFresh =
        some (Except.ok s1) := ⟨_, rfl⟩
    obtain ⟨created, s2, r1, r2, -, r4, r5, -, r7, -, -, -⟩ :=
      hall 1 (svcParams 8) (svcParams 7) (Or.inr ⟨rfl, rfl, rfl⟩)
        (some CapabilitySpec.empty) (some CapabilitySpec.empty) (some "file:///svc")
        (some "file:///svc") sampleFresh sampleFresh2 s1 hs1
    have huser : created.identity.user_id = sampleUser := by rw [r2]; rfl
    rw [huser] at r5 r7
    exact ⟨created, s1, s2, hs1, r1, r2, r4, r5, r7⟩



/-! ## Theorems: the backing of a new instance -/

theorem backingEvents_append (a b : List Event) :
    backingEvents (a ++ b) = backingEvents a ++ backingEvents b := by
  simp [backingEvents, List.filter_append]

/-- The two delivery events are no backing messages. -/
theorem Instance.deliveryEvents_backing (self : Instance) (E : Externals) (shell : Shell)
    (params : ConnectParams) : backingEvents (self.deliveryEvents E shell params) = [] := by
  simp [backingEvents, Instance.deliveryEvents, Event.isBacking]

/-- A run of `Shell::Connect` sends no backing message. -/
theorem Shell.Connect_backing (E : Externals) (s : Shell) (params : ConnectParams)
    (client : Option Handle) (s1 : Shell)
    (h : Shell.Connect E s params client = Except.ok s1) :
    ∃ events, s1.log = s.log ++ events ∧ backingEvents events = [] := by
  unfold Shell.Connect at h
  simp only at h
  split_ifs at h with h1 h2 h3 h4 h5
  · unfold Shell.ConnectToExistingInstance at h
    cases hx : (s.emit (Event.TraceShellConnect params.target.name)).GetExistingOrRootInstance E
        params.target with
    | some inst =>
      rw [hx] at h
      simp only [Except.ok.injEq] at h
      rw [← h, Instance.ConnectToClient_eq]
      refine ⟨Event.TraceShellConnect params.target.name ::
        inst.deliveryEvents E (s.emit (Event.TraceShellConnect params.target.name)) params,
        by simp [Shell.emit], ?_⟩
      simp [backingEvents, Instance.deliveryEvents, Event.isBacking]
    | none =>
      rw [hx] at h
      simp only [Except.ok.injEq] at h
      rw [← h]
      exact ⟨[Event.TraceShellConnect params.target.name,
        Event.ResolveMojoName params.target.name], by simp [Shell.emit], rfl⟩
  · cases h
    exact ⟨[Event.TraceShellConnect params.target.name,
      Event.ResolveMojoName params.target.name], by simp [Shell.emit], rfl⟩

/-- A run of `CreateShellClient` that returns ends with the one message to the
factory; what it logs before is no backing message. -/
theorem Shell.CreateShellClient_backing (E : Externals) (s : Shell)
    (source shell_client_factory : Identity) (name : String) (request : Option Handle)
    (fresh : FreshHandles) (s1 : Shell)
    (h : s.CreateShellClient E source shell_client_factory name request fresh =
      Except.ok s1) :
    ∃ events factory,
      s1.log = s.log ++ (events ++ [Event.FactoryCreateShellClient (some factory) request name]) ∧
      backingEvents events = [] ∧
      s1.identity_to_instance = s.identity_to_instance ∧
      s1.native_runners = s.native_runners := by
  unfold Shell.CreateShellClient Shell.GetShellClientFactory ConnectToInterface
    Shell.Connect_1 at h
  cases hf : StdMap.find s.shell_client_factories shell_client_factory with
  | some factory =>
    simp only [hf, Except.ok.injEq] at h
    rw [← h]
    exact ⟨[], factory, rfl, rfl, rfl, rfl⟩
  | none =>
    simp only [hf] at h
    cases hc : Shell.Connect E s
        { (ConnectParams.fromTo source shell_client_factory) with
          remote_interfaces := some fresh.remote_interfaces } none with
    | error f => rw [hc] at h; cases h
    | ok s2 =>
      rw [hc] at h
      simp only [Except.ok.injEq] at h
      obtain ⟨events, hlog, hbacking⟩ := Shell.Connect_backing E s _ none s2 hc
      obtain ⟨hr, -, -⟩ := Shell.Connect_quiet E s _ none s2 hc
      have hrunners : s2.native_runners = s.native_runners := by
        have hq := hc
        unfold Shell.Connect at hq
        simp only at hq
        split_ifs at hq with h1 h2 h3 h4 h5
        · unfold Shell.ConnectToExistingInstance at hq
          split at hq
          · rename_i b s3 heq
            split at heq
            · cases heq
              simp only [Except.ok.injEq] at hq
              rw [← hq, Instance.ConnectToClient_eq]
              rfl
            · cases heq
          · rename_i b s3 heq
            split at heq
            · cases heq
            · cases heq
              simp only [Except.ok.injEq] at hq
              rw [← hq]
              rfl
        · cases hq
          rfl
      rw [← h]
      refine ⟨events, fresh.factory, ?_, hbacking, hr, hrunners⟩
      show s2.log ++ _ = _
      rw [hlog, List.append_assoc]

/-- The branches of the second part of `OnGotResolvedName`, for a run that
returns. -/
theorem Shell.OnGotResolvedName_launch_cases (E : Externals) (s : Shell)
    (made : CreatedInstance) (resolved_name : String)
    (capabilities_ptr : Option CapabilitySpec) (file_url : Option String)
    (fresh : FreshHandles) (s1 : Shell)
    (h : s.OnGotResolvedName_launch E made resolved_name capabilities_ptr file_url fresh =
      Except.ok s1) :
    (made.request = none ∧ s1 = s) ∨
    (made.request ≠ none ∧ made.client_process_connection = none ∧
      ∃ loader, s.GetLoaderForName made.target.name = some loader ∧
        s1 = s.emit (Event.LoaderLoad loader made.target.name made.request)) ∨
    (made.request ≠ none ∧
      (made.client_process_connection ≠ none ∨ s.GetLoaderForName made.target.name = none) ∧
      ∃ url manifest, file_url = some url ∧ capabilities_ptr = some manifest ∧
        ((made.target.name ≠ resolved_name ∧
            s.CreateShellClient E made.source
              (Identity.construct E resolved_name made.target.user_id made.instance_name)
              made.target.name made.request fresh = Except.ok s1) ∨
          (made.target.name = resolved_name ∧
            ∃ connection, made.client_process_connection = some connection ∧
              s1 = made.created.StartWithClientProcessConnection s made.request connection) ∨
          (made.target.name = resolved_name ∧ made.client_process_connection = none ∧
            s1 = made.created.StartWithFilePath s made.request url fresh.runner))) := by
  have hlaunch : (match file_url, capabilities_ptr with
        | some url, some _ =>
          if made.target.name ≠ resolved_name then
            s.CreateShellClient E made.source
              (Identity.construct E resolved_name made.target.user_id made.instance_name)
              made.target.name made.request fresh
          else
            match made.client_process_connection with
            | some connection =>
              Except.ok (made.created.StartWithClientProcessConnection s made.request
                connection)
            | none =>
              Except.ok (made.created.StartWithFilePath s made.request url fresh.runner)
        | _, _ =>
          Except.error
            (Fatal.CHECK "CHECK(!file_url.is_null() && !capabilities_ptr.is_null())")) =
        Except.ok s1 →
      ∃ url manifest, file_url = some url ∧ capabilities_ptr = some manifest ∧
        ((made.target.name ≠ resolved_name ∧
            s.CreateShellClient E made.source
              (Identity.construct E resolved_name made.target.user_id made.instance_name)
              made.target.name made.request fresh = Except.ok s1) ∨
          (made.target.name = resolved_name ∧
            ∃ connection, made.client_process_connection = some connection ∧
              s1 = made.created.StartWithClientProcessConnection s made.request connection) ∨
          (made.target.name = resolved_name ∧ made.client_process_connection = none ∧
            s1 = made.created.StartWithFilePath s made.request url fresh.runner)) := by
    intro h2
    cases file_url with
    | none => cases h2
    | some url =>
      cases capabilities_ptr with
      | none => cases h2
      | some manifest =>
        simp only at h2
        refine ⟨url, manifest, rfl, rfl, ?_⟩
        split_ifs at h2 with hname
        · exact Or.inl ⟨hname, h2⟩
        · have hsame : made.target.name = resolved_name := not_not.mp hname
          cases hcpc : made.client_process_connection with
          | some connection =>
            rw [hcpc] at h2
            simp only [Except.ok.injEq] at h2
            exact Or.inr (Or.inl ⟨hsame, connection, rfl, h2.symm⟩)
          | none =>
            rw [hcpc] at h2
            simp only [Except.ok.injEq] at h2
            exact Or.inr (Or.inr ⟨hsame, rfl, h2.symm⟩)
  unfold Shell.OnGotResolvedName_launch at h
  cases hreq : made.request with
  | none =>
    rw [hreq] at h
    simp only [Option.isSome_none, Bool.not_false, if_true, Except.ok.injEq] at h
    exact Or.inl ⟨rfl, h.symm⟩
  | some request =>
    have hr : (!made.request.isSome) = false := by rw [hreq]; rfl
    simp only [hr, Bool.false_eq_true, if_false] at h
    rw [← hreq]
    have hne : made.request ≠ none := by rw [hreq]; exact Option.some_ne_none _
    cases hcpc : made.client_process_connection with
    | some connection =>
      have hc : made.client_process_connection.isNone = false := by rw [hcpc]; rfl
      simp only [hc, Bool.false_eq_true, if_false] at h
      have := hlaunch h
      rw [hcpc] at this
      exact Or.inr (Or.inr ⟨hne, Or.inl (Option.some_ne_none _), this⟩)
    | none =>
      have hc : made.client_process_connection.isNone = true := by rw [hcpc]; rfl
      simp only [hc, if_true] at h
      unfold Shell.LoadWithLoader at h
      cases hl : s.GetLoaderForName made.target.name with
      | some loader =>
        rw [hl] at h
        simp only [Except.ok.injEq] at h
        exact Or.inr (Or.inl ⟨hne, rfl, loader, rfl, h.symm⟩)
      | none =>
        rw [hl] at h
        simp only at h
        have := hlaunch h
        rw [hcpc] at this
        exact Or.inr (Or.inr ⟨hne, Or.inr rfl, this⟩)


/-- The state the first part of `OnGotResolvedName` leaves when it has created
an instance: the new entry, the id counter, and the events of the creation and
of the delivery. -/
theorem Shell.OnGotResolvedName_create_state {E : Externals} {s mid : Shell}
    {params : ConnectParams} {client : Option Handle} {resolved_name resolved_instance : String}
    {capabilities_ptr : Option CapabilitySpec} {fresh : FreshHandles} {made : CreatedInstance}
    (h : s.OnGotResolvedName_create E params client resolved_name resolved_instance
      capabilities_ptr fresh = Except.ok (some made, mid)) :
    ∃ s2, s.CreateInstance E (Shell.finalTarget E params resolved_name resolved_instance)
        (capabilities_ptr.getD GetPermissiveCapabilities)
        (if client.isSome = true then client else some fresh.shell_client) =
        Except.ok (made.created, s2) ∧
      mid = { s with
        identity_to_instance := s.identity_to_instance ++
          [(Shell.finalTarget E params resolved_name resolved_instance, made.created)]
        unique_id := made.created.id
        log := s.log ++
          ((s.instance_listeners.map
              (fun listener => Event.InstanceCreated listener made.created.CreateInstanceInfo) ++
            [Event.Initialize made.created.id made.created.identity]) ++
            made.created.deliveryEvents E s2
              { params with
                target := Shell.finalTarget E params resolved_name resolved_instance
                client_process_connection := none }) } := by
  obtain ⟨-, s2, hc, hmid, -⟩ := Shell.OnGotResolvedName_create_made h
  obtain ⟨-, -, -, -, -, -, -, -, hs2⟩ := Shell.CreateInstance_ok hc
  refine ⟨s2, hc, ?_⟩
  rw [hmid, Instance.ConnectToClient_eq]
  have hlog : s2.log ++ made.created.deliveryEvents E s2
      { params with
        target := Shell.finalTarget E params resolved_name resolved_instance
        client_process_connection := none } =
      s.log ++
        ((s.instance_listeners.map
            (fun listener => Event.InstanceCreated listener made.created.CreateInstanceInfo) ++
          [Event.Initialize made.created.id made.created.identity]) ++
          made.created.deliveryEvents E s2
            { params with
              target := Shell.finalTarget E params resolved_name resolved_instance
              client_process_connection := none }) := by
    have : s2.log = s.log ++
        s.instance_listeners.map
          (fun listener => Event.InstanceCreated listener made.created.CreateInstanceInfo) ++
        [Event.Initialize made.created.id made.created.identity] := by rw [hs2]
    rw [this]
    simp only [List.append_assoc]
  rw [hlog]
  have h1 : s2.identity_to_instance = s.identity_to_instance ++
      [(Shell.finalTarget E params resolved_name resolved_instance, made.created)] := by
    rw [hs2]
  have h2 : s2.unique_id = made.created.id := by rw [hs2]
  have h3 : s2.name_to_loader = s.name_to_loader := by rw [hs2]
  have h4 : s2.default_loader = s.default_loader := by rw [hs2]
  have h5 : s2.shell_client_factories = s.shell_client_factories := by rw [hs2]
  have h6 : s2.instance_listeners = s.instance_listeners := by rw [hs2]
  have h7 : s2.instance_quit_callback = s.instance_quit_callback := by rw [hs2]
  have h8 : s2.native_runners = s.native_runners := by rw [hs2]
  have h9 : s2.pending_resolutions = s.pending_resolutions := by rw [hs2]
  cases s2
  simp only at h1 h2 h3 h4 h5 h6 h7 h8 h9
  simp only [h1, h2, h3, h4, h5, h6, h7, h8, h9]

/-- C21: a run of `OnGotResolvedName` that creates an instance and returns
backs it by exactly one of the five strategies. The backing messages it logs
after the delivery are those of one strategy: none when a client was provided,
else `Load` when the request carried no client process connection and a loader
answers for the name, else `CreateShellClient` on the factory of the resolved
package when the resolved name differs, else the client process connection
when there is one, else the native runner; and the state left is the one that
strategy leaves. -/
theorem OnGotResolvedName_one_backing_strategy (E : Externals) (s mid s1 : Shell)
    (params : ConnectParams) (client : Option Handle)
    (resolved_name resolved_instance : String) (capabilities_ptr : Option CapabilitySpec)
    (file_url : Option String) (fresh : FreshHandles) (made : CreatedInstance)
    (hcreate : s.OnGotResolvedName_create E params client resolved_name resolved_instance
      capabilities_ptr fresh = Except.ok (some made, mid))
    (hrun : Shell.OnGotResolvedName E s params client resolved_name resolved_instance
      capabilities_ptr file_url fresh = Except.ok s1) :
    BackingStrategy.ofEvents (backingEvents (s1.eventsSince mid)) =
      some
        (if client.isSome = true then BackingStrategy.DirectClient
         else if params.client_process_connection = none ∧
             (s.GetLoaderForName params.target.name).isSome = true then
           BackingStrategy.LoaderLoad
         else if params.target.name ≠ resolved_name then BackingStrategy.CreateShellClient
         else if params.client_process_connection.isSome = true then
           BackingStrategy.StartWithClientProcessConnection
         else BackingStrategy.StartWithFilePath) ∧
    ((client.isSome = true ∧ s1 = mid) ∨
      (client = none ∧ params.client_process_connection = none ∧
        ∃ loader, s.GetLoaderForName params.target.name = some loader ∧
          s1 = mid.emit
            (Event.LoaderLoad loader params.target.name (some fresh.shell_client))) ∨
      (client = none ∧
        (params.client_process_connection ≠ none ∨
          s.GetLoaderForName params.target.name = none) ∧
        params.target.name ≠ resolved_name ∧
        mid.CreateShellClient E params.source
          (Identity.construct E resolved_name params.target.user_id
            (Shell.finalInstanceName E params resolved_name resolved_instance))
          params.target.name (some fresh.shell_client) fresh = Except.ok s1) ∨
      (client = none ∧ params.target.name = resolved_name ∧
        ∃ connection, params.client_process_connection = some connection ∧
          s1 = made.created.StartWithClientProcessConnection mid (some fresh.shell_client)
            connection) ∨
      (client = none ∧ params.client_process_connection = none ∧
        s.GetLoaderForName params.target.name = none ∧
        params.target.name = resolved_name ∧
        ∃ url, file_url = some url ∧
          s1 = made.created.StartWithFilePath mid (some fresh.shell_client) url
            fresh.runner)) := by
  obtain ⟨-, s2, -, -, hmade⟩ := Shell.OnGotResolvedName_create_made hcreate
  obtain ⟨s3, -, hmid⟩ := Shell.OnGotResolvedName_create_state hcreate
  have hlaunch : mid.OnGotResolvedName_launch E made resolved_name capabilities_ptr file_url
      fresh = Except.ok s1 := by
    unfold Shell.OnGotResolvedName at hrun
    rw [hcreate] at hrun
    exact hrun
  have hloader : mid.GetLoaderForName params.target.name =
      s.GetLoaderForName params.target.name := by
    rw [hmid]
    rfl
  have hname : made.target.name = params.target.name := by rw [hmade]; rfl
  have huser : made.target.user_id = params.target.user_id := by rw [hmade]; rfl
  have hsource : made.source = params.source := by rw [hmade]
  have hqual : made.instance_name =
      Shell.finalInstanceName E params resolved_name resolved_instance := by rw [hmade]
  have hcpc : made.client_process_connection = params.client_process_connection := by
    rw [hmade]
  have hrequest : made.request =
      if client.isSome = true then none else some fresh.shell_client := by rw [hmade]
  rcases Shell.OnGotResolvedName_launch_cases E mid made resolved_name capabilities_ptr
      file_url fresh s1 hlaunch with
    ⟨hreq, hs1⟩ | ⟨hreq, hnocpc, loader, hl, hs1⟩ | ⟨hreq, hguard, url, manifest, hurl, -, hbranch⟩
  · have hclient : client.isSome = true := by
      by_contra hc
      rw [hrequest, if_neg hc] at hreq
      cases hreq
    refine ⟨?_, Or.inl ⟨hclient, hs1⟩⟩
    rw [hs1, Shell.eventsSince_of_log (List.append_nil mid.log).symm, if_pos hclient]
    rfl
  · have hclient : ¬ client.isSome = true := by
      intro hc
      rw [hrequest, if_pos hc] at hreq
      exact hreq rfl
    have hnone : client = none := by
      cases client with
      | none => rfl
      | some c => exact absurd rfl hclient
    rw [hrequest, if_neg hclient] at hs1
    rw [hname, hloader] at hl
    rw [hname] at hs1
    rw [hcpc] at hnocpc
    refine ⟨?_, Or.inr (Or.inl ⟨hnone, hnocpc, loader, hl, hs1⟩)⟩
    rw [hs1, Shell.eventsSince_of_log rfl, if_neg hclient, if_pos ⟨hnocpc, by rw [hl]; rfl⟩]
    rfl
  · have hclient : ¬ client.isSome = true := by
      intro hc
      rw [hrequest, if_pos hc] at hreq
      exact hreq rfl
    have hnone : client = none := by
      cases client with
      | none => rfl
      | some c => exact absurd rfl hclient
    rw [hrequest, if_neg hclient] at hbranch
    rw [hname, hloader, hcpc] at hguard
    rw [hname, huser, hsource, hqual, hcpc] at hbranch
    have hnotloader : ¬ (params.client_process_connection = none ∧
        (s.GetLoaderForName params.target.name).isSome = true) := by
      rintro ⟨h1, h2⟩
      rcases hguard with hg | hg
      · exact hg h1
      · rw [hg] at h2
        cases h2
    rcases hbranch with ⟨halias, hcsc⟩ | ⟨hsame, connection, hconn, hs1⟩ | ⟨hsame, hnocpc, hs1⟩
    · obtain ⟨events, factory, hlog, hbacking, -, -⟩ :=
        Shell.CreateShellClient_backing E mid _ _ _ _ fresh s1 hcsc
      refine ⟨?_, Or.inr (Or.inr (Or.inl ⟨hnone, hguard, halias, hcsc⟩))⟩
      rw [Shell.eventsSince_of_log hlog, backingEvents_append, hbacking, if_neg hclient,
        if_neg hnotloader, if_pos halias]
      rfl
    · refine ⟨?_, Or.inr (Or.inr (Or.inr (Or.inl ⟨hnone, hsame, connection, hconn, hs1⟩)))⟩
      have hlog : s1.log = mid.log ++
          [Event.BindPIDReceiver made.created.id connection.pid_receiver_request,
           Event.FactoryCreateShellClient connection.shell_client_factory
             (some fresh.shell_client) made.created.identity.name] := by
        rw [hs1]
        simp [Instance.StartWithClientProcessConnection, Shell.emit]
      rw [Shell.eventsSince_of_log hlog, if_neg hclient, if_neg hnotloader,
        if_neg (not_not.mpr hsame), if_pos (by rw [hconn]; rfl)]
      rfl
    · have hnoloader : s.GetLoaderForName params.target.name = none := by
        rcases hguard with hg | hg
        · exact absurd hnocpc hg
        · exact hg
      refine ⟨?_, Or.inr (Or.inr (Or.inr (Or.inr
        ⟨hnone, hnocpc, hnoloader, hsame, url, hurl, hs1⟩)))⟩
      have hlog : s1.log = mid.log ++
          [Event.RunnerStart fresh.runner url made.created.identity false
            (some fresh.shell_client)] := by
        rw [hs1]
        simp [Instance.StartWithFilePath, Shell.emit]
      rw [Shell.eventsSince_of_log hlog, if_neg hclient, if_neg hnotloader,
        if_neg (not_not.mpr hsame), if_neg (by rw [hnocpc]; simp)]
      rfl

/-- C21 at a concrete input: in the booted broker the resolver answers the
connect to `mojo:svc` with the same name and a manifest; the instance is
backed by the native runner, and by nothing else. -/
theorem OnGotResolvedName_one_backing_strategy_witness :
    ∃ made mid s1,
      bootedShell.OnGotResolvedName_create sampleExternals (svcParams 7) none "mojo:svc" "svc"
        (some CapabilitySpec.empty) sampleFresh2 = Except.ok (some made, mid) ∧
      Shell.OnGotResolvedName sampleExternals bootedShell (svcParams 7) none "mojo:svc" "svc"
        (some CapabilitySpec.empty) (some "file:///svc") sampleFresh2 = Except.ok s1 ∧
      BackingStrategy.ofEvents (backingEvents (s1.eventsSince mid)) =
        some BackingStrategy.StartWithFilePath := by
  obtain ⟨made, mid, hcreate⟩ : ∃ made mid,
      bootedShell.OnGotResolvedName_create sampleExternals (svcParams 7) none "mojo:svc" "svc"
        (some CapabilitySpec.empty) sampleFresh2 = Except.ok (some made, mid) := ⟨_, _, rfl⟩
  obtain ⟨s1, hrun⟩ : ∃ s1,
      Shell.OnGotResolvedName sampleExternals bootedShell (svcParams 7) none "mojo:svc" "svc"
        (some CapabilitySpec.empty) (some "file:///svc") sampleFresh2 = Except.ok s1 :=
    ⟨_, rfl⟩
  exact ⟨made, mid, s1, hcreate, hrun,
    (OnGotResolvedName_one_backing_strategy sampleExternals bootedShell mid s1 (svcParams 7)
      none "mojo:svc" "svc" (some CapabilitySpec.empty) (some "file:///svc") sampleFresh2 made
      hcreate hrun).1.trans (by decide)⟩



/-- C22 (amended): a request without a client that carries a client process
connection gets a new instance whose backing never asks a loader, whether or
not one answers for the name. When the resolver returned a manifest and a file
URL and the resolved name is the requested one, the instance is bound to the
pair by `StartWithClientProcessConnection`. When the resolved name differs,
the branch of the package alias comes first: `CreateShellClient` on the
factory of the resolved package is used and the pair is left unbound. Without
a manifest or a file URL the run ends in the fatal check. -/
theorem OnGotResolvedName_client_process_connection (E : Externals) (s : Shell)
    (params : ConnectParams) (connection : ClientProcessConnection)
    (resolved_name resolved_instance : String) (capabilities_ptr : Option CapabilitySpec)
    (file_url : Option String) (fresh : FreshHandles)
    (hconnection : params.client_process_connection = some connection)
    (hfree : s.GetExistingOrRootInstance E
      (Shell.finalTarget E params resolved_name resolved_instance) = none)
    (huser : params.target.user_id ≠ E.kInheritUserID)
    (hid : (s.unique_id + 1) % 2 ^ 32 ≠ E.kInvalidInstanceID) :
    ∃ made mid,
      s.OnGotResolvedName_create E params none resolved_name resolved_instance
        capabilities_ptr fresh = Except.ok (some made, mid) ∧
      (params.target.name = resolved_name → capabilities_ptr ≠ none → file_url ≠ none →
        Shell.OnGotResolvedName E s params none resolved_name resolved_instance
            capabilities_ptr file_url fresh =
          Except.ok (made.created.StartWithClientProcessConnection mid
            (some fresh.shell_client) connection)) ∧
      (params.target.name ≠ resolved_name → capabilities_ptr ≠ none → file_url ≠ none →
        Shell.OnGotResolvedName E s params none resolved_name resolved_instance
            capabilities_ptr file_url fresh =
          mid.CreateShellClient E params.source
            (Identity.construct E resolved_name params.target.user_id
              (Shell.finalInstanceName E params resolved_name resolved_instance))
            params.target.name (some fresh.shell_client) fresh) ∧
      (capabilities_ptr = none ∨ file_url = none →
        Shell.OnGotResolvedName E s params none resolved_name resolved_instance
            capabilities_ptr file_url fresh =
          Except.error
            (Fatal.CHECK "CHECK(!file_url.is_null() && !capabilities_ptr.is_null())")) ∧
      (∀ s1, Shell.OnGotResolvedName E s params none resolved_name resolved_instance
          capabilities_ptr file_url fresh = Except.ok s1 →
        BackingStrategy.ofEvents (backingEvents (s1.eventsSince mid)) =
          some (if params.target.name ≠ resolved_name then BackingStrategy.CreateShellClient
            else BackingStrategy.StartWithClientProcessConnection)) := by
  obtain ⟨made, mid, hcreate⟩ := Shell.OnGotResolvedName_create_total E s params none
    resolved_name resolved_instance capabilities_ptr fresh hfree huser hid
  obtain ⟨-, s2, -, -, hmade⟩ := Shell.OnGotResolvedName_create_made hcreate
  have hname : made.target.name = params.target.name := by rw [hmade]; rfl
  have huser2 : made.target.user_id = params.target.user_id := by rw [hmade]; rfl
  have hsource : made.source = params.source := by rw [hmade]
  have hqual : made.instance_name =
      Shell.finalInstanceName E params resolved_name resolved_instance := by rw [hmade]
  have hcpc : made.client_process_connection = some connection := by
    rw [hmade]
    exact hconnection
  have hrequest : made.request = some fresh.shell_client := by rw [hmade]; rfl
  have hrun : Shell.OnGotResolvedName E s params none resolved_name resolved_instance
      capabilities_ptr file_url fresh =
      mid.OnGotResolvedName_launch E made resolved_name capabilities_ptr file_url fresh := by
    unfold Shell.OnGotResolvedName
    rw [hcreate]
  refine ⟨made, mid, hcreate, ?_, ?_, ?_, ?_⟩
  · intro hsame hcaps hurl
    rw [hrun]
    unfold Shell.OnGotResolvedName_launch
    rw [hrequest, hcpc, hname]
    cases capabilities_ptr with
    | none => exact absurd rfl hcaps
    | some manifest =>
      cases file_url with
      | none => exact absurd rfl hurl
      | some url => simp [hsame]
  · intro halias hcaps hurl
    rw [hrun]
    unfold Shell.OnGotResolvedName_launch
    rw [hrequest, hcpc, hname, huser2, hsource, hqual]
    cases capabilities_ptr with
    | none => exact absurd rfl hcaps
    | some manifest =>
      cases file_url with
      | none => exact absurd rfl hurl
      | some url => simp [halias]
  · intro hnull
    rw [hrun]
    unfold Shell.OnGotResolvedName_launch
    rw [hrequest, hcpc]
    rcases hnull with hnull | hnull
    · rw [hnull]
      cases file_url <;> simp
    · rw [hnull]
      simp
  · intro s1 hs1
    have h21 := hs1
    rw [hrun] at h21
    rcases Shell.OnGotResolvedName_launch_cases E mid made resolved_name capabilities_ptr
        file_url fresh s1 h21 with
      ⟨hreq, -⟩ | ⟨-, hnocpc, -⟩ | ⟨-, -, url, manifest, -, -, hbranch⟩
    · rw [hrequest] at hreq
      cases hreq
    · rw [hcpc] at hnocpc
      cases hnocpc
    · rw [hname] at hbranch
      rcases hbranch with ⟨halias, hcsc⟩ | ⟨hsame, c, hc, hs⟩ | ⟨-, hnocpc, -⟩
      · obtain ⟨events, factory, hlog, hbacking, -, -⟩ :=
          Shell.CreateShellClient_backing E mid _ _ _ _ fresh s1 hcsc
        rw [Shell.eventsSince_of_log hlog, backingEvents_append, hbacking, if_pos halias]
        rfl
      · have hlog : s1.log = mid.log ++
            [Event.BindPIDReceiver made.created.id c.pid_receiver_request,
             Event.FactoryCreateShellClient c.shell_client_factory made.request
               made.created.identity.name] := by
          rw [hs]
          simp [Instance.StartWithClientProcessConnection, Shell.emit]
        rw [Shell.eventsSince_of_log hlog, if_neg (not_not.mpr hsame)]
        rfl
      · rw [hcpc] at hnocpc
        cases hnocpc

/-- C22 (amended) at a concrete input: the loader 80 answers for `mojo:svc`,
yet the connect that carries the factory 300 and the pid receiver request 301
is bound to that pair when the resolver answers with the same name. -/
theorem OnGotResolvedName_client_process_connection_witness :
    loaderShell.GetLoaderForName "mojo:svc" = some 80 ∧
    ∃ made mid,
      loaderShell.OnGotResolvedName_create sampleExternals (clientProcessParams 7) none
        "mojo:svc" "svc" (some CapabilitySpec.empty) sampleFresh2 =
        Except.ok (some made, mid) ∧
      Shell.OnGotResolvedName sampleExternals loaderShell (clientProcessParams 7) none
          "mojo:svc" "svc" (some CapabilitySpec.empty) (some "file:///svc") sampleFresh2 =
        Except.ok (made.created.StartWithClientProcessConnection mid (some 200)
          { shell_client_factory := some 300, pid_receiver_request := some 301 }) := by
  obtain ⟨made, mid, hcreate, hbound, -, -, -⟩ :=
    OnGotResolvedName_client_process_connection sampleExternals loaderShell
      (clientProcessParams 7) { shell_client_factory := some 300, pid_receiver_request := some 301 }
      "mojo:svc" "svc" (some CapabilitySpec.empty) (some "file:///svc") sampleFresh2 rfl
      (by decide) (by decide) (by decide)
  exact ⟨by decide, made, mid, hcreate, hbound rfl (by simp) (by simp)⟩

/-- C22 as stated fails: the connect carries the factory 300 and the pid
receiver request 301, the resolver answers with the package `mojo:pkg`, and
the new instance is handed to the factory of that package by
`CreateShellClient`; the pid receiver is never bound. With no manifest the
run ends in the fatal check and binds nothing either. -/
theorem OnGotResolvedName_client_process_connection_counterexample :
    (clientProcessParams 7).client_process_connection =
      some { shell_client_factory := some 300, pid_receiver_request := some 301 } ∧
    Except.map (fun s1 => s1.eventsSince bootedShell)
        (Shell.OnGotResolvedName sampleExternals bootedShell (clientProcessParams 7) none
          "mojo:pkg" "svc" (some CapabilitySpec.empty) (some "file:///pkg") sampleFresh2) =
      Except.ok
        [Event.Initialize 3 { name := "mojo:svc", user_id := sampleUser, instance_ := "svc" },
         Event.ConnectCallbackRun 7 ConnectResult.SUCCEEDED sampleUser 3,
         Event.AcceptConnection 3 (CreateShellIdentity sampleExternals) 1 none none
           { interfaces := ["*"], classes := [] } "mojo:svc",
         Event.TraceShellConnect "mojo:pkg",
         Event.ResolveMojoName "mojo:pkg",
         Event.FactoryCreateShellClient (some 202) (some 200) "mojo:svc"] ∧
    Shell.OnGotResolvedName sampleExternals bootedShell (clientProcessParams 7) none
        "mojo:svc" "svc" none none sampleFresh2 =
      Except.error (Fatal.CHECK "CHECK(!file_url.is_null() && !capabilities_ptr.is_null())") :=
  ⟨rfl, rfl, rfl⟩



/-- A run of the second part of `OnGotResolvedName` that returns only appends
to the log. -/
theorem Shell.OnGotResolvedName_launch_log (E : Externals) (s : Shell)
    (made : CreatedInstance) (resolved_name : String)
    (capabilities_ptr : Option CapabilitySpec) (file_url : Option String)
    (fresh : FreshHandles) (s1 : Shell)
    (h : s.OnGotResolvedName_launch E made resolved_name capabilities_ptr file_url fresh =
      Except.ok s1) :
    ∃ events, s1.log = s.log ++ events ∧
      s1.identity_to_instance = s.identity_to_instance := by
  obtain ⟨hr, -, events, hlog, -⟩ :=
    Shell.OnGotResolvedName_launch_quiet E s made resolved_name capabilities_ptr file_url
      fresh s1 h
  exact ⟨events, hlog, hr⟩

/-- C23: when `OnGotResolvedName` creates an instance, the steps come in this
order. The instance is entered into the registry; from that state every
listener, in order, is sent `InstanceCreated` with the info of the instance,
and the instance is sent `Initialize`; then the connect is delivered to it;
no backing message is logged up to here. Only then comes the backing step,
whatever it is: it starts from the state after the delivery, also when it ends
in the fatal check, and a run that returns has logged all its backing messages
after the delivery events, with the instance still registered. -/
theorem OnGotResolvedName_creation_order (E : Externals) (s mid : Shell)
    (params : ConnectParams) (client : Option Handle)
    (resolved_name resolved_instance : String) (capabilities_ptr : Option CapabilitySpec)
    (fresh : FreshHandles) (made : CreatedInstance)
    (hcreate : s.OnGotResolvedName_create E params client resolved_name resolved_instance
      capabilities_ptr fresh = Except.ok (some made, mid)) :
    ∃ registered notified,
      registered =
        { s with
          identity_to_instance := s.identity_to_instance ++
            [(Shell.finalTarget E params resolved_name resolved_instance, made.created)]
          unique_id := made.created.id } ∧
      StdMap.find registered.identity_to_instance
        (Shell.finalTarget E params resolved_name resolved_instance) = some made.created ∧
      notified =
        (registered.ForAllPtrs
          (fun listener => Event.InstanceCreated listener made.created.CreateInstanceInfo)).emit
          (Event.Initialize made.created.id made.created.identity) ∧
      s.CreateInstance E (Shell.finalTarget E params resolved_name resolved_instance)
        (capabilities_ptr.getD GetPermissiveCapabilities)
        (if client.isSome = true then client else some fresh.shell_client) =
        Except.ok (made.created, notified) ∧
      mid = made.created.ConnectToClient E notified
        { params with
          target := Shell.finalTarget E params resolved_name resolved_instance
          client_process_connection := none } ∧
      mid.eventsSince s =
        s.instance_listeners.map
            (fun listener => Event.InstanceCreated listener made.created.CreateInstanceInfo) ++
          Event.Initialize made.created.id made.created.identity ::
            made.created.deliveryEvents E notified
              { params with
                target := Shell.finalTarget E params resolved_name resolved_instance
                client_process_connection := none } ∧
      backingEvents (mid.eventsSince s) = [] ∧
      ∀ file_url : Option String,
        Shell.OnGotResolvedName E s params client resolved_name resolved_instance
            capabilities_ptr file_url fresh =
          mid.OnGotResolvedName_launch E made resolved_name capabilities_ptr file_url fresh ∧
        ∀ s1, Shell.OnGotResolvedName E s params client resolved_name resolved_instance
            capabilities_ptr file_url fresh = Except.ok s1 →
          ∃ launch_events,
            s1.eventsSince s = mid.eventsSince s ++ launch_events ∧
            backingEvents (s1.eventsSince s) = backingEvents launch_events ∧
            StdMap.find s1.identity_to_instance
              (Shell.finalTarget E params resolved_name resolved_instance) =
              some made.created := by
  obtain ⟨-, s2, hc, hmid, -⟩ := Shell.OnGotResolvedName_create_made hcreate
  obtain ⟨-, hnone, -, -, -, -, -, -, hs2⟩ := Shell.CreateInstance_ok hc
  obtain ⟨hlog, hregistry, -, -⟩ := Shell.OnGotResolvedName_create_log _ hc hmid
  have hfind : StdMap.find (s.identity_to_instance ++
      [(Shell.finalTarget E params resolved_name resolved_instance, made.created)])
      (Shell.finalTarget E params resolved_name resolved_instance) = some made.created := by
    rw [StdMap.find_append_singleton, hnone]
    simp
  have hnotified : s2 =
      (Shell.ForAllPtrs
        { s with
          identity_to_instance := s.identity_to_instance ++
            [(Shell.finalTarget E params resolved_name resolved_instance, made.created)]
          unique_id := made.created.id }
        (fun listener => Event.InstanceCreated listener made.created.CreateInstanceInfo)).emit
        (Event.Initialize made.created.id made.created.identity) := by
    rw [hs2, Shell.ForAllPtrs_eq]
    rfl
  have hevents : mid.eventsSince s =
      s.instance_listeners.map
          (fun listener => Event.InstanceCreated listener made.created.CreateInstanceInfo) ++
        Event.Initialize made.created.id made.created.identity ::
          made.created.deliveryEvents E s2
            { params with
              target := Shell.finalTarget E params resolved_name resolved_instance
              client_process_connection := none } := by
    rw [Shell.eventsSince_of_log hlog]
    simp only [List.append_assoc, List.singleton_append]
  have hquiet : backingEvents (mid.eventsSince s) = [] := by
    rw [hevents, backingEvents_append]
    have h1 : backingEvents (s.instance_listeners.map
        (fun listener => Event.InstanceCreated listener made.created.CreateInstanceInfo)) =
        [] := by
      unfold backingEvents
      rw [List.filter_eq_nil_iff]
      intro e he
      obtain ⟨l, -, rfl⟩ := List.mem_map.mp he
      simp [Event.isBacking]
    rw [h1]
    simp [backingEvents, Instance.deliveryEvents, Event.isBacking]
  refine ⟨_, _, rfl, hfind, rfl, ?_, ?_, ?_, hquiet, ?_⟩
  · rw [← hnotified]
    exact hc
  · rw [← hnotified]
    exact hmid
  · rw [← hnotified]
    exact hevents
  · intro file_url
    have hrun : Shell.OnGotResolvedName E s params client resolved_name resolved_instance
        capabilities_ptr file_url fresh =
        mid.OnGotResolvedName_launch E made resolved_name capabilities_ptr file_url fresh := by
      unfold Shell.OnGotResolvedName
      rw [hcreate]
    refine ⟨hrun, ?_⟩
    intro s1 hs1
    rw [hrun] at hs1
    obtain ⟨launch_events, hl, hr⟩ := Shell.OnGotResolvedName_launch_log E mid made
      resolved_name capabilities_ptr file_url fresh s1 hs1
    have hlog1 : s1.log = s.log ++ (mid.eventsSince s ++ launch_events) := by
      rw [hl, hlog, Shell.eventsSince_of_log hlog, List.append_assoc]
    refine ⟨launch_events, Shell.eventsSince_of_log hlog1, ?_, ?_⟩
    · rw [Shell.eventsSince_of_log hlog1, backingEvents_append, hquiet, List.nil_append]
    · rw [hr, hregistry]
      exact hfind

/-- C23 at a concrete input: two listeners watch the broker when the resolver
answers the connect to `mojo:svc`. The instance 4 is registered, both
listeners are sent `InstanceCreated` for it, then come `Initialize` and the
two delivery events. -/
theorem OnGotResolvedName_creation_order_witness :
    ∃ (made : CreatedInstance) (mid registered notified : Shell),
      observedShell.OnGotResolvedName_create sampleExternals (svcParams 7) none "mojo:svc"
        "svc" (some CapabilitySpec.empty) sampleFresh2 = Except.ok (some made, mid) ∧
      made.created.id = 4 ∧
      StdMap.find registered.identity_to_instance
        { name := "mojo:svc", user_id := sampleUser, instance_ := "svc" } =
        some made.created ∧
      mid.eventsSince observedShell =
        [Event.InstanceCreated 60 made.created.CreateInstanceInfo,
         Event.InstanceCreated 61 made.created.CreateInstanceInfo,
         Event.Initialize 4 made.created.identity] ++
          made.created.deliveryEvents sampleExternals notified
            { (svcParams 7) with
              target := { name := "mojo:svc", user_id := sampleUser, instance_ := "svc" }
              client_process_connection := none } := by
  obtain ⟨made, mid, hcreate⟩ : ∃ made mid,
      observedShell.OnGotResolvedName_create sampleExternals (svcParams 7) none "mojo:svc"
        "svc" (some CapabilitySpec.empty) sampleFresh2 = Except.ok (some made, mid) :=
    ⟨_, _, rfl⟩
  obtain ⟨registered, notified, -, hfind, -, hc, -, hevents, -, -⟩ :=
    OnGotResolvedName_creation_order sampleExternals observedShell mid (svcParams 7) none
      "mojo:svc" "svc" (some CapabilitySpec.empty) sampleFresh2 made hcreate
  have hid : made.created.id = 4 := (Shell.CreateInstance_ok hc).2.2.2.2.2.2.1
  refine ⟨made, mid, registered, notified, hcreate, hid, hfind, ?_⟩
  rw [hevents, hid]
  rfl



/-! ## Theorems: the loader map -/

theorem StdMap.find_assign_self {K V : Type} [DecidableEq K] (m : StdMap K V) (k : K) (v : V) :
    StdMap.find (StdMap.assign m k v) k = some v := by
  induction m with
  | nil => simp [StdMap.assign, StdMap.find]
  | cons entry rest ih =>
    obtain ⟨k0, v0⟩ := entry
    unfold StdMap.assign
    by_cases h : k0 = k
    · rw [if_pos h]
      unfold StdMap.find
      rw [if_pos h]
    · rw [if_neg h]
      unfold StdMap.find
      rw [if_neg h]
      exact ih

theorem StdMap.find_assign_ne {K V : Type} [DecidableEq K] (m : StdMap K V) (k k1 : K) (v : V)
    (h : k1 ≠ k) : StdMap.find (StdMap.assign m k v) k1 = StdMap.find m k1 := by
  induction m with
  | nil =>
    unfold StdMap.assign StdMap.find
    rw [if_neg (Ne.symm h)]
    rfl
  | cons entry rest ih =>
    obtain ⟨k0, v0⟩ := entry
    unfold StdMap.assign
    by_cases h0 : k0 = k
    · rw [if_pos h0]
      unfold StdMap.find
      have hne : ¬ k0 = k1 := by rw [h0]; exact Ne.symm h
      rw [if_neg hne, if_neg hne]
    · rw [if_neg h0]
      unfold StdMap.find
      by_cases h1 : k0 = k1
      · rw [if_pos h1, if_pos h1]
      · rw [if_neg h1, if_neg h1]
        exact ih

/-- The assignment `m[k] = v` leaves the keys as they are, or appends `k` when
it was absent. -/
theorem StdMap.assign_keys {K V : Type} [DecidableEq K] (m : StdMap K V) (k : K) (v : V) :
    (StdMap.assign m k v).map Prod.fst =
      if k ∈ m.map Prod.fst then m.map Prod.fst else m.map Prod.fst ++ [k] := by
  induction m with
  | nil => simp [StdMap.assign]
  | cons entry rest ih =>
    obtain ⟨k0, v0⟩ := entry
    unfold StdMap.assign
    by_cases h0 : k0 = k
    · rw [if_pos h0]
      simp [h0]
    · rw [if_neg h0]
      simp only [List.map_cons, ih, List.mem_cons]
      by_cases hk : k ∈ rest.map Prod.fst
      · rw [if_pos hk, if_pos (Or.inr hk)]
      · rw [if_neg hk, if_neg (by
          rintro (h | h)
          · exact h0 h.symm
          · exact hk h)]
        rfl

theorem StdMap.assign_nodup {K V : Type} [DecidableEq K] (m : StdMap K V) (k : K) (v : V)
    (h : (m.map Prod.fst).Nodup) : ((StdMap.assign m k v).map Prod.fst).Nodup := by
  rw [StdMap.assign_keys]
  by_cases hk : k ∈ m.map Prod.fst
  · rw [if_pos hk]
    exact h
  · rw [if_neg hk]
    exact List.nodup_append.mpr ⟨h, List.nodup_singleton k, by
      intro a ha hb
      rw [List.mem_singleton] at hb
      exact hk (hb ▸ ha)⟩

/-- The entries of other keys are untouched by `m[k] = v`. -/
theorem StdMap.mem_assign_ne {K V : Type} [DecidableEq K] (m : StdMap K V) (k : K) (v : V)
    (entry : K × V) (h : entry.1 ≠ k) : entry ∈ StdMap.assign m k v ↔ entry ∈ m := by
  induction m with
  | nil =>
    unfold StdMap.assign
    constructor
    · intro he
      rw [List.mem_singleton] at he
      rw [he] at h
      exact absurd rfl h
    · intro he
      cases he
  | cons e0 rest ih =>
    obtain ⟨k0, v0⟩ := e0
    unfold StdMap.assign
    by_cases h0 : k0 = k
    · rw [if_pos h0]
      simp only [List.mem_cons]
      constructor
      · rintro (he | he)
        · rw [he] at h
          exact absurd h0 h
        · exact Or.inr he
      · rintro (he | he)
        · rw [he] at h
          exact absurd h0 h
        · exact Or.inr he
    · rw [if_neg h0]
      simp only [List.mem_cons, ih]

/-- In a map the entries keyed by `k` are one when `k` is bound and none
otherwise. -/
theorem StdMap.entries_of_key {K V : Type} [DecidableEq K] (m : StdMap K V) (k : K)
    (h : (m.map Prod.fst).Nodup) :
    (m.filter (fun entry => decide (entry.1 = k))).length =
      if (StdMap.find m k).isSome = true then 1 else 0 := by
  induction m with
  | nil => rfl
  | cons entry rest ih =>
    obtain ⟨k0, v0⟩ := entry
    rw [List.map_cons, List.nodup_cons] at h
    obtain ⟨hnot, hrest⟩ := h
    unfold StdMap.find
    by_cases h0 : k0 = k
    · have hnone : StdMap.find rest k = none := by
        rw [StdMap.find_eq_none_iff, ← h0]
        exact hnot
      have := ih hrest
      rw [hnone] at this
      rw [List.filter_cons_of_pos (by simpa using h0), if_pos h0, List.length_cons, this]
      rfl
    · rw [List.filter_cons_of_neg (by simpa using h0), if_neg h0]
      exact ih hrest

/-- `SetLoaderForName` in closed form: the loader bound to the name before is
deleted when it is not null, then the name is bound to the new loader. -/
theorem Shell.SetLoaderForName_eq (s : Shell) (loader : Option Handle) (name : String) :
    s.SetLoaderForName loader name =
      { s with
        name_to_loader := StdMap.assign s.name_to_loader name loader
        log := s.log ++
          (match StdMap.find s.name_to_loader name with
           | some (some old) => [Event.DeleteLoader old]
           | _ => []) } := by
  unfold Shell.SetLoaderForName
  cases hf : StdMap.find s.name_to_loader name with
  | none => simp
  | some bound =>
    cases bound with
    | none => simp
    | some old => simp [Shell.emit]

/-! ## Theorems: the inherit sentinel -/

/-- A run of `OnGotResolvedName` that returns adds no key to the registry, or
one whose user is not the inherit sentinel. -/
theorem Shell.OnGotResolvedName_keys (E : Externals) (s : Shell) (params : ConnectParams)
    (client : Option Handle) (resolved_name resolved_instance : String)
    (capabilities_ptr : Option CapabilitySpec) (file_url : Option String)
    (fresh : FreshHandles) (s1 : Shell)
    (h : Shell.OnGotResolvedName E s params client resolved_name resolved_instance
      capabilities_ptr file_url fresh = Except.ok s1) :
    ∀ key, key ∈ s1.identity_to_instance.map Prod.fst →
      key ∈ s.identity_to_instance.map Prod.fst ∨ key.user_id ≠ E.kInheritUserID := by
  intro key hkey
  rcases Shell.OnGotResolvedName_effect E s params client resolved_name resolved_instance
      capabilities_ptr file_url fresh s1 h with ⟨-, hq⟩ | ⟨hfree, created, hidentity, hc⟩
  · rw [hq.1] at hkey
    exact Or.inl hkey
  · obtain ⟨-, -, -, hregistry, -, -⟩ := hc
    rw [hregistry, List.map_append, List.mem_append] at hkey
    rcases hkey with hkey | hkey
    · exact Or.inl hkey
    · right
      simp only [List.map_cons, List.map_nil, List.mem_singleton] at hkey
      rw [hkey, hidentity]
      unfold Shell.OnGotResolvedName at h
      rw [Shell.OnGotResolvedName_create_new E s params client resolved_name
        resolved_instance capabilities_ptr fresh hfree] at h
      cases hcreate : s.CreateInstance E
          (Shell.finalTarget E params resolved_name resolved_instance)
          (capabilities_ptr.getD GetPermissiveCapabilities)
          (if client.isSome = true then client else some fresh.shell_client) with
      | error f => rw [hcreate] at h; cases h
      | ok pair => exact (Shell.CreateInstance_ok hcreate).1

/-- A connection loss adds no key to the registry. -/
theorem Instance.OnConnectionLost_keys (changed : Instance) (s s1 : Shell)
    (h : changed.OnConnectionLost (s.storeInstance changed) = Except.ok s1) :
    ∀ key, key ∈ s1.identity_to_instance.map Prod.fst →
      key ∈ s.identity_to_instance.map Prod.fst := by
  intro key hkey
  rcases Instance.OnConnectionLost_effect changed _ s1 h with ⟨-, h1⟩ | ⟨-, -, h1⟩
  · rw [h1, Shell.storeInstance_keys] at hkey
    exact hkey
  · rw [h1] at hkey
    obtain ⟨entry, hentry, rfl⟩ := List.mem_map.mp hkey
    have hmem := StdMap.erase_subset _ _ entry hentry
    rw [← Shell.storeInstance_keys s changed]
    exact List.mem_map.mpr ⟨entry, hmem, rfl⟩

/-- One entry into the broker adds no key to the registry, or one whose user
is not the inherit sentinel. -/
theorem Shell.Step.keys {E : Externals} {s s1 : Shell} (h : Shell.Step E s s1) :
    ∀ key, key ∈ s1.identity_to_instance.map Prod.fst →
      key ∈ s.identity_to_instance.map Prod.fst ∨ key.user_id ≠ E.kInheritUserID := by
  have same : ∀ t : Shell, t.identity_to_instance.map Prod.fst =
      s.identity_to_instance.map Prod.fst →
      ∀ key, key ∈ t.identity_to_instance.map Prod.fst →
        key ∈ s.identity_to_instance.map Prod.fst ∨ key.user_id ≠ E.kInheritUserID :=
    fun t ht key hkey => Or.inl (ht ▸ hkey)
  match h with
  | Shell.Step.Connect _ _ params h =>
    exact same _ (congrArg _ (Shell.Connect_quiet E s params none s1 h).1)
  | Shell.Step.InitInstanceForEmbedder _ _ name fresh h =>
    exact same _ (congrArg _ (Shell.Connect_quiet E s _ _ s1 h).1)
  | Shell.Step.InstanceConnect _ _ self target_ptr ri li cpc callback _ h =>
    exact same _ (congrArg _
      (Instance.Connect_connector_quiet self E s target_ptr ri li cpc callback s1 h).1)
  | Shell.Step.Resolved _ _ index rn ri caps url fresh h =>
    unfold Shell.DeliverResolution at h
    cases hp : s.pending_resolutions.get? index with
    | none => rw [hp] at h; cases h
    | some entry =>
      obtain ⟨name, params, client⟩ := entry
      rw [hp] at h
      simp only [Option.some.injEq] at h
      exact fun key hkey => Shell.OnGotResolvedName_keys E
        { s with pending_resolutions := s.pending_resolutions.eraseIdx index }
        params client rn ri caps url fresh s1 h key hkey
  | Shell.Step.ShellClientLost _ _ self hreg h =>
    exact fun key hkey =>
      Or.inl (Instance.OnConnectionLost_keys { self with shell_client := none } s s1 h key hkey)
  | Shell.Step.ConnectorLost _ _ self connector hreg h =>
    exact fun key hkey =>
      Or.inl (Instance.OnConnectionLost_keys
        { self with connectors := self.connectors.erase connector } s s1 h key hkey)
  | Shell.Step.InitializeResponse _ self connector_request hreg =>
    cases connector_request with
    | none => exact same _ rfl
    | some request => exact same _ (Shell.storeInstance_keys s _)
  | Shell.Step.Clone _ self request hreg => exact same _ (Shell.storeInstance_keys s _)
  | Shell.Step.PIDAvailable _ self pid hreg =>
    refine same _ ?_
    unfold Instance.PIDAvailable Shell.NotifyPIDAvailable
    rw [Shell.ForAllPtrs_eq]
    exact Shell.storeInstance_keys s _
  | Shell.Step.AddInstanceListener _ listener => exact same _ rfl
  | Shell.Step.SetInstanceQuitCallback _ callback => exact same _ rfl
  | Shell.Step.SetLoaderForName _ loader name =>
    refine same _ ?_
    rw [Shell.SetLoaderForName_eq]
  | Shell.Step.set_default_loader _ loader =>
    refine same _ ?_
    unfold Shell.set_default_loader
    cases s.default_loader <;> rfl
  | Shell.Step.CleanupRunner _ runner => exact same _ rfl
  | Shell.Step.ShellClientFactoryLost _ _ which h =>
    unfold Shell.OnShellClientFactoryLost at h
    cases hf : StdMap.find s.shell_client_factories which with
    | none => rw [hf] at h; cases h
    | some f =>
      rw [hf] at h
      simp only [Except.ok.injEq] at h
      rw [← h]
      exact same _ rfl

/-- The constructor of the broker registers no identity of the inherit user. -/
theorem Shell.construct_keys {E : Externals} {catalog : Option Handle} {fresh : FreshHandles}
    {s : Shell} (h : Shell.construct E catalog fresh = Except.ok s) :
    ∀ key, key ∈ s.identity_to_instance.map Prod.fst → key.user_id ≠ E.kInheritUserID := by
  have h0 : (match (Shell.initial E).CreateInstance E (CreateShellIdentity E)
      GetPermissiveCapabilities (some fresh.shell_client) with
    | Except.error f => Except.error f
    | Except.ok (_, s) => if catalog.isSome then s.InitCatalog E catalog else Except.ok s) =
      Except.ok s := h
  clear h
  rename' h0 => h
  cases hc : (Shell.initial E).CreateInstance E (CreateShellIdentity E)
      GetPermissiveCapabilities (some fresh.shell_client) with
  | error f => rw [hc] at h; cases h
  | ok pair =>
    obtain ⟨shellInstance, sA⟩ := pair
    rw [hc] at h
    simp only at h
    obtain ⟨huserA, -, -, -, -, -, -, -, hsA⟩ := Shell.CreateInstance_ok hc
    have hkeysA : sA.identity_to_instance = [(CreateShellIdentity E, shellInstance)] := by
      rw [hsA]
      rfl
    by_cases hcat : catalog.isSome = true
    · simp only [hcat, if_true] at h
      unfold Shell.InitCatalog at h
      simp only at h
      cases hc2 : sA.CreateInstance E (Identity.construct_2 E kCatalogName E.kRootUserID)
          CapabilitySpec.empty catalog with
      | error f => rw [hc2] at h; cases h
      | ok pair2 =>
        obtain ⟨catalogInstance, sB⟩ := pair2
        rw [hc2] at h
        simp only [Except.ok.injEq] at h
        obtain ⟨huserB, -, -, -, -, -, -, -, hsB⟩ := Shell.CreateInstance_ok hc2
        have hkeys : s.identity_to_instance =
            [(CreateShellIdentity E, shellInstance),
             (Identity.construct_2 E kCatalogName E.kRootUserID, catalogInstance)] := by
          rw [← h]
          show sB.identity_to_instance = _
          rw [hsB]
          show sA.identity_to_instance ++ _ = _
          rw [hkeysA]
          rfl
        intro key hkey
        rw [hkeys] at hkey
        simp only [List.map_cons, List.map_nil, List.mem_cons, List.mem_singleton,
          List.not_mem_nil, or_false] at hkey
        rcases hkey with hkey | hkey
        · rw [hkey]; exact huserA
        · rw [hkey]; exact huserB
    · simp only [hcat, Bool.false_eq_true, if_false, Except.ok.injEq] at h
      intro key hkey
      rw [← h, hkeysA] at hkey
      simp only [List.map_cons, List.map_nil, List.mem_singleton] at hkey
      rw [hkey]
      exact huserA

/-- In every reachable state no registered identity has the inherit user. -/
theorem Shell.Reachable.no_inherit_user {E : Externals} {s : Shell}
    (h : Shell.Reachable E s) :
    ∀ key, key ∈ s.identity_to_instance.map Prod.fst → key.user_id ≠ E.kInheritUserID := by
  induction h with
  | construct catalog fresh s h => exact Shell.construct_keys h
  | step s s1 _ hstep ih =>
    intro key hkey
    rcases Shell.Step.keys hstep key hkey with hold | hnew
    · exact ih key hold
    · exact hnew


/-- `Shell::Connect` without a client returns when its assertions hold. -/
theorem Shell.Connect_1_returns (E : Externals) (s : Shell) (params : ConnectParams)
    (hpre : s.ConnectPreconditions E params none) :
    ∃ s1, Shell.Connect_1 E s params = Except.ok s1 := by
  unfold Shell.Connect_1
  cases hx : s.GetExistingOrRootInstance E params.target with
  | some inst => exact ⟨_, Shell.Connect_existing E s params inst hpre hx⟩
  | none => exact ⟨_, Shell.Connect_unresolved E s params none hpre (Or.inr hx)⟩

/-- A run of `Instance::Connect` either rejects the request, with one callback
run, or hands a target that passed `ValidateIdentity` to `Shell::Connect`. -/
theorem Instance.Connect_rejects_or_forwards (self : Instance) (E : Externals) (shell : Shell)
    (target_ptr : Identity) (remote_interfaces local_interfaces : Option Handle)
    (client_process_connection : Option ClientProcessConnection) (callback : Handle) :
    (∃ result, result ≠ ConnectResult.SUCCEEDED ∧
      self.Connect E shell target_ptr remote_interfaces local_interfaces
        client_process_connection callback =
        Except.ok (shell.rejected E callback result)) ∨
    ((E.IsValidName (self.resolvedTarget E target_ptr).name = true ∧
        E.IsValidGUID (self.resolvedTarget E target_ptr).user_id = true) ∧
      self.Connect E shell target_ptr remote_interfaces local_interfaces
        client_process_connection callback =
        Shell.Connect_1 E shell
          { source := self.identity
            target := self.resolvedTarget E target_ptr
            remote_interfaces := remote_interfaces
            local_interfaces := local_interfaces
            client_process_connection := client_process_connection
            connect_callback := callback }) := by
  by_cases hvalid : E.IsValidName (self.resolvedTarget E target_ptr).name = true ∧
      E.IsValidGUID (self.resolvedTarget E target_ptr).user_id = true
  · rw [Instance.Connect_valid_identity self E shell target_ptr remote_interfaces
      local_interfaces client_process_connection callback hvalid]
    rcases Instance.ValidateClientProcessConnection_outcome self E shell
        client_process_connection (self.resolvedTarget E target_ptr) callback with
      h2 | ⟨result, hresult, h2⟩
    · rw [h2]
      simp only
      rcases Instance.ValidateCapabilities_outcome self E shell
          (self.resolvedTarget E target_ptr) callback with h3 | h3
      · rw [h3]
        exact Or.inr ⟨hvalid, rfl⟩
      · rw [h3]
        exact Or.inl ⟨ConnectResult.ACCESS_DENIED, by decide, rfl⟩
    · rw [h2]
      exact Or.inl ⟨result, hresult, rfl⟩
  · exact Or.inl ⟨ConnectResult.INVALID_ARGUMENT, by decide,
      Instance.Connect_invalid_identity self E shell target_ptr remote_interfaces
        local_interfaces client_process_connection callback hvalid⟩

/-- C25: the inherit sentinel reaches neither `Shell::Connect` from a
connector nor the registry. For an instance whose user is not the inherit
sentinel, the target `Instance::Connect` validates has a user other than the
sentinel; the run either rejects the request or calls `Shell::Connect` with
params that meet its asserted preconditions, and it never ends in a failed
assertion. `CreateInstance` ends in its fatal check for a target with the
inherit user, so in every reachable state no registered instance has it. -/
theorem Connect_never_passes_inherit (E : Externals) (self : Instance) (shell : Shell)
    (target_ptr : Identity) (remote_interfaces local_interfaces : Option Handle)
    (client_process_connection : Option ClientProcessConnection) (callback : Handle)
    (hself : self.identity.user_id ≠ E.kInheritUserID) :
    (self.resolvedTarget E target_ptr).user_id ≠ E.kInheritUserID ∧
    ((∃ result, result ≠ ConnectResult.SUCCEEDED ∧
        self.Connect E shell target_ptr remote_interfaces local_interfaces
          client_process_connection callback =
          Except.ok (shell.rejected E callback result)) ∨
      (shell.ConnectPreconditions E
          { source := self.identity
            target := self.resolvedTarget E target_ptr
            remote_interfaces := remote_interfaces
            local_interfaces := local_interfaces
            client_process_connection := client_process_connection
            connect_callback := callback } none ∧
        self.Connect E shell target_ptr remote_interfaces local_interfaces
          client_process_connection callback =
          Shell.Connect_1 E shell
            { source := self.identity
              target := self.resolvedTarget E target_ptr
              remote_interfaces := remote_interfaces
              local_interfaces := local_interfaces
              client_process_connection := client_process_connection
              connect_callback := callback })) ∧
    (∃ s1, self.Connect E shell target_ptr remote_interfaces local_interfaces
      client_process_connection callback = Except.ok s1) ∧
    (∀ (s : Shell) (target : Identity) (spec : CapabilitySpec) (client : Option Handle),
      target.user_id = E.kInheritUserID →
      s.CreateInstance E target spec client =
        Except.error (Fatal.CHECK "CHECK(target.user_id() != mojom::kInheritUserID)")) ∧
    (∀ s : Shell, Shell.Reachable E s →
      ∀ entry, entry ∈ s.identity_to_instance →
        entry.1.user_id ≠ E.kInheritUserID ∧ entry.2.identity.user_id ≠ E.kInheritUserID) := by
  have hresolved : (self.resolvedTarget E target_ptr).user_id ≠ E.kInheritUserID := by
    unfold Instance.resolvedTarget Identity.set_user_id
    by_cases h : target_ptr.user_id = E.kInheritUserID
    · rw [if_pos h]
      exact hself
    · rw [if_neg h]
      exact h
  have hcases := Instance.Connect_rejects_or_forwards self E shell target_ptr
    remote_interfaces local_interfaces client_process_connection callback
  refine ⟨hresolved, ?_, ?_, ?_, ?_⟩
  · rcases hcases with hrejected | ⟨hvalid, hforward⟩
    · exact Or.inl hrejected
    · exact Or.inr ⟨⟨hvalid.1, hvalid.2, Ne.symm hresolved, fun h => by simp at h⟩, hforward⟩
  · rcases hcases with ⟨result, -, hrejected⟩ | ⟨hvalid, hforward⟩
    · exact ⟨_, hrejected⟩
    · rw [hforward]
      exact Shell.Connect_1_returns E shell _
        ⟨hvalid.1, hvalid.2, Ne.symm hresolved, fun h => by simp at h⟩
  · intro s target spec client htarget
    unfold Shell.CreateInstance
    rw [if_pos htarget]
  · intro s hreach entry hentry
    have hkey := Shell.Reachable.no_inherit_user hreach entry.1
      (List.mem_map.mpr ⟨entry, hentry, rfl⟩)
    refine ⟨hkey, ?_⟩
    rw [(Shell.Reachable.registryOk hreach).2.1 entry hentry]
    exact hkey

/-- C25 at a concrete input: `mojo:app_a` connects to `mojo:app_b` with the
inherit sentinel as the user; `Shell::Connect` is called with the user of
`mojo:app_a`, and its preconditions hold. -/
theorem Connect_never_passes_inherit_witness :
    (permissiveInstance.resolvedTarget sampleExternals
      { name := "mojo:app_b", user_id := sampleExternals.kInheritUserID,
        instance_ := "app_b" }).user_id = sampleUser ∧
    ∃ s1, permissiveInstance.Connect sampleExternals sampleShell
      { name := "mojo:app_b", user_id := sampleExternals.kInheritUserID, instance_ := "app_b" }
      none none none 7 = Except.ok s1 :=
  ⟨by decide,
   (Connect_never_passes_inherit sampleExternals permissiveInstance sampleShell
      { name := "mojo:app_b", user_id := sampleExternals.kInheritUserID, instance_ := "app_b" }
      none none none 7 (by decide)).2.2.1⟩



/-! ## Theorems: class expansion as a set operation -/

/-- What `GenerateCapabilityRequestForConnection` returns, by membership. -/
theorem GenerateCapabilityRequestForConnection_mem (source_spec : CapabilitySpec)
    (target : Identity) (target_spec : CapabilitySpec) :
    (∀ i, i ∈ (GenerateCapabilityRequestForConnection source_spec target
        target_spec).interfaces ↔
      i ∈ (GetCapabilityRequest source_spec target).interfaces ∨
      ∃ c, c ∈ (GetCapabilityRequest source_spec target).classes ∧
        ∃ ifs, StdMap.find target_spec.provided c = some ifs ∧ i ∈ ifs) ∧
    (GenerateCapabilityRequestForConnection source_spec target target_spec).classes =
      (GetCapabilityRequest source_spec target).classes :=
  expandClasses_spec target_spec.provided (GetCapabilityRequest source_spec target).classes
    (GetCapabilityRequest source_spec target)

/-- The inner loop of the expansion keeps the interface set free of
repetitions. -/
theorem insertInterfaces_nodup (l : List String) (r : CapabilityRequest)
    (h : r.interfaces.Nodup) :
    (l.foldl (fun (request : CapabilityRequest) (interface_name : String) =>
        { request with interfaces := StdSet.insert interface_name request.interfaces })
        r).interfaces.Nodup := by
  induction l generalizing r with
  | nil => exact h
  | cons x xs ih =>
    rw [List.foldl_cons]
    exact ih _ (StdSet.nodup_insert x r.interfaces h)

/-- The outer loop of the expansion keeps the interface set free of
repetitions. -/
theorem expandClasses_nodup (provided : StdMap String (StdSet String)) (cs : List String)
    (r : CapabilityRequest) (h : r.interfaces.Nodup) :
    (cs.foldl (fun (request : CapabilityRequest) (class_name : String) =>
        match StdMap.find provided class_name with
        | some provided_interfaces =>
          provided_interfaces.foldl
            (fun (request : CapabilityRequest) (interface_name : String) =>
              { request with interfaces := StdSet.insert interface_name request.interfaces })
            request
        | none => request) r).interfaces.Nodup := by
  induction cs generalizing r with
  | nil => exact h
  | cons c cs ih =>
    rw [List.foldl_cons]
    cases hf : StdMap.find provided c with
    | none => exact ih r h
    | some l => exact ih _ (insertInterfaces_nodup l r h)

/-- The inner loop of the expansion changes nothing when every interface is
in the set already. -/
theorem insertInterfaces_fixed (l : List String) (r : CapabilityRequest)
    (h : ∀ i, i ∈ l → i ∈ r.interfaces) :
    l.foldl (fun (request : CapabilityRequest) (interface_name : String) =>
        { request with interfaces := StdSet.insert interface_name request.interfaces }) r =
      r := by
  induction l with
  | nil => rfl
  | cons x xs ih =>
    rw [List.foldl_cons, StdSet.insert_of_mem x r.interfaces (h x (List.mem_cons_self _ _))]
    exact ih (fun i hi => h i (List.mem_cons_of_mem _ hi))

/-- The outer loop of the expansion changes nothing when the set holds the
interfaces of every class already. -/
theorem expandClasses_fixed (provided : StdMap String (StdSet String)) (cs : List String)
    (r : CapabilityRequest)
    (h : ∀ c, c ∈ cs → ∀ ifs, StdMap.find provided c = some ifs →
      ∀ i, i ∈ ifs → i ∈ r.interfaces) :
    cs.foldl (fun (request : CapabilityRequest) (class_name : String) =>
        match StdMap.find provided class_name with
        | some provided_interfaces =>
          provided_interfaces.foldl
            (fun (request : CapabilityRequest) (interface_name : String) =>
              { request with interfaces := StdSet.insert interface_name request.interfaces })
            request
        | none => request) r = r := by
  induction cs with
  | nil => rfl
  | cons c cs ih =>
    rw [List.foldl_cons]
    cases hf : StdMap.find provided c with
    | none => exact ih (fun c0 hc0 => h c0 (List.mem_cons_of_mem _ hc0))
    | some l =>
      simp only
      rw [insertInterfaces_fixed l r (h c (List.mem_cons_self _ _) l hf)]
      exact ih (fun c0 hc0 => h c0 (List.mem_cons_of_mem _ hc0))

/-- C26: class expansion is insensitive to order and repetition. Two source
specs whose requests for the target have the same interfaces and class lists
that are permutations of each other, or merely lists of the same classes, get
the same interface set; an interface set without repetition stays so, so an
interface named both literally and by a class is in the result once; and a
source spec whose request is an already expanded request gets it back
unchanged. -/
theorem GenerateCapabilityRequestForConnection_order_insensitive (target : Identity)
    (target_spec : CapabilitySpec) :
    (∀ source1 source2 : CapabilitySpec,
      (GetCapabilityRequest source1 target).interfaces =
        (GetCapabilityRequest source2 target).interfaces →
      (GetCapabilityRequest source1 target).classes.Perm
        (GetCapabilityRequest source2 target).classes →
      ∀ i, i ∈ (GenerateCapabilityRequestForConnection source1 target
          target_spec).interfaces ↔
        i ∈ (GenerateCapabilityRequestForConnection source2 target
          target_spec).interfaces) ∧
    (∀ source1 source2 : CapabilitySpec,
      (∀ i, i ∈ (GetCapabilityRequest source1 target).interfaces ↔
        i ∈ (GetCapabilityRequest source2 target).interfaces) →
      (∀ c, c ∈ (GetCapabilityRequest source1 target).classes ↔
        c ∈ (GetCapabilityRequest source2 target).classes) →
      ∀ i, i ∈ (GenerateCapabilityRequestForConnection source1 target
          target_spec).interfaces ↔
        i ∈ (GenerateCapabilityRequestForConnection source2 target
          target_spec).interfaces) ∧
    (∀ source : CapabilitySpec, (GetCapabilityRequest source target).interfaces.Nodup →
      (GenerateCapabilityRequestForConnection source target target_spec).interfaces.Nodup ∧
      ∀ i c ifs, i ∈ (GetCapabilityRequest source target).interfaces →
        c ∈ (GetCapabilityRequest source target).classes →
        StdMap.find target_spec.provided c = some ifs → i ∈ ifs →
        (GenerateCapabilityRequestForConnection source target
          target_spec).interfaces.count i = 1) ∧
    (∀ source expanded : CapabilitySpec,
      GetCapabilityRequest expanded target =
        GenerateCapabilityRequestForConnection source target target_spec →
      GenerateCapabilityRequestForConnection expanded target target_spec =
        GenerateCapabilityRequestForConnection source target target_spec) := by
  have hsame : ∀ source1 source2 : CapabilitySpec,
      (∀ i, i ∈ (GetCapabilityRequest source1 target).interfaces ↔
        i ∈ (GetCapabilityRequest source2 target).interfaces) →
      (∀ c, c ∈ (GetCapabilityRequest source1 target).classes ↔
        c ∈ (GetCapabilityRequest source2 target).classes) →
      ∀ i, i ∈ (GenerateCapabilityRequestForConnection source1 target
          target_spec).interfaces ↔
        i ∈ (GenerateCapabilityRequestForConnection source2 target
          target_spec).interfaces := by
    intro source1 source2 hi hc i
    rw [(GenerateCapabilityRequestForConnection_mem source1 target target_spec).1 i,
      (GenerateCapabilityRequestForConnection_mem source2 target target_spec).1 i, hi i]
    constructor
    · rintro (h | ⟨c, hmem, rest⟩)
      · exact Or.inl h
      · exact Or.inr ⟨c, (hc c).mp hmem, rest⟩
    · rintro (h | ⟨c, hmem, rest⟩)
      · exact Or.inl h
      · exact Or.inr ⟨c, (hc c).mpr hmem, rest⟩
  refine ⟨?_, hsame, ?_, ?_⟩
  · intro source1 source2 hi hperm
    exact hsame source1 source2 (fun i => by rw [hi]) (fun c => hperm.mem_iff)
  · intro source hnodup
    have hresult : (GenerateCapabilityRequestForConnection source target
        target_spec).interfaces.Nodup :=
      expandClasses_nodup target_spec.provided (GetCapabilityRequest source target).classes
        (GetCapabilityRequest source target) hnodup
    refine ⟨hresult, ?_⟩
    intro i c ifs hi _ _ _
    exact List.count_eq_one_of_mem hresult
      (((GenerateCapabilityRequestForConnection_mem source target target_spec).1 i).mpr
        (Or.inl hi))
  · intro source expanded hexpanded
    have hunfold : GenerateCapabilityRequestForConnection expanded target target_spec =
        (GetCapabilityRequest expanded target).classes.foldl
          (fun (request : CapabilityRequest) (class_name : String) =>
            match StdMap.find target_spec.provided class_name with
            | some provided_interfaces =>
              provided_interfaces.foldl
                (fun (request : CapabilityRequest) (interface_name : String) =>
                  { request with
                    interfaces := StdSet.insert interface_name request.interfaces })
                request
            | none => request)
          (GetCapabilityRequest expanded target) := rfl
    rw [hunfold, hexpanded]
    apply expandClasses_fixed
    intro c hc ifs hfind i hi
    rw [(GenerateCapabilityRequestForConnection_mem source target target_spec).2] at hc
    exact ((GenerateCapabilityRequestForConnection_mem source target target_spec).1 i).mpr
      (Or.inr ⟨c, hc, ifs, hfind, hi⟩)

/-- C26 at a concrete input: the classes `net` and `web` requested in either
order give the interfaces `foo`, `bar` and `baz`, each once. -/
theorem GenerateCapabilityRequestForConnection_order_insensitive_witness :
    (∀ i, i ∈ (GenerateCapabilityRequestForConnection netWebSpec
        (scenarioTarget sampleExternals) netWebTargetSpec).interfaces ↔
      i ∈ (GenerateCapabilityRequestForConnection webNetSpec
        (scenarioTarget sampleExternals) netWebTargetSpec).interfaces) ∧
    (GenerateCapabilityRequestForConnection netWebSpec (scenarioTarget sampleExternals)
      netWebTargetSpec).interfaces = ["foo", "bar", "baz"] ∧
    (GenerateCapabilityRequestForConnection netWebSpec (scenarioTarget sampleExternals)
      netWebTargetSpec).interfaces.count "foo" = 1 :=
  ⟨(GenerateCapabilityRequestForConnection_order_insensitive (scenarioTarget sampleExternals)
      netWebTargetSpec).1 netWebSpec webNetSpec (by decide) (by decide),
   by decide,
   ((GenerateCapabilityRequestForConnection_order_insensitive (scenarioTarget sampleExternals)
      netWebTargetSpec).2.2.1 netWebSpec (by decide)).2 "foo" "net" ["foo", "bar"]
      (by decide) (by decide) (by decide) (by decide)⟩



/-! ## Theorems: what a delivery sends -/

/-- C27: the capability request `ConnectToClient` sends with
`AcceptConnection`. When an instance is registered under exactly the source
identity of the params, it is `GenerateCapabilityRequestForConnection` of the
spec of that instance, the identity of the target instance and the spec of the
target instance, and the source id is the id of that instance. When none is
registered, also when one is under the root user, it is the request with the
interface `*` and no class, and the source id is the invalid one. -/
theorem ConnectToClient_capability_request (self : Instance) (E : Externals) (shell : Shell)
    (params : ConnectParams) :
    (∀ source, StdMap.find shell.identity_to_instance params.source = some source →
      self.ConnectToClient E shell params =
        (shell.emit (Event.ConnectCallbackRun params.connect_callback ConnectResult.SUCCEEDED
          self.identity.user_id self.id)).emit
          (Event.AcceptConnection self.id params.source source.id params.remote_interfaces
            params.local_interfaces
            (GenerateCapabilityRequestForConnection source.capability_spec self.identity
              self.capability_spec)
            params.target.name)) ∧
    (StdMap.find shell.identity_to_instance params.source = none →
      self.ConnectToClient E shell params =
        (shell.emit (Event.ConnectCallbackRun params.connect_callback ConnectResult.SUCCEEDED
          self.identity.user_id self.id)).emit
          (Event.AcceptConnection self.id params.source E.kInvalidInstanceID
            params.remote_interfaces params.local_interfaces
            { interfaces := ["*"], classes := [] } params.target.name)) := by
  constructor
  · intro source hsource
    unfold Instance.ConnectToClient Shell.GetExistingInstance
    have h : StdMap.find (shell.emit (Event.ConnectCallbackRun params.connect_callback
        ConnectResult.SUCCEEDED self.identity.user_id self.id)).identity_to_instance
        params.source = some source := hsource
    simp only [h]
  · intro hsource
    unfold Instance.ConnectToClient Shell.GetExistingInstance
    have h : StdMap.find (shell.emit (Event.ConnectCallbackRun params.connect_callback
        ConnectResult.SUCCEEDED self.identity.user_id self.id)).identity_to_instance
        params.source = none := hsource
    simp only [h]
    rfl

/-- C27 at a concrete input: `mojo:app_p`, registered with the id 2, connects
to `mojo:app_a`; the request sent is the wildcard entry of its spec. -/
theorem ConnectToClient_capability_request_witness :
    permissiveInstance.ConnectToClient sampleExternals sampleShell
        { (ConnectParams.fromTo privilegedInstance.identity permissiveInstance.identity) with
          connect_callback := 7 } =
      { sampleShell with
        log :=
          [Event.ConnectCallbackRun 7 ConnectResult.SUCCEEDED sampleUser 1,
           Event.AcceptConnection 1 privilegedInstance.identity 2 none none
             { interfaces := ["*"], classes := [] } "mojo:app_a"] } :=
  ((ConnectToClient_capability_request permissiveInstance sampleExternals sampleShell
    { (ConnectParams.fromTo privilegedInstance.identity permissiveInstance.identity) with
      connect_callback := 7 }).1 privilegedInstance (by decide)).trans rfl

/-! ## Theorems: capability classes -/

/-- C28: an instance holds a capability class exactly when its spec has an
entry keyed `mojo:shell` whose classes contain it. Only that entry counts: two
specs with the same `mojo:shell` entry hold the same classes, whatever their
other entries list, and without such an entry no class is held. An instance
with the permissive spec holds none of the three classes. -/
theorem HasClass_only_from_shell_entry (self : Instance) (class_name : String) :
    (self.HasClass class_name = true ↔
      ∃ r, StdMap.find self.capability_spec.required "mojo:shell" = some r ∧
        class_name ∈ r.classes) ∧
    (∀ other : Instance,
      StdMap.find other.capability_spec.required "mojo:shell" =
        StdMap.find self.capability_spec.required "mojo:shell" →
      other.HasClass class_name = self.HasClass class_name) ∧
    (StdMap.find self.capability_spec.required "mojo:shell" = none →
      self.HasClass class_name = false) ∧
    (∀ wildcard : CapabilityRequest,
      self.capability_spec.required = [("*", wildcard)] →
      self.HasClass class_name = false) ∧
    (self.capability_spec = GetPermissiveCapabilities →
      self.HasClass "user_id" = false ∧ self.HasClass "client_process" = false ∧
      self.HasClass "instance_name" = false) := by
  have hnone : StdMap.find self.capability_spec.required "mojo:shell" = none →
      ∀ c, self.HasClass c = false := by
    intro h c
    unfold Instance.HasClass kShellName
    rw [h]
  refine ⟨?_, ?_, fun h => hnone h class_name, ?_, ?_⟩
  · unfold Instance.HasClass kShellName
    cases h : StdMap.find self.capability_spec.required "mojo:shell" with
    | none => simp
    | some r => simp
  · intro other h
    unfold Instance.HasClass kShellName
    rw [h]
  · intro wildcard h
    apply hnone
    rw [h]
    simp [StdMap.find]
  · intro h
    have hfind : StdMap.find self.capability_spec.required "mojo:shell" = none := by
      rw [h]
      decide
    exact ⟨hnone hfind _, hnone hfind _, hnone hfind _⟩

/-- C28 at a concrete input: `mojo:app_p` holds `client_process` through its
`mojo:shell` entry, and `mojo:app_a`, with the permissive spec, holds none of
the three classes. -/
theorem HasClass_only_from_shell_entry_witness :
    privilegedInstance.HasClass "client_process" = true ∧
    permissiveInstance.HasClass "user_id" = false ∧
    permissiveInstance.HasClass "client_process" = false ∧
    permissiveInstance.HasClass "instance_name" = false :=
  ⟨((HasClass_only_from_shell_entry privilegedInstance "client_process").1).mpr
      ⟨{ interfaces := [], classes := ["client_process", "user_id", "instance_name"] },
        by decide, by decide⟩,
   (HasClass_only_from_shell_entry permissiveInstance "user_id").2.2.2.2 rfl⟩

/-! ## Theorems: the order of the validations -/

/-- C29: `Instance::Connect` validates the identity first, then the client
process connection, then the capabilities, and the first failure ends the
run. A target with an invalid name or a malformed user id gets
`INVALID_ARGUMENT` whatever the connection and the spec of the source are; a
failure of the second validation is the result whatever the capabilities are;
a failure of the third is `ACCESS_DENIED`; only when all three pass is
`Shell::Connect` called. A rejection logs one callback run and nothing else. -/
theorem Connect_validation_order (self : Instance) (E : Externals) (shell : Shell)
    (target_ptr : Identity) (remote_interfaces local_interfaces : Option Handle)
    (client_process_connection : Option ClientProcessConnection) (callback : Handle) :
    (¬ (E.IsValidName (self.resolvedTarget E target_ptr).name = true ∧
        E.IsValidGUID (self.resolvedTarget E target_ptr).user_id = true) →
      self.Connect E shell target_ptr remote_interfaces local_interfaces
        client_process_connection callback =
        Except.ok (shell.rejected E callback ConnectResult.INVALID_ARGUMENT)) ∧
    ((E.IsValidName (self.resolvedTarget E target_ptr).name = true ∧
        E.IsValidGUID (self.resolvedTarget E target_ptr).user_id = true) →
      (∀ after, self.ValidateClientProcessConnection E shell client_process_connection
          (self.resolvedTarget E target_ptr) callback = (false, after) →
        self.Connect E shell target_ptr remote_interfaces local_interfaces
          client_process_connection callback = Except.ok after ∧
        ∃ result, result ≠ ConnectResult.SUCCEEDED ∧
          after = shell.rejected E callback result) ∧
      (self.ValidateClientProcessConnection E shell client_process_connection
          (self.resolvedTarget E target_ptr) callback = (true, shell) →
        (∀ after, self.ValidateCapabilities E shell (self.resolvedTarget E target_ptr)
            callback = (false, after) →
          self.Connect E shell target_ptr remote_interfaces local_interfaces
            client_process_connection callback = Except.ok after ∧
          after = shell.rejected E callback ConnectResult.ACCESS_DENIED) ∧
        (self.ValidateCapabilities E shell (self.resolvedTarget E target_ptr) callback =
            (true, shell) →
          self.Connect E shell target_ptr remote_interfaces local_interfaces
            client_process_connection callback =
            Shell.Connect_1 E shell
              { source := self.identity
                target := self.resolvedTarget E target_ptr
                remote_interfaces := remote_interfaces
                local_interfaces := local_interfaces
                client_process_connection := client_process_connection
                connect_callback := callback }))) ∧
    (∀ result, (shell.rejected E callback result).eventsSince shell =
      [Event.ConnectCallbackRun callback result E.kInheritUserID E.kInvalidInstanceID]) := by
  refine ⟨?_, ?_, fun result => (Shell.rejected_frame shell E callback result).2.2.2⟩
  · intro hinvalid
    exact Instance.Connect_invalid_identity self E shell target_ptr remote_interfaces
      local_interfaces client_process_connection callback hinvalid
  · intro hvalid
    have hconnect := Instance.Connect_valid_identity self E shell target_ptr
      remote_interfaces local_interfaces client_process_connection callback hvalid
    constructor
    · intro after hafter
      rw [hafter] at hconnect
      refine ⟨hconnect, ?_⟩
      rcases Instance.ValidateClientProcessConnection_outcome self E shell
          client_process_connection (self.resolvedTarget E target_ptr) callback with
        h | ⟨result, hresult, h⟩
      · rw [h] at hafter
        cases hafter
      · rw [h] at hafter
        simp only [Prod.mk.injEq, true_and] at hafter
        exact ⟨result, hresult, hafter.symm⟩
    · intro hpassed
      rw [hpassed] at hconnect
      simp only at hconnect
      constructor
      · intro after hafter
        rw [hafter] at hconnect
        refine ⟨hconnect, ?_⟩
        rcases Instance.ValidateCapabilities_outcome self E shell
            (self.resolvedTarget E target_ptr) callback with h | h
        · rw [h] at hafter
          cases hafter
        · rw [h] at hafter
          simp only [Prod.mk.injEq, true_and] at hafter
          exact hafter.symm
      · intro hallowed
        rw [hallowed] at hconnect
        exact hconnect

/-- C29 at a concrete input: `mojo:app_b`, whose spec grants nothing, connects
to the invalid name `app_a`; the answer is `INVALID_ARGUMENT`, not the
`ACCESS_DENIED` of its spec, and one callback run is logged. -/
theorem Connect_validation_order_witness :
    (isolatedInstance.ValidateCapabilities sampleExternals sampleShell
      { name := "app_a", user_id := sampleUser, instance_ := "app_a" } 7).1 = false ∧
    isolatedInstance.Connect sampleExternals sampleShell
        { name := "app_a", user_id := sampleUser, instance_ := "app_a" } none none none 7 =
      Except.ok (sampleShell.rejected sampleExternals 7 ConnectResult.INVALID_ARGUMENT) ∧
    (sampleShell.rejected sampleExternals 7 ConnectResult.INVALID_ARGUMENT).eventsSince
        sampleShell =
      [Event.ConnectCallbackRun 7 ConnectResult.INVALID_ARGUMENT
        sampleExternals.kInheritUserID sampleExternals.kInvalidInstanceID] :=
  ⟨by decide,
   (Connect_validation_order isolatedInstance sampleExternals sampleShell
      { name := "app_a", user_id := sampleUser, instance_ := "app_a" } none none none 7).1
      (by decide),
   (Connect_validation_order isolatedInstance sampleExternals sampleShell
      { name := "app_a", user_id := sampleUser, instance_ := "app_a" } none none none 7).2.2
      ConnectResult.INVALID_ARGUMENT⟩

/-! ## Theorems: the root user fallback -/

/-- C30: `Shell::Connect` satisfied by the root user fallback. No instance is
registered for the target, one is for the same name and qualifier under the
root user. The connect is delivered to that instance: the callback runs once,
with `SUCCEEDED`, the root user id, which is not the user id of the request,
and the id of the root instance; no resolver request is made, no instance is
created, and the target still has no entry of its own. -/
theorem Connect_root_fallback (E : Externals) (s : Shell) (params : ConnectParams)
    (root : Instance)
    (hpre : s.ConnectPreconditions E params none) (hok : s.RegistryOk E)
    (hnone : StdMap.find s.identity_to_instance params.target = none)
    (hroot : StdMap.find s.identity_to_instance
      { name := params.target.name, user_id := E.kRootUserID,
        instance_ := params.target.instance_ } = some root) :
    ∃ s1, Shell.Connect_1 E s params = Except.ok s1 ∧
      s1.eventsSince s =
        Event.TraceShellConnect params.target.name :: root.deliveryEvents E s params ∧
      (s1.eventsSince s).filter (Event.isConnectCallbackRun params.connect_callback) =
        [Event.ConnectCallbackRun params.connect_callback ConnectResult.SUCCEEDED
          E.kRootUserID root.id] ∧
      root.identity.user_id = E.kRootUserID ∧
      params.target.user_id ≠ E.kRootUserID ∧
      (s1.eventsSince s).filter Event.isResolveMojoName = [] ∧
      createdIds (s1.eventsSince s) = [] ∧
      s1.identity_to_instance = s.identity_to_instance ∧
      s1.pending_resolutions = s.pending_resolutions ∧
      s1.unique_id = s.unique_id ∧
      StdMap.find s1.identity_to_instance params.target = none := by
  have hfound : s.GetExistingOrRootInstance E params.target = some root := by
    unfold Shell.GetExistingOrRootInstance Shell.GetExistingInstance Identity.set_user_id
    rw [hnone]
    exact hroot
  have hidentity : root.identity =
      { name := params.target.name, user_id := E.kRootUserID,
        instance_ := params.target.instance_ } :=
    hok.2.1 _ (StdMap.mem_of_find _ _ _ hroot)
  have huser : root.identity.user_id = E.kRootUserID := by rw [hidentity]
  have hother : params.target.user_id ≠ E.kRootUserID := by
    intro h
    have hsame : Identity.mk params.target.name E.kRootUserID params.target.instance_ =
        params.target := by
      rw [← h]
    rw [hsame, hnone] at hroot
    cases hroot
  refine ⟨_, Shell.Connect_1_delivered E s params root hpre hfound,
    Shell.eventsSince_of_log rfl, ?_, huser, hother, ?_, ?_, rfl, rfl, rfl, hnone⟩
  · rw [Shell.eventsSince_of_log rfl, ← huser]
    simp [Instance.deliveryEvents, Event.isConnectCallbackRun]
  · rw [Shell.eventsSince_of_log rfl]
    simp [Instance.deliveryEvents, Event.isResolveMojoName]
  · rw [Shell.eventsSince_of_log rfl]
    simp [Instance.deliveryEvents, createdIds, Event.createdId]

/-- C30 at a concrete input: the connect to `mojo:catalog` under `sampleUser`
is delivered to the catalog of the root user, whose id is 2. -/
theorem Connect_root_fallback_witness :
    ∃ s1, Shell.Connect_1 sampleExternals bootedShell catalogParams = Except.ok s1 ∧
      (s1.eventsSince bootedShell).filter (Event.isConnectCallbackRun 7) =
        [Event.ConnectCallbackRun 7 ConnectResult.SUCCEEDED
          "505C0EE9-3013-43C0-82B0-A84F50CF8D84" 2] ∧
      s1.identity_to_instance = bootedShell.identity_to_instance := by
  obtain ⟨root, hroot⟩ : ∃ root, StdMap.find bootedShell.identity_to_instance
      { name := "mojo:catalog", user_id := sampleExternals.kRootUserID,
        instance_ := "catalog" } = some root := ⟨_, rfl⟩
  obtain ⟨s1, h1, -, h3, -, -, -, -, h8, -, -, -⟩ :=
    Connect_root_fallback sampleExternals bootedShell catalogParams root
      ⟨by decide, by decide, by decide, by decide⟩
      (Shell.Reachable.registryOk (Shell.Reachable.construct (some 50) sampleFresh
        bootedShell rfl))
      (by decide) hroot
  have hid : root.id = 2 := by
    have : some root = some
        (match StdMap.find bootedShell.identity_to_instance
          { name := "mojo:catalog", user_id := sampleExternals.kRootUserID,
            instance_ := "catalog" } with
        | some found => found
        | none => permissiveInstance) := by rw [hroot]
    rw [Option.some.injEq] at this
    rw [this]
    rfl
  refine ⟨s1, h1, ?_, h8⟩
  rw [← hid]
  exact h3



/-! ## Theorems: the loader map in reachable states -/

/-- `Shell::Connect` leaves the loader map alone. -/
theorem Shell.Connect_loaders (E : Externals) (s : Shell) (params : ConnectParams)
    (client : Option Handle) (s1 : Shell)
    (h : Shell.Connect E s params client = Except.ok s1) :
    s1.name_to_loader = s.name_to_loader := by
  unfold Shell.Connect at h
  simp only at h
  split_ifs at h with h1 h2 h3 h4 h5
  · unfold Shell.ConnectToExistingInstance at h
    cases hx : (s.emit (Event.TraceShellConnect params.target.name)).GetExistingOrRootInstance E
        params.target with
    | some inst =>
      rw [hx] at h
      simp only [Except.ok.injEq] at h
      rw [← h, Instance.ConnectToClient_eq]
      rfl
    | none =>
      rw [hx] at h
      simp only [Except.ok.injEq] at h
      rw [← h]
      rfl
  · cases h
    rfl

/-- `CreateShellClient` leaves the loader map alone. -/
theorem Shell.CreateShellClient_loaders (E : Externals) (s : Shell)
    (source shell_client_factory : Identity) (name : String) (request : Option Handle)
    (fresh : FreshHandles) (s1 : Shell)
    (h : s.CreateShellClient E source shell_client_factory name request fresh =
      Except.ok s1) :
    s1.name_to_loader = s.name_to_loader := by
  unfold Shell.CreateShellClient Shell.GetShellClientFactory ConnectToInterface
    Shell.Connect_1 at h
  cases hf : StdMap.find s.shell_client_factories shell_client_factory with
  | some factory =>
    simp only [hf, Except.ok.injEq] at h
    rw [← h]
    rfl
  | none =>
    simp only [hf] at h
    cases hc : Shell.Connect E s
        { (ConnectParams.fromTo source shell_client_factory) with
          remote_interfaces := some fresh.remote_interfaces } none with
    | error f => rw [hc] at h; cases h
    | ok s2 =>
      rw [hc] at h
      simp only [Except.ok.injEq] at h
      rw [← h]
      exact Shell.Connect_loaders E s _ none s2 hc

/-- `OnGotResolvedName` leaves the loader map alone. -/
theorem Shell.OnGotResolvedName_loaders (E : Externals) (s : Shell) (params : ConnectParams)
    (client : Option Handle) (resolved_name resolved_instance : String)
    (capabilities_ptr : Option CapabilitySpec) (file_url : Option String)
    (fresh : FreshHandles) (s1 : Shell)
    (h : Shell.OnGotResolvedName E s params client resolved_name resolved_instance
      capabilities_ptr file_url fresh = Except.ok s1) :
    s1.name_to_loader = s.name_to_loader := by
  unfold Shell.OnGotResolvedName at h
  cases hcreate : s.OnGotResolvedName_create E params client resolved_name resolved_instance
      capabilities_ptr fresh with
  | error f => rw [hcreate] at h; cases h
  | ok pair =>
    obtain ⟨result, mid⟩ := pair
    rw [hcreate] at h
    cases result with
    | none =>
      simp only [Except.ok.injEq] at h
      rw [← h]
      cases hx : s.GetExistingOrRootInstance E
          (Shell.finalTarget E params resolved_name resolved_instance) with
      | some inst =>
        rw [Shell.OnGotResolvedName_create_existing E s params client resolved_name
          resolved_instance capabilities_ptr fresh inst hx] at hcreate
        simp only [Except.ok.injEq, Prod.mk.injEq, true_and] at hcreate
        rw [← hcreate, Instance.ConnectToClient_eq]
      | none =>
        rw [Shell.OnGotResolvedName_create_new E s params client resolved_name
          resolved_instance capabilities_ptr fresh hx] at hcreate
        split at hcreate <;> cases hcreate
    | some made =>
      simp only at h
      obtain ⟨s2, -, hmid⟩ := Shell.OnGotResolvedName_create_state hcreate
      have hmidl : mid.name_to_loader = s.name_to_loader := by rw [hmid]
      rw [← hmidl]
      rcases Shell.OnGotResolvedName_launch_cases E mid made resolved_name capabilities_ptr
          file_url fresh s1 h with
        ⟨-, hs1⟩ | ⟨-, -, loader, -, hs1⟩ | ⟨-, -, url, manifest, -, -, hbranch⟩
      · rw [hs1]
      · rw [hs1]
        rfl
      · rcases hbranch with ⟨-, hcsc⟩ | ⟨-, connection, -, hs1⟩ | ⟨-, -, hs1⟩
        · exact Shell.CreateShellClient_loaders E mid _ _ _ _ fresh s1 hcsc
        · rw [hs1]
          rfl
        · rw [hs1]
          rfl

/-- A connection loss leaves the loader map alone. -/
theorem Instance.OnConnectionLost_loaders (changed : Instance) (s s1 : Shell)
    (h : changed.OnConnectionLost (s.storeInstance changed) = Except.ok s1) :
    s1.name_to_loader = s.name_to_loader := by
  rcases Instance.OnConnectionLost_effect changed _ s1 h with ⟨-, h1⟩ | ⟨-, -, h1⟩
  · rw [h1]
    rfl
  · rw [h1]
    rfl

/-- One entry into the broker leaves the loader map alone or is an assignment
to it. -/
theorem Shell.Step.loaders {E : Externals} {s s1 : Shell} (h : Shell.Step E s s1) :
    s1.name_to_loader = s.name_to_loader ∨
    ∃ loader name, s1.name_to_loader = StdMap.assign s.name_to_loader name loader := by
  match h with
  | Shell.Step.Connect _ _ params h => exact Or.inl (Shell.Connect_loaders E s params none s1 h)
  | Shell.Step.InitInstanceForEmbedder _ _ name fresh h =>
    exact Or.inl (Shell.Connect_loaders E s _ _ s1 h)
  | Shell.Step.InstanceConnect _ _ self target_ptr ri li cpc callback _ h =>
    rcases Instance.Connect_rejects_or_forwards self E s target_ptr ri li cpc callback with
      ⟨result, -, hrejected⟩ | ⟨-, hforward⟩
    · rw [hrejected] at h
      simp only [Except.ok.injEq] at h
      rw [← h]
      exact Or.inl rfl
    · rw [hforward] at h
      exact Or.inl (Shell.Connect_loaders E s _ none s1 h)
  | Shell.Step.Resolved _ _ index rn ri caps url fresh h =>
    unfold Shell.DeliverResolution at h
    cases hp : s.pending_resolutions.get? index with
    | none => rw [hp] at h; cases h
    | some entry =>
      obtain ⟨name, params, client⟩ := entry
      rw [hp] at h
      simp only [Option.some.injEq] at h
      exact Or.inl (Shell.OnGotResolvedName_loaders E
        { s with pending_resolutions := s.pending_resolutions.eraseIdx index }
        params client rn ri caps url fresh s1 h)
  | Shell.Step.ShellClientLost _ _ self hreg h =>
    exact Or.inl (Instance.OnConnectionLost_loaders { self with shell_client := none } s s1 h)
  | Shell.Step.ConnectorLost _ _ self connector hreg h =>
    exact Or.inl (Instance.OnConnectionLost_loaders
      { self with connectors := self.connectors.erase connector } s s1 h)
  | Shell.Step.InitializeResponse _ self connector_request hreg =>
    cases connector_request with
    | none => exact Or.inl rfl
    | some request => exact Or.inl rfl
  | Shell.Step.Clone _ self request hreg => exact Or.inl rfl
  | Shell.Step.PIDAvailable _ self pid hreg =>
    left
    unfold Instance.PIDAvailable Shell.NotifyPIDAvailable
    rw [Shell.ForAllPtrs_eq]
    rfl
  | Shell.Step.AddInstanceListener _ listener => exact Or.inl rfl
  | Shell.Step.SetInstanceQuitCallback _ callback => exact Or.inl rfl
  | Shell.Step.SetLoaderForName _ loader name =>
    right
    refine ⟨loader, name, ?_⟩
    rw [Shell.SetLoaderForName_eq]
  | Shell.Step.set_default_loader _ loader =>
    left
    unfold Shell.set_default_loader
    cases s.default_loader <;> rfl
  | Shell.Step.CleanupRunner _ runner => exact Or.inl rfl
  | Shell.Step.ShellClientFactoryLost _ _ which h =>
    unfold Shell.OnShellClientFactoryLost at h
    cases hf : StdMap.find s.shell_client_factories which with
    | none => rw [hf] at h; cases h
    | some f =>
      rw [hf] at h
      simp only [Except.ok.injEq] at h
      rw [← h]
      exact Or.inl rfl

/-- The constructor of the broker leaves the loader map empty. -/
theorem Shell.construct_loaders {E : Externals} {catalog : Option Handle}
    {fresh : FreshHandles} {s : Shell} (h : Shell.construct E catalog fresh = Except.ok s) :
    s.name_to_loader = [] := by
  have h0 : (match (Shell.initial E).CreateInstance E (CreateShellIdentity E)
      GetPermissiveCapabilities (some fresh.shell_client) with
    | Except.error f => Except.error f
    | Except.ok (_, s) => if catalog.isSome then s.InitCatalog E catalog else Except.ok s) =
      Except.ok s := h
  clear h
  rename' h0 => h
  cases hc : (Shell.initial E).CreateInstance E (CreateShellIdentity E)
      GetPermissiveCapabilities (some fresh.shell_client) with
  | error f => rw [hc] at h; cases h
  | ok pair =>
    obtain ⟨shellInstance, sA⟩ := pair
    rw [hc] at h
    simp only at h
    have hsA := (Shell.CreateInstance_ok hc).2.2.2.2.2.2.2.2
    have hloadersA : sA.name_to_loader = [] := by
      rw [hsA]
      rfl
    by_cases hcat : catalog.isSome = true
    · simp only [hcat, if_true] at h
      unfold Shell.InitCatalog at h
      simp only at h
      cases hc2 : sA.CreateInstance E (Identity.construct_2 E kCatalogName E.kRootUserID)
          CapabilitySpec.empty catalog with
      | error f => rw [hc2] at h; cases h
      | ok pair2 =>
        obtain ⟨catalogInstance, sB⟩ := pair2
        rw [hc2] at h
        simp only [Except.ok.injEq] at h
        have hsB := (Shell.CreateInstance_ok hc2).2.2.2.2.2.2.2.2
        rw [← h]
        show sB.name_to_loader = []
        rw [hsB]
        exact hloadersA
    · simp only [hcat, Bool.false_eq_true, if_false, Except.ok.injEq] at h
      rw [← h]
      exact hloadersA

/-- In every reachable state the loader map binds no name twice. -/
theorem Shell.Reachable.loaders_nodup {E : Externals} {s : Shell} (h : Shell.Reachable E s) :
    (s.name_to_loader.map Prod.fst).Nodup := by
  induction h with
  | construct catalog fresh s h =>
    rw [Shell.construct_loaders h]
    exact List.nodup_nil
  | step s s1 _ hstep ih =>
    rcases Shell.Step.loaders hstep with hsame | ⟨loader, name, hassign⟩
    · rw [hsame]
      exact ih
    · rw [hassign]
      exact StdMap.assign_nodup _ name loader ih


/-- C24: `SetLoaderForName` is last-write-wins. After the loader `l1` and then
the loader `l2` were set for the name `n`, the map has one entry for `n`, it
binds `n` to `l2`, `GetLoaderForName(n)` returns `l2`, the loader `l1` was
deleted (after the loader bound to `n` before, if any, and nothing else), and
the bindings of all other names are as before. The map is taken to bind no
name twice, which holds in every reachable state. -/
theorem SetLoaderForName_last_write_wins (s : Shell) (l1 l2 : Option Handle) (n : String)
    (hmap : (s.name_to_loader.map Prod.fst).Nodup) :
    (((s.SetLoaderForName l1 n).SetLoaderForName l2 n).name_to_loader.filter
      (fun entry => decide (entry.1 = n))).length = 1 ∧
    (((s.SetLoaderForName l1 n).SetLoaderForName l2 n).name_to_loader.map Prod.fst).Nodup ∧
    StdMap.find ((s.SetLoaderForName l1 n).SetLoaderForName l2 n).name_to_loader n = some l2 ∧
    ((s.SetLoaderForName l1 n).SetLoaderForName l2 n).GetLoaderForName n = l2 ∧
    ((s.SetLoaderForName l1 n).SetLoaderForName l2 n).eventsSince s =
      (match StdMap.find s.name_to_loader n with
       | some (some old) => [Event.DeleteLoader old]
       | _ => []) ++
      (match l1 with
       | some first => [Event.DeleteLoader first]
       | none => []) ∧
    (∀ first, l1 = some first →
      Event.DeleteLoader first ∈
        ((s.SetLoaderForName l1 n).SetLoaderForName l2 n).eventsSince s) ∧
    (∀ m, m ≠ n →
      StdMap.find ((s.SetLoaderForName l1 n).SetLoaderForName l2 n).name_to_loader m =
        StdMap.find s.name_to_loader m) ∧
    (∀ m, m ≠ n →
      ((s.SetLoaderForName l1 n).SetLoaderForName l2 n).GetLoaderForName m =
        s.GetLoaderForName m) ∧
    (∀ entry : String × Option Handle, entry.1 ≠ n →
      (entry ∈ ((s.SetLoaderForName l1 n).SetLoaderForName l2 n).name_to_loader ↔
        entry ∈ s.name_to_loader)) ∧
    (∀ (E : Externals) (reached : Shell), Shell.Reachable E reached →
      (reached.name_to_loader.map Prod.fst).Nodup) := by
  have hstate : (s.SetLoaderForName l1 n).SetLoaderForName l2 n =
      { s with
        name_to_loader := StdMap.assign (StdMap.assign s.name_to_loader n l1) n l2
        log := s.log ++
          ((match StdMap.find s.name_to_loader n with
            | some (some old) => [Event.DeleteLoader old]
            | _ => []) ++
           (match l1 with
            | some first => [Event.DeleteLoader first]
            | none => [])) } := by
    rw [Shell.SetLoaderForName_eq, Shell.SetLoaderForName_eq]
    simp only [StdMap.find_assign_self, List.append_assoc]
    cases l1 <;> rfl
  have hnodup := StdMap.assign_nodup _ n l2 (StdMap.assign_nodup _ n l1 hmap)
  have hevents := Shell.eventsSince_of_log (congrArg Shell.log hstate)
  rw [hstate] at hevents ⊢
  refine ⟨?_, hnodup, StdMap.find_assign_self _ n l2, ?_, hevents, ?_, ?_, ?_, ?_,
    fun E reached hreach => Shell.Reachable.loaders_nodup hreach⟩
  · show ((StdMap.assign (StdMap.assign s.name_to_loader n l1) n l2).filter
      (fun entry => decide (entry.1 = n))).length = 1
    rw [StdMap.entries_of_key _ n hnodup, StdMap.find_assign_self]
    rfl
  · unfold Shell.GetLoaderForName
    simp only [StdMap.find_assign_self]
  · intro first hfirst
    rw [hevents, hfirst]
    simp
  · intro m hm
    show StdMap.find (StdMap.assign (StdMap.assign s.name_to_loader n l1) n l2) m = _
    rw [StdMap.find_assign_ne _ n m l2 hm, StdMap.find_assign_ne _ n m l1 hm]
  · intro m hm
    unfold Shell.GetLoaderForName
    simp only [StdMap.find_assign_ne _ n m _ hm]
  · intro entry hentry
    show entry ∈ StdMap.assign (StdMap.assign s.name_to_loader n l1) n l2 ↔ _
    rw [StdMap.mem_assign_ne _ n l2 entry hentry, StdMap.mem_assign_ne _ n l1 entry hentry]

/-- C24 at a concrete input: the loaders 80 and then 81 are set for `mojo:svc`
in the booted broker. -/
theorem SetLoaderForName_last_write_wins_witness :
    ((bootedShell.SetLoaderForName (some 80) "mojo:svc").SetLoaderForName (some 81)
      "mojo:svc").GetLoaderForName "mojo:svc" = some 81 ∧
    ((bootedShell.SetLoaderForName (some 80) "mojo:svc").SetLoaderForName (some 81)
      "mojo:svc").eventsSince bootedShell = [Event.DeleteLoader 80] :=
  ⟨(SetLoaderForName_last_write_wins bootedShell (some 80) (some 81) "mojo:svc"
      (Shell.Reachable.loaders_nodup
        (Shell.Reachable.construct (some 50) sampleFresh bootedShell rfl :
          Shell.Reachable sampleExternals bootedShell))).2.2.2.1,
   (SetLoaderForName_last_write_wins bootedShell (some 80) (some 81) "mojo:svc"
      (Shell.Reachable.loaders_nodup
        (Shell.Reachable.construct (some 50) sampleFresh bootedShell rfl :
          Shell.Reachable sampleExternals bootedShell))).2.2.2.2.1.trans (by decide)⟩

end mojo.shell
